import Mathlib

/-!
# opendevice-manager: device repository, connection registry and northbound handlers

A shallow embedding of the Go packages `pkg/db`, `pkg/models/device`,
`pkg/models/hwcomponents`, `pkg/nbi` and `pkg/sbi/grpc`.

Conventions of the embedding

* Package level variables (`db.kvClient`, the device cache, the component cache,
  the connection map) are the fields of one `State` that every function takes
  and returns.
* A Go `error` is an `Option String`: `none` is `nil`, `some msg` is an error
  whose `Error()` text is `msg`.  A Go pointer result is an `Option`.
* Go maps and `sync.Map` are association lists with unique keys (`GoMap`).
* The bytes of a KV row are a `KVValue`: either the plain text that was put, or
  the JSON document that `json.Marshal` produced (kept as the document it
  denotes, `JVal`).
* What the network does (dialling a device, the frames of a southbound stream,
  host name resolution) is an explicit argument of the function that uses it.
-/

set_option autoImplicit false

namespace OpenDevMgr

/-! ## Go maps -/

/-- A Go map (or `sync.Map`) with string keys: an association list. -/
abbrev GoMap (V : Type) := List (String × V)

namespace GoMap

variable {V : Type}

/-- The lookup `m[k]` / `sync.Map.Load`: the first binding of `k`. -/
def load : GoMap V → String → Option V
  | [], _ => none
  | (k', v) :: t, k => if k' = k then some v else load t k

/-- The removal `delete(m, k)` / `sync.Map.Delete`. -/
def delete (m : GoMap V) (k : String) : GoMap V :=
  m.filter (fun p => decide (p.1 ≠ k))

/-- The assignment `m[k] = v` / `sync.Map.Store`: the old binding of `k` is replaced. -/
def store (m : GoMap V) (k : String) (v : V) : GoMap V :=
  (k, v) :: delete m k

/-- The keys of the map, in list order. -/
def keys (m : GoMap V) : List String := m.map Prod.fst

end GoMap

/-! ## JSON documents -/

/-- A JSON document. Numbers are the integer literals; the records of this
program have no other numeric field. -/
inductive JVal where
  | null
  | bool (b : Bool)
  | num (n : Int)
  | str (s : String)
  | arr (xs : List JVal)
  | obj (fields : List (String × JVal))

/-- The escape sequence of a code point below 256: a backslash (92), `u00` and
two hexadecimal digits. -/
def hexEscape (n : Nat) : String :=
  let digit (d : Nat) : Char := if d < 10 then Char.ofNat (48 + d) else Char.ofNat (87 + d)
  String.mk [Char.ofNat 92, 'u', '0', '0', digit (n / 16 % 16), digit (n % 16)]

/-- How `encoding/json` writes one character of a string (HTML escaping on,
the default of `json.Marshal`): the quote (34), the backslash (92), the control
characters, the characters 60, 62 and 38 of HTML and the two line separators
are escaped. -/
def escapeChar (c : Char) : String :=
  if c.toNat = 34 then String.mk [Char.ofNat 92, Char.ofNat 34]
  else if c.toNat = 92 then String.mk [Char.ofNat 92, Char.ofNat 92]
  else if c.toNat = 10 then String.mk [Char.ofNat 92, 'n']
  else if c.toNat = 13 then String.mk [Char.ofNat 92, 'r']
  else if c.toNat = 9 then String.mk [Char.ofNat 92, 't']
  else if c.toNat < 32 then hexEscape c.toNat
  else if c.toNat = 60 ∨ c.toNat = 62 ∨ c.toNat = 38 then hexEscape c.toNat
  else if c.toNat = 8232 then String.mk [Char.ofNat 92, 'u', '2', '0', '2', '8']
  else if c.toNat = 8233 then String.mk [Char.ofNat 92, 'u', '2', '0', '2', '9']
  else String.mk [c]

/-- A JSON string literal: the escaped characters between two quotes. -/
def quoteString (s : String) : String :=
  String.mk [Char.ofNat 34] ++ String.join (s.data.map escapeChar) ++ String.mk [Char.ofNat 34]

mutual
/-- The compact text of a document, as `json.Marshal` writes it. -/
def JVal.render : JVal → String
  | .null => "null"
  | .bool b => if b then "true" else "false"
  | .num n => toString n
  | .str s => quoteString s
  | .arr xs => "[" ++ JVal.renderList xs ++ "]"
  | .obj fs => "\x7b" ++ JVal.renderFields fs ++ "\x7d"
/-- The elements of an array, comma separated. -/
def JVal.renderList : List JVal → String
  | [] => ""
  | [x] => x.render
  | x :: y :: xs => x.render ++ "," ++ JVal.renderList (y :: xs)
/-- The members of an object, comma separated. -/
def JVal.renderFields : List (String × JVal) → String
  | [] => ""
  | [(k, v)] => quoteString k ++ ":" ++ v.render
  | (k, v) :: p :: xs => quoteString k ++ ":" ++ v.render ++ "," ++ JVal.renderFields (p :: xs)
end

/-- The bytes of one KV row. `db.Put` is given either a plain string (a device
name) or the output of `json.Marshal`; the latter is kept as the document. -/
inductive KVValue where
  | text (s : String)
  | json (j : JVal)

/-- The row read as a Go string (`string(kvPair.Value.([]byte))`). -/
def KVValue.toText : KVValue → String
  | .text s => s
  | .json j => j.render

/-! ## Records (`pkg/models/device/v1`, `pkg/models/hwcomponents/v1`) -/

/-- The protobuf `timestamp.Timestamp` (`int64` seconds, `int32` nanos). -/
structure Timestamp where
  Seconds : Int := 0
  Nanos : Int := 0
deriving DecidableEq, Repr

/-- Modelled from the spec: `dmi.ComponentState` is declared in the external
`dmi` package; the data model names its `adminState` (an `int32` enum). -/
structure ComponentState where
  AdminState : Int := 0
deriving DecidableEq, Repr

/-- The struct `LoggingInfo`. `LoggableEntities` is a Go map that may be `nil`
(`none`) or allocated (`some`), which the program tells apart. -/
structure LoggingInfo where
  EndPoint : String := ""
  Protocol : String := ""
  LogLevel : Int := 0
  LoggableEntities : Option (GoMap Int) := none
deriving DecidableEq, Repr

/-- The struct `DeviceRecordV1_0`, in the order of its declaration. The field
`Parent *dmi.Component` (a message of the external `dmi` package that no
function of the repository reads) is left out. `Children` and `Inventories` do
not tell a `nil` slice or map from an empty one: the program never does. -/
structure DeviceRecord where
  Uuid : String := ""
  Name : String := ""
  Make : String := ""
  Class : Int := 0
  ParentRelPos : Int := 0
  Alias : String := ""
  AssetId : String := ""
  Uri : String := ""
  HardwareRev : String := ""
  FirmwareRev : String := ""
  SoftwareRev : String := ""
  SerialNum : String := ""
  ModelName : String := ""
  MfgName : String := ""
  MfgDate : Option Timestamp := none
  State : Option ComponentState := none
  Inventories : GoMap String := []
  Children : List String := []
  Logging : LoggingInfo := {}
  LastChange : Option Timestamp := none
  LastBooted : Option Timestamp := none
deriving DecidableEq, Repr

/-- The struct `HwCompRecordV1_0`. `SensorData` (a list of messages of the
external `dmi` package) is left out. -/
structure HwCompRecord where
  Name : String := ""
  Class : Int := 0
  Description : String := ""
  Parent : String := ""
  ParentRelPos : Int := 0
  Children : List String := []
  SerialNum : String := ""
  MfgName : String := ""
  ModelName : String := ""
  Alias : String := ""
  AssetId : String := ""
  IsFru : Bool := false
  MfgDate : Option Timestamp := none
  Uri : String := ""
  Uuid : String := ""
  State : Option ComponentState := none
  Specific : String := ""
deriving DecidableEq, Repr

/-! ## `json.Marshal` on the records: the struct tags, all `omitempty` -/

/-- A string member, left out when empty. -/
def fieldStr (k : String) (v : String) : List (String × JVal) :=
  if v = "" then [] else [(k, .str v)]

/-- An integer member, left out when zero. -/
def fieldInt (k : String) (n : Int) : List (String × JVal) :=
  if n = 0 then [] else [(k, .num n)]

/-- A pointer member, left out when `nil`. -/
def fieldPtr (k : String) (o : Option JVal) : List (String × JVal) :=
  match o with
  | none => []
  | some j => [(k, j)]

/-- A slice or map member, left out when it has no element. -/
def fieldSeq (k : String) (n : Nat) (j : JVal) : List (String × JVal) :=
  if n = 0 then [] else [(k, j)]

/-- The document of a `Timestamp`. -/
def Timestamp.toJson (t : Timestamp) : JVal :=
  .obj (fieldInt "seconds" t.Seconds ++ fieldInt "nanos" t.Nanos)

/-- The document of a `ComponentState`. -/
def ComponentState.toJson (c : ComponentState) : JVal :=
  .obj (fieldInt "admin_state" c.AdminState)

/-- The document of a `map[string]dmi.LogLevel`. Go writes the keys sorted; a Go
map has no order, and the document keeps the order of the association list. -/
def levelsToJson (m : GoMap Int) : JVal :=
  .obj (m.map (fun p => (p.1, JVal.num p.2)))

/-- The document of a `map[string]string`. -/
def stringsToJson (m : GoMap String) : JVal :=
  .obj (m.map (fun p => (p.1, JVal.str p.2)))

/-- The document of a `LoggingInfo`. -/
def LoggingInfo.toJson (l : LoggingInfo) : JVal :=
  .obj (fieldStr "end_point" l.EndPoint ++ fieldStr "protocol" l.Protocol
    ++ fieldInt "log_level" l.LogLevel
    ++ fieldSeq "loggable_entities" ((l.LoggableEntities.getD []).length)
        (levelsToJson (l.LoggableEntities.getD [])))

/-- The members of the document of a `DeviceRecord`, in declaration order. The
member `logging` is a struct and is always written. -/
def DeviceRecord.jsonFields (r : DeviceRecord) : List (String × JVal) :=
  fieldStr "uuid" r.Uuid ++ fieldStr "name" r.Name ++ fieldStr "make" r.Make
    ++ fieldInt "class" r.Class ++ fieldInt "parent_rel_pos" r.ParentRelPos
    ++ fieldStr "alias" r.Alias ++ fieldStr "asset_id" r.AssetId ++ fieldStr "uri" r.Uri
    ++ fieldStr "hardware_rev" r.HardwareRev ++ fieldStr "firmware_rev" r.FirmwareRev
    ++ fieldStr "software_rev" r.SoftwareRev ++ fieldStr "serial_num" r.SerialNum
    ++ fieldStr "model_name" r.ModelName ++ fieldStr "mfg_name" r.MfgName
    ++ fieldPtr "mfg_date" (r.MfgDate.map Timestamp.toJson)
    ++ fieldPtr "state" (r.State.map ComponentState.toJson)
    ++ fieldSeq "inventories" r.Inventories.length (stringsToJson r.Inventories)
    ++ fieldSeq "children" r.Children.length (.arr (r.Children.map JVal.str))
    ++ [("logging", r.Logging.toJson)]
    ++ fieldPtr "last_change" (r.LastChange.map Timestamp.toJson)
    ++ fieldPtr "last_booted" (r.LastBooted.map Timestamp.toJson)

/-- The call `json.Marshal(rec)` on a device record (it cannot fail). -/
def DeviceRecord.jsonMarshal (r : DeviceRecord) : JVal :=
  .obj r.jsonFields

/-! ## `json.Unmarshal` into the records -/

/-- The text of the error of `json.Unmarshal` (its detail is not modelled). -/
def jsonError : String := "json: cannot unmarshal"

/-- A member name matches a struct tag exactly or, failing that, without
regard to (ASCII) case. -/
def keyIs (k tag : String) : Bool :=
  decide (k = tag) || decide (String.mk (k.data.map Char.toLower) = tag)

/-- Whether an integer fits a signed machine integer of `bits` bits. -/
def fitsInt (bits : Nat) (n : Int) : Bool :=
  decide (-(2 : Int) ^ (bits - 1) ≤ n) && decide (n < (2 : Int) ^ (bits - 1))

/-- Decoding into a `string`: `null` leaves the value as it is. -/
def decodeString (cur : String) : JVal → Except String String
  | .str s => .ok s
  | .null => .ok cur
  | _ => .error jsonError

/-- Decoding into a signed integer of `bits` bits. -/
def decodeInt (bits : Nat) (cur : Int) : JVal → Except String Int
  | .num n => if fitsInt bits n then .ok n else .error jsonError
  | .null => .ok cur
  | _ => .error jsonError

/-- The members of an object are decoded in order into the struct; the first
error is the result (the caller drops the struct on an error). -/
def decodeFields {α : Type} (set : α → String → JVal → Except String α) :
    List (String × JVal) → α → Except String α
  | [], a => .ok a
  | (k, v) :: t, a =>
    match set a k v with
    | .ok a' => decodeFields set t a'
    | .error e => .error e

/-- Decoding into a struct value. -/
def decodeStruct {α : Type} (set : α → String → JVal → Except String α) (cur : α) :
    JVal → Except String α
  | .obj fs => decodeFields set fs cur
  | .null => .ok cur
  | _ => .error jsonError

/-- Decoding into a pointer to a struct: `null` makes it `nil`, an object is
decoded into the pointee (allocated when the pointer is `nil`). -/
def decodePtr {α : Type} (set : α → String → JVal → Except String α) (zero : α)
    (cur : Option α) : JVal → Except String (Option α)
  | .obj fs => (decodeFields set fs (cur.getD zero)).map some
  | .null => .ok none
  | _ => .error jsonError

/-- Decoding the elements of an array into a `[]string`. -/
def decodeStrings : List JVal → Except String (List String)
  | [] => .ok []
  | v :: t =>
    match decodeString "" v, decodeStrings t with
    | .ok s, .ok r => .ok (s :: r)
    | .error e, _ => .error e
    | _, .error e => .error e

/-- Decoding into a `[]string`: the slice is replaced, whatever it held. -/
def decodeSlice : JVal → Except String (List String)
  | .arr xs => decodeStrings xs
  | .null => .ok []
  | _ => .error jsonError

/-- Decoding the members of an object into a Go map: a later member replaces an
earlier one of the same key. -/
def decodeEntries {V : Type} (dec : JVal → Except String V) :
    List (String × JVal) → Except String (GoMap V)
  | [] => .ok []
  | (k, v) :: t =>
    match dec v, decodeEntries dec t with
    | .ok x, .ok r => .ok (if k ∈ GoMap.keys r then r else (k, x) :: r)
    | .error e, _ => .error e
    | _, .error e => .error e

/-- Decoding into a Go map: `null` makes it `nil`; an object is decoded into the
map (allocated when `nil`), its members replacing what the map holds. -/
def decodeMap {V : Type} (dec : JVal → Except String V) (cur : Option (GoMap V)) :
    JVal → Except String (Option (GoMap V))
  | .obj fs =>
    match decodeEntries dec fs with
    | .ok new =>
      .ok (some (new ++ (cur.getD []).filter (fun p => decide (p.1 ∉ GoMap.keys new))))
    | .error e => .error e
  | .null => .ok none
  | _ => .error jsonError

/-- One member of the document of a `Timestamp`. -/
def Timestamp.setField (t : Timestamp) (k : String) (v : JVal) : Except String Timestamp :=
  if keyIs k "seconds" then (decodeInt 64 t.Seconds v).map (fun x => { t with Seconds := x })
  else if keyIs k "nanos" then (decodeInt 32 t.Nanos v).map (fun x => { t with Nanos := x })
  else .ok t

/-- One member of the document of a `ComponentState`. -/
def ComponentState.setField (c : ComponentState) (k : String) (v : JVal) :
    Except String ComponentState :=
  if keyIs k "admin_state" then
    (decodeInt 32 c.AdminState v).map (fun x => { c with AdminState := x })
  else .ok c

/-- One member of the document of a `LoggingInfo`. -/
def LoggingInfo.setField (l : LoggingInfo) (k : String) (v : JVal) : Except String LoggingInfo :=
  if keyIs k "end_point" then (decodeString l.EndPoint v).map (fun x => { l with EndPoint := x })
  else if keyIs k "protocol" then (decodeString l.Protocol v).map (fun x => { l with Protocol := x })
  else if keyIs k "log_level" then (decodeInt 32 l.LogLevel v).map (fun x => { l with LogLevel := x })
  else if keyIs k "loggable_entities" then
    (decodeMap (decodeInt 32 0) l.LoggableEntities v).map
      (fun x => { l with LoggableEntities := x })
  else .ok l

/-- One member of the document of a `DeviceRecord`: the member is decoded into
the field whose tag it names, a member that names no field is skipped. -/
def DeviceRecord.setField (r : DeviceRecord) (k : String) (v : JVal) :
    Except String DeviceRecord :=
  if keyIs k "uuid" then (decodeString r.Uuid v).map (fun x => { r with Uuid := x })
  else if keyIs k "name" then (decodeString r.Name v).map (fun x => { r with Name := x })
  else if keyIs k "make" then (decodeString r.Make v).map (fun x => { r with Make := x })
  else if keyIs k "class" then (decodeInt 32 r.Class v).map (fun x => { r with Class := x })
  else if keyIs k "parent_rel_pos" then
    (decodeInt 32 r.ParentRelPos v).map (fun x => { r with ParentRelPos := x })
  else if keyIs k "alias" then (decodeString r.Alias v).map (fun x => { r with Alias := x })
  else if keyIs k "asset_id" then (decodeString r.AssetId v).map (fun x => { r with AssetId := x })
  else if keyIs k "uri" then (decodeString r.Uri v).map (fun x => { r with Uri := x })
  else if keyIs k "hardware_rev" then
    (decodeString r.HardwareRev v).map (fun x => { r with HardwareRev := x })
  else if keyIs k "firmware_rev" then
    (decodeString r.FirmwareRev v).map (fun x => { r with FirmwareRev := x })
  else if keyIs k "software_rev" then
    (decodeString r.SoftwareRev v).map (fun x => { r with SoftwareRev := x })
  else if keyIs k "serial_num" then
    (decodeString r.SerialNum v).map (fun x => { r with SerialNum := x })
  else if keyIs k "model_name" then
    (decodeString r.ModelName v).map (fun x => { r with ModelName := x })
  else if keyIs k "mfg_name" then (decodeString r.MfgName v).map (fun x => { r with MfgName := x })
  else if keyIs k "mfg_date" then
    (decodePtr Timestamp.setField {} r.MfgDate v).map (fun x => { r with MfgDate := x })
  else if keyIs k "state" then
    (decodePtr ComponentState.setField {} r.State v).map (fun x => { r with State := x })
  else if keyIs k "inventories" then
    (decodeMap (decodeString "") (some r.Inventories) v).map
      (fun x => { r with Inventories := x.getD [] })
  else if keyIs k "children" then
    (decodeSlice v).map (fun x => { r with Children := x })
  else if keyIs k "logging" then
    (decodeStruct LoggingInfo.setField r.Logging v).map (fun x => { r with Logging := x })
  else if keyIs k "last_change" then
    (decodePtr Timestamp.setField {} r.LastChange v).map (fun x => { r with LastChange := x })
  else if keyIs k "last_booted" then
    (decodePtr Timestamp.setField {} r.LastBooted v).map (fun x => { r with LastBooted := x })
  else .ok r

/-- The call `json.Unmarshal([]byte(entry), rec)` with `rec := new(DeviceRecord)`.
A row of plain text is a device name; it is read as a syntax error (a name that
is itself the text of a JSON document is outside the embedding). -/
def DeviceRecord.jsonUnmarshal : KVValue → Except String DeviceRecord
  | .text _ => .error "invalid character looking for beginning of value"
  | .json j => decodeStruct DeviceRecord.setField {} j

/-! ## The state of the process -/

/-- The struct `grpc.Client`, the only adapter. `id` is the identity of the
object (the order of its creation); its connection is not modelled. -/
structure Client where
  id : Nat
  uri : String
deriving DecidableEq, Repr

/-- The package level variables.

* `kvClient` is `db.kvClient`: `none` is `nil` (not initialised), `some rows` is
  the mock client `mockKVClient` with `testKvPairCache = rows`.
* `nameToRec`, `uuidToName` are the two maps of the device cache. The source
  caches pointers; every call path below stores a record again (`DBAddByName`)
  right after it has changed it, so the cache holds the record values.
* `uuidToRec` is the component cache, `nameToAdapter` the connection map.
* `created` counts the adapters made by `sbi.GetHwMgmtSvcClient`; `dialled` and
  `disconnected` list the adapters on which `Connect` and `Disconnect` were
  called, the latest first. -/
structure State where
  kvClient : Option (GoMap KVValue) := none
  nameToRec : GoMap DeviceRecord := []
  uuidToName : GoMap String := []
  uuidToRec : GoMap (GoMap HwCompRecord) := []
  nameToAdapter : GoMap Client := []
  created : Nat := 0
  dialled : List Nat := []
  disconnected : List Nat := []

/-! ## `pkg/db`: the mock KV client and the facade -/

/-- The Go `strings.Contains` on the characters of the strings. -/
def containsChars : List Char → List Char → Bool
  | [], sub => sub.isEmpty
  | c :: t, sub => List.isPrefixOf sub (c :: t) || containsChars t sub

/-- The Go `strings.Contains(s, substr)`. -/
def stringsContains (s substr : String) : Bool :=
  containsChars s.data substr.data

namespace mockKVClient

/-- The method `Get`. -/
def Get (rows : GoMap KVValue) (key : String) : Option KVValue × Option String :=
  match rows.load key with
  | some val => (some val, none)
  | none => (none, some "key didn't find")

/-- The method `Put`. -/
def Put (rows : GoMap KVValue) (key : String) (value : KVValue) :
    GoMap KVValue × Option String :=
  if key ≠ "" then (rows.store key value, none)
  else (rows, some "key didn't find")

/-- The method `Delete`. -/
def Delete (rows : GoMap KVValue) (key : String) : GoMap KVValue × Option String :=
  if key ≠ "" then (rows.delete key, none)
  else (rows, some "key didn't find")

/-- The method `DeleteWithPrefix`: the mock drops every key that contains the
argument. -/
def DeleteWithPrefix (rows : GoMap KVValue) (pre : String) : GoMap KVValue × Option String :=
  (rows.filter (fun p => !stringsContains p.1 pre), none)

/-- The method `List`: the rows whose key contains the argument, or an error
when there is none. -/
def List (rows : GoMap KVValue) (pre : String) : Option (GoMap KVValue) × Option String :=
  if (rows.filter (fun p => stringsContains p.1 pre)).length ≠ 0 then
    (some (rows.filter (fun p => stringsContains p.1 pre)), none)
  else (none, some "key didn't find")

end mockKVClient

namespace db

/-- The function `db.Read`. -/
def Read (s : State) (key : String) : KVValue × Option String :=
  match s.kvClient with
  | some rows =>
    match mockKVClient.Get rows key with
    | (_, some err) => (.text "", some err)
    | (none, none) => (.text "", some "key not found")
    | (some v, none) => (v, none)
  | none => (.text "", some "kvstore not initialised")

/-- The function `db.Put`. -/
def Put (s : State) (key : String) (val : KVValue) : State × Option String :=
  match s.kvClient with
  | some rows =>
    ({ s with kvClient := some (mockKVClient.Put rows key val).1 },
      (mockKVClient.Put rows key val).2)
  | none => (s, some "kvstore not initialised")

/-- The function `db.Del`. -/
def Del (s : State) (key : String) : State × Option String :=
  match s.kvClient with
  | some rows =>
    ({ s with kvClient := some (mockKVClient.Delete rows key).1 },
      (mockKVClient.Delete rows key).2)
  | none => (s, some "kvstore not initialised")

/-- The function `db.DelAll`. -/
def DelAll (s : State) (keyPre : String) : State × Option String :=
  match s.kvClient with
  | some rows =>
    ({ s with kvClient := some (mockKVClient.DeleteWithPrefix rows keyPre).1 },
      (mockKVClient.DeleteWithPrefix rows keyPre).2)
  | none => (s, some "kvstore not initialised")

/-- The function `db.ReadAll`. -/
def ReadAll (s : State) (keyPre : String) : GoMap KVValue × Option String :=
  match s.kvClient with
  | some rows =>
    match mockKVClient.List rows keyPre with
    | (_, some err) => ([], some err)
    | (none, none) => ([], some "key not found")
    | (some kvPairs, none) => (kvPairs, none)
  | none => ([], some "kvstore not initialised")

end db

/-! ## `pkg/models/device`: the device repository -/

namespace device

/-- The key `DbPathUuidToName` filled with a uuid. -/
def DbPathUuidToName (uuid : String) : String :=
  "/OpenDevMgr/" ++ "v1" ++ "/DevRec/DevUuid/" ++ uuid

/-- The key `DbPathNameToRecord` filled with a name. -/
def DbPathNameToRecord (name : String) : String :=
  "/OpenDevMgr/" ++ "v1" ++ "/DevRec/DevName/" ++ name

/-- The function `ClearCacheEntry`. With a uuid given, the source deletes the
key `name` from the uuid cache. -/
def ClearCacheEntry (s : State) (name uuid : String) : State :=
  let s1 := if name ≠ "" then { s with nameToRec := s.nameToRec.delete name } else s
  if uuid ≠ "" then { s1 with uuidToName := s1.uuidToName.delete name } else s1

/-- The function `DBGetByName`: the cache, then the KV row. -/
def DBGetByName (s : State) (name : String) : State × Option DeviceRecord × Option String :=
  if name = "" then (s, none, some "name field is empty")
  else
    match s.nameToRec.load name with
    | some val => (s, some val, none)
    | none =>
      match db.Read s (DbPathNameToRecord name) with
      | (_, some err) => (s, none, some err)
      | (entry, none) =>
        match DeviceRecord.jsonUnmarshal entry with
        | .error err => (s, none, some err)
        | .ok rec => ({ s with nameToRec := s.nameToRec.store name rec }, some rec, none)

/-- The function `DBGetByUuid`: the name from the uuid cache or the lookup row,
then `DBGetByName`. -/
def DBGetByUuid (s : State) (uuid : String) : State × Option DeviceRecord × Option String :=
  if uuid = "" then (s, none, some "uuid field is empty")
  else
    match s.uuidToName.load uuid with
    | some val =>
      DBGetByName { s with uuidToName := s.uuidToName.store uuid val } val
    | none =>
      match db.Read s (DbPathUuidToName uuid) with
      | (_, some err) => (s, none, some err)
      | (name, none) =>
        DBGetByName { s with uuidToName := s.uuidToName.store uuid name.toText } name.toText

/-- The method `DBAddByName`. -/
def DBAddByName (s : State) (rec : DeviceRecord) : State × Option String :=
  if rec.Name = "" then (s, some "missing name")
  else
    let r := db.Put s (DbPathNameToRecord rec.Name) (.json rec.jsonMarshal)
    ({ r.1 with nameToRec := r.1.nameToRec.store rec.Name rec }, r.2)

/-- The method `DBAddUuidLookup`. -/
def DBAddUuidLookup (s : State) (rec : DeviceRecord) : State × Option String :=
  if rec.Uuid = "" ∨ rec.Name = "" then (s, some "missing name")
  else
    let r := db.Put s (DbPathUuidToName rec.Uuid) (.text rec.Name)
    ({ r.1 with uuidToName := r.1.uuidToName.store rec.Uuid rec.Name }, r.2)

/-- The method `DBDelRecord`: the uuid side is only tried when the name side
did not fail. -/
def DBDelRecord (s : State) (rec : DeviceRecord) : State × Option String :=
  let r1 : State × Option String :=
    if rec.Name ≠ "" then
      let d := db.Del s (DbPathNameToRecord rec.Name)
      ({ d.1 with nameToRec := d.1.nameToRec.delete rec.Name }, d.2)
    else (s, none)
  if r1.2 = none ∧ rec.Uuid ≠ "" then
    let d := db.Del r1.1 (DbPathUuidToName rec.Uuid)
    ({ d.1 with uuidToName := d.1.uuidToName.delete rec.Uuid }, d.2)
  else r1

end device

/-! ## `pkg/models/hwcomponents`: what `StopManagingDevice` uses -/

namespace hwcomponents

/-- The key `DbPrefix` filled with a device uuid (it has no `/` at its end). -/
def DbPrefix (deviceUuid : String) : String :=
  "/OpenDevMgr/" ++ "v1" ++ "/HwCompRec/" ++ deviceUuid

/-- The key `DbPathNameToUuid` of a device. -/
def DbPathNameToUuid (deviceUuid : String) : String :=
  DbPrefix deviceUuid ++ "/Components"

/-- The key `DbPathUuidToRecord` of a component of a device. -/
def DbPathUuidToRecord (deviceUuid hwCompUuid : String) : String :=
  DbPrefix deviceUuid ++ "/Uuid/" ++ hwCompUuid

/-- The function `DBDelAllHwComponents`. -/
def DBDelAllHwComponents (s : State) (deviceUuid : String) : State × Option String :=
  if deviceUuid = "" then (s, some "missing device uuid")
  else
    let d := db.DelAll s (DbPrefix deviceUuid)
    ({ d.1 with uuidToRec := d.1.uuidToRec.delete deviceUuid }, d.2)

end hwcomponents

/-! ## Messages of the `dmi` interface -/

/-- The enum `dmi.Status`. -/
inductive Status where
  | UNDEFINED_STATUS
  | OK_STATUS
  | ERROR_STATUS
deriving DecidableEq, Repr

/-- The enum `dmi.StartManagingDeviceResponse_Reason`. -/
inductive StartReason where
  | UNDEFINED_REASON
  | DEVICE_ALREADY_MANAGED
  | OPERATION_ALREADY_IN_PROGRESS
  | INVALID_PARAMS
  | INTERNAL_ERROR
deriving DecidableEq, Repr

/-- The enum `dmi.StopManagingDeviceResponse_Reason`. -/
inductive StopReason where
  | UNDEFINED_REASON
  | UNKNOWN_DEVICE
deriving DecidableEq, Repr

/-- The message `dmi.ModifiableComponent`, the request of `StartManagingDevice`.
Its `Uri` message is taken as present (the handler reads `req.Uri.Uri` with no
check); `Parent` and the `oneof` of specific attributes are left out. -/
structure ModifiableComponent where
  Name : String := ""
  Class : Int := 0
  ParentRelPos : Int := 0
  Alias : String := ""
  AssetId : String := ""
  Uri : String := ""
  AdminState : Int := 0
deriving DecidableEq, Repr

/-- The message `dmi.StartManagingDeviceResponse`. -/
structure StartManagingDeviceResponse where
  Status : Status := .UNDEFINED_STATUS
  Reason : StartReason := .UNDEFINED_REASON
  DeviceUuid : Option String := none
  ReasonDetail : String := ""
deriving DecidableEq, Repr

/-- The message `dmi.StopManagingDeviceRequest`. -/
structure StopManagingDeviceRequest where
  Name : String := ""
deriving DecidableEq, Repr

/-- The message `dmi.StopManagingDeviceResponse`. -/
structure StopManagingDeviceResponse where
  Status : Status := .UNDEFINED_STATUS
  Reason : StopReason := .UNDEFINED_REASON
  ReasonDetail : String := ""
deriving DecidableEq, Repr

namespace device

/-- The function `NewDeviceRecord`: `copier.Copy` fills the fields of the same
name and type (`Name`, `Class`, `ParentRelPos`, `Alias`, `AssetId`), then the
uri and the admin state are set. The copy between these two structs does not
fail. -/
def NewDeviceRecord (req : ModifiableComponent) : Option DeviceRecord × Option String :=
  (some { Name := req.Name, Class := req.Class, ParentRelPos := req.ParentRelPos,
          Alias := req.Alias, AssetId := req.AssetId, Uri := req.Uri,
          State := some { AdminState := req.AdminState } }, none)

end device

/-! ## What the network does -/

/-- The two functions of the Go `net` package that `validateUri` calls. -/
structure Net where
  /-- Whether `net.ParseIP(ip)` is not `nil`. -/
  ParseIP : String → Bool
  /-- Whether `net.LookupIP(ip)` returns no error. -/
  LookupIP : String → Bool

/-- What `stream.Recv()` returns once the frames are consumed. -/
inductive RecvEnd where
  | eof
  | failed (err : String)
deriving DecidableEq, Repr

/-- The behaviour of the device agent on a southbound `StartManagingDevice`
call: the error of the call itself, the frames of the stream, and its end. -/
structure StartStream where
  openErr : Option String := none
  frames : List StartManagingDeviceResponse := []
  last : RecvEnd := .eof
deriving DecidableEq, Repr

/-! ## `pkg/sbi/grpc`: the adapter -/

namespace grpc

/-- The method `Disconnect`. -/
def Disconnect (s : State) (c : Client) : State :=
  { s with disconnected := c.id :: s.disconnected }

/-- The outcome of the adapter method `StartManagingDevice`. -/
structure StartOutcome where
  state : State
  devRec : DeviceRecord
  sent : List StartManagingDeviceResponse
  err : Option String
  connMade : Bool
  panicked : Bool := false

/-- The receive loop of the method `StartManagingDevice`. An OK frame sets the
uuid of the record and stores it; an ERROR frame is forwarded and ends the call;
any other frame is forwarded. An OK frame without a `DeviceUuid` message makes
the read `respFromDev.DeviceUuid.Uuid` panic. -/
def startLoop (last : RecvEnd) : List StartManagingDeviceResponse → State → DeviceRecord →
    List StartManagingDeviceResponse → Bool → StartOutcome
  | [], s, devRec, sent, connMade =>
    match last with
    | .eof => { state := s, devRec := devRec, sent := sent, err := none, connMade := connMade }
    | .failed err =>
      { state := s, devRec := devRec, sent := sent, err := some err, connMade := connMade }
  | respFromDev :: rest, s, devRec, sent, connMade =>
    if respFromDev.Status = .OK_STATUS then
      match respFromDev.DeviceUuid with
      | none =>
        { state := s, devRec := devRec, sent := sent, err := none, connMade := true,
          panicked := true }
      | some uuid =>
        let devRec1 := { devRec with Uuid := uuid }
        let s1 := (device.DBAddByName s devRec1).1
        let s2 := (device.DBAddUuidLookup s1 devRec1).1
        startLoop last rest s2 devRec1 (sent ++ [respFromDev]) true
    else if respFromDev.Status = .ERROR_STATUS then
      { state := s, devRec := devRec, sent := sent ++ [respFromDev],
        err := some respFromDev.ReasonDetail, connMade := connMade }
    else startLoop last rest s devRec (sent ++ [respFromDev]) connMade

/-- The method `Client.StartManagingDevice`. -/
def StartManagingDevice (s : State) (devRec : DeviceRecord) (sb : StartStream) : StartOutcome :=
  match sb.openErr with
  | some err =>
    { state := s, devRec := devRec,
      sent := [{ Status := .ERROR_STATUS, Reason := .INTERNAL_ERROR, ReasonDetail := err }],
      err := some "RPC Failed for StartManagingDevice", connMade := false }
  | none => startLoop sb.last sb.frames s devRec [] false

end grpc

/-! ## `pkg/nbi`: validation -/

namespace nbi

/-- The Go `strings.Split(s, ":")` on the characters of the string. -/
def splitColon : List Char → List (List Char)
  | [] => [[]]
  | c :: t =>
    if c = ':' then [] :: splitColon t
    else
      match splitColon t with
      | [] => [[c]]
      | h :: r => (c :: h) :: r

/-- The value of a run of ASCII digits, `none` when a character is no digit. -/
def digitsValue (acc : Nat) : List Char → Option Nat
  | [] => some acc
  | c :: t =>
    if 48 ≤ c.toNat ∧ c.toNat ≤ 57 then digitsValue (acc * 10 + (c.toNat - 48)) t else none

/-- The Go `strconv.Atoi` on a 64 bit platform: an optional sign and at least
one decimal digit, the value within the range of `int`. `none` is an error. -/
def Atoi (s : String) : Option Int :=
  match s.data with
  | [] => none
  | c :: t =>
    if c = '-' then
      if t = [] then none
      else (digitsValue 0 t).bind (fun n => if n ≤ 2 ^ 63 then some (-(n : Int)) else none)
    else if c = '+' then
      if t = [] then none
      else (digitsValue 0 t).bind (fun n => if n < 2 ^ 63 then some (n : Int) else none)
    else (digitsValue 0 (c :: t)).bind (fun n => if n < 2 ^ 63 then some (n : Int) else none)

/-- The function `validateUri`. -/
def validateUri (net : Net) (uri : String) : Bool × Option String :=
  if ¬ stringsContains uri ":" then
    (false, some "incorrect IP address format (<ip>:<port #>)")
  else
    match splitColon uri.data with
    | ip :: port :: _ =>
      if net.ParseIP (String.mk ip) = false ∧ net.LookupIP (String.mk ip) = false then
        (false, some ("invalid IP address " ++ String.mk ip))
      else if Atoi (String.mk port) = none then
        (false, some ("Port number " ++ String.mk port ++ " needs to be an integer"))
      else (true, none)
    | _ => (false, some "index out of range")

/-- The function `validateStartManagingDeviceReq`. On a failed `validateUri` it
reads `err.Error()`; `validateUri` never returns `false` with a `nil` error, so
that read does not panic. -/
def validateStartManagingDeviceReq (net : Net) (s : State) (req : ModifiableComponent) :
    State × StartManagingDeviceResponse × Bool :=
  match validateUri net req.Uri with
  | (false, err) =>
    (s, { Status := .ERROR_STATUS, Reason := .INVALID_PARAMS, DeviceUuid := some "",
          ReasonDetail := err.getD "" }, false)
  | (true, _) =>
    match device.DBGetByName s req.Name with
    | (s1, some rec, _) =>
      (s1, { Status := .ERROR_STATUS, Reason := .DEVICE_ALREADY_MANAGED, DeviceUuid := some "",
             ReasonDetail := "device already exists and managed with uuid " ++ rec.Uuid
               ++ " and uri " ++ rec.Uri }, false)
    | (s1, none, _) =>
      (s1, { Status := .ERROR_STATUS, DeviceUuid := some "" }, true)

/-! ## `pkg/nbi`: the connection map -/

/-- The method `getConnection`. `dial` is the error of `g.Dial` for the case
that `Connect` is called. -/
def getConnection (s : State) (devRec : DeviceRecord) (dial : Option String) :
    State × Option Client × Option String :=
  match s.nameToAdapter.load devRec.Name with
  | some val => (s, some val, none)
  | none =>
    let adapter : Client := { id := s.created, uri := devRec.Uri }
    let s1 := { s with created := s.created + 1, dialled := adapter.id :: s.dialled }
    match dial with
    | some err => (s1, none, some err)
    | none =>
      ({ s1 with nameToAdapter := s1.nameToAdapter.store devRec.Name adapter },
        some adapter, none)

/-- The method `delConn`. -/
def delConn (s : State) (name : String) : State :=
  if name ≠ "" then { s with nameToAdapter := s.nameToAdapter.delete name } else s

/-! ## `pkg/nbi`: the error responses -/

/-- The function `errRespStartManagingDevice`; `none` is the panic of
`err.Error()` on a `nil` error. -/
def errRespStartManagingDevice (reason : StartReason) (err : Option String) :
    Option StartManagingDeviceResponse :=
  match err with
  | none => none
  | some msg => some { Status := .ERROR_STATUS, Reason := reason, ReasonDetail := msg }

/-- The function `errRespStopManagingDevice`; `none` is the panic of
`err.Error()` on a `nil` error. -/
def errRespStopManagingDevice (reason : StopReason) (err : Option String) :
    Option StopManagingDeviceResponse :=
  match err with
  | none => none
  | some msg => some { Status := .ERROR_STATUS, Reason := reason, ReasonDetail := msg }

/-! ## `pkg/nbi`: the handlers -/

/-- What the network does during one `StartManagingDevice` request. -/
structure StartEnv where
  net : Net
  dial : Option String := none
  stream : StartStream := {}

/-- The outcome of the handler `StartManagingDevice`: the state, the frames sent
on the northbound stream, the returned error, and whether the handler panicked
(then `err` is what it had in hand and nothing was returned). A panic ends the
process; the state is the one at the panic. -/
structure StartHandled where
  state : State
  sent : List StartManagingDeviceResponse
  err : Option String
  panicked : Bool := false
  /-- The local variable `connMade`: what the adapter returned, `false` when
  the adapter was not called. -/
  connMade : Bool := false

/-- The handler `NativeHwManagementService.StartManagingDevice`. -/
def StartManagingDevice (s : State) (req : ModifiableComponent) (env : StartEnv) :
    StartHandled :=
  match validateStartManagingDeviceReq env.net s req with
  | (s1, errorResp, false) =>
    { state := s1, sent := [errorResp],
      err := some "failed at validateStartManagingDeviceReq" }
  | (s1, _, true) =>
    match device.NewDeviceRecord req with
    | (none, err) =>
      match errRespStartManagingDevice .INVALID_PARAMS err with
      | none => { state := s1, sent := [], err := err, panicked := true }
      | some resp => { state := s1, sent := [resp], err := err }
    | (some devRec, _) =>
      match getConnection s1 devRec env.dial with
      | (s2, none, err) =>
        match errRespStartManagingDevice .INVALID_PARAMS err with
        | none => { state := s2, sent := [], err := err, panicked := true }
        | some resp => { state := s2, sent := [resp], err := err }
      | (s2, some adapter, _) =>
        let s3 := (device.DBAddByName s2 devRec).1
        let out := grpc.StartManagingDevice s3 devRec env.stream
        if out.panicked then
          { state := out.state, sent := out.sent, err := out.err, panicked := true,
            connMade := out.connMade }
        else if ¬ out.connMade then
          let s4 := (device.DBDelRecord out.state out.devRec).1
          let s5 := grpc.Disconnect s4 adapter
          let s6 := delConn s5 out.devRec.Name
          match errRespStartManagingDevice .UNDEFINED_REASON out.err with
          | none => { state := s6, sent := out.sent, err := out.err, panicked := true }
          | some resp => { state := s6, sent := out.sent ++ [resp], err := out.err }
        else { state := out.state, sent := out.sent, err := out.err, connMade := true }

/-- What the network does during one `StopManagingDevice` request: the error of
`g.Dial` when `Connect` is called, and the result of the southbound call. -/
structure StopEnv where
  dial : Option String := none
  reply : Option StopManagingDeviceResponse × Option String := (some {}, none)

/-- The outcome of the handler `StopManagingDevice`. -/
structure StopHandled where
  state : State
  resp : Option StopManagingDeviceResponse
  err : Option String
  panicked : Bool := false

/-- The handler `NativeHwManagementService.StopManagingDevice`. The two deferred
calls run when the handler returns, the later one first: the components are
deleted under the uuid the record had when the call was deferred, then the
record. -/
def StopManagingDevice (s : State) (req : StopManagingDeviceRequest) (env : StopEnv) :
    StopHandled :=
  match device.DBGetByName s req.Name with
  | (s1, none, err) =>
    match errRespStopManagingDevice .UNKNOWN_DEVICE err with
    | none => { state := s1, resp := none, err := err, panicked := true }
    | some resp => { state := s1, resp := some resp, err := err }
  | (s1, some devRec, _) =>
    let r : State × Option StopManagingDeviceResponse × Option String :=
      match getConnection s1 devRec env.dial with
      | (s2, some adapter, _) =>
        let s3 := grpc.Disconnect s2 adapter
        (delConn s3 devRec.Name, env.reply.1, env.reply.2)
      | (s2, none, err) => (s2, some {}, err)
    let s4 := (hwcomponents.DBDelAllHwComponents r.1 devRec.Uuid).1
    let s5 := (device.DBDelRecord s4 devRec).1
    { state := s5, resp := r.2.1, err := r.2.2 }

end nbi


/-! ## Well-formed records and what a record reads back as -/

/-- The seconds of a timestamp are an `int64`, its nanos an `int32`. -/
def Timestamp.wellFormed (t : Timestamp) : Bool :=
  fitsInt 64 t.Seconds && fitsInt 32 t.Nanos

/-- A record is a Go value: its integers are `int32` (`int64` for seconds) and
its maps have one binding for a key. -/
def DeviceRecord.wellFormed (r : DeviceRecord) : Bool :=
  fitsInt 32 r.Class && fitsInt 32 r.ParentRelPos
    && (r.MfgDate.map Timestamp.wellFormed).getD true
    && (r.State.map (fun c => fitsInt 32 c.AdminState)).getD true
    && decide (GoMap.keys r.Inventories).Nodup
    && fitsInt 32 r.Logging.LogLevel
    && (r.Logging.LoggableEntities.getD []).all (fun p => fitsInt 32 p.2)
    && decide (GoMap.keys (r.Logging.LoggableEntities.getD [])).Nodup
    && (r.LastChange.map Timestamp.wellFormed).getD true
    && (r.LastBooted.map Timestamp.wellFormed).getD true

/-- What `json.Unmarshal` makes of the document of a record: the record, but
for a per-entity level map that is allocated and empty, which is left out of
the document and so comes back as `nil`. -/
def DeviceRecord.readBack (r : DeviceRecord) : DeviceRecord :=
  { r with Logging :=
      { r.Logging with LoggableEntities :=
          if r.Logging.LoggableEntities = some [] then none else r.Logging.LoggableEntities } }

/-! ## Sequences of writes to the device repository -/

/-- The KV row of a key, `none` when there is no row (or no client). -/
def State.row (s : State) (key : String) : Option KVValue :=
  match s.kvClient with
  | some rows => rows.load key
  | none => none

namespace device

/-- A call of one of the two writing methods of the device repository. -/
inductive Write where
  | addByName (rec : DeviceRecord)
  | addUuidLookup (rec : DeviceRecord)

/-- The call made. -/
def applyWrite (s : State) : Write → State × Option String
  | .addByName rec => DBAddByName s rec
  | .addUuidLookup rec => DBAddUuidLookup s rec

/-- The calls made in order; `none` as soon as one of them returns an error. -/
def runWrites : State → List Write → Option State
  | s, [] => some s
  | s, w :: t =>
    match applyWrite s w with
    | (s1, none) => runWrites s1 t
    | (_, some _) => none

/-- The name that the last `DBAddUuidLookup` call for the uuid was given. -/
def lastLookup (uuid : String) : List Write → Option String
  | [] => none
  | .addUuidLookup rec :: t =>
    match lastLookup uuid t with
    | some n => some n
    | none => if rec.Uuid = uuid then some rec.Name else none
  | .addByName _ :: t => lastLookup uuid t

/-- The record that the last `DBAddByName` call for the name was given. -/
def lastByName (name : String) : List Write → Option DeviceRecord
  | [] => none
  | .addByName rec :: t =>
    match lastByName name t with
    | some r => some r
    | none => if rec.Name = name then some rec else none
  | .addUuidLookup _ :: t => lastByName name t

end device

/-! ## The uri rule in the words of the spec -/

namespace nbi

/-- The ways to cut a text at one of its colons into a host and a port. -/
def cuts : List Char → List (List Char × List Char)
  | [] => []
  | c :: t =>
    (if c = ':' then [([], t)] else []) ++ (cuts t).map (fun p => (c :: p.1, p.2))

/-- A decimal integer: an optional sign and at least one decimal digit. -/
def isDecimalInteger (s : List Char) : Bool :=
  match s with
  | [] => false
  | c :: t =>
    if c = '-' ∨ c = '+' then !t.isEmpty && (digitsValue 0 t).isSome
    else (digitsValue 0 (c :: t)).isSome

/-- The rule of the spec, `uri` must be `host:port`, `host` either a parseable
IP or a resolvable hostname, `port` a decimal integer: some cut of the uri at a
colon gives such a host and such a port. -/
def specValidUri (net : Net) (uri : String) : Bool :=
  (cuts uri.data).any (fun p =>
    (net.ParseIP (String.mk p.1) || net.LookupIP (String.mk p.1)) && isDecimalInteger p.2)

end nbi

/-! ## The inventory messages of the `dmi` interface -/

/-- The fields of the message `dmi.Component` other than its children. `Uri` and
`Uuid` are messages that may be absent (`nil`), which the program tests;
`Parent`, `SensorData` and the `oneof` of specific attributes are left out. -/
structure ComponentAttrs where
  Name : String := ""
  Class : Int := 0
  Description : String := ""
  ParentRelPos : Int := 0
  HardwareRev : String := ""
  FirmwareRev : String := ""
  SoftwareRev : String := ""
  SerialNum : String := ""
  MfgName : String := ""
  ModelName : String := ""
  Alias : String := ""
  AssetId : String := ""
  IsFru : Bool := false
  MfgDate : Option Timestamp := none
  Uri : Option String := none
  Uuid : Option String := none
  State : Option ComponentState := none
deriving DecidableEq, Repr

/-- The message `dmi.Component`: its own fields and its `Children`. -/
inductive Component where
  | mk (attrs : ComponentAttrs) (Children : List Component)

/-- The fields of a component other than its children. -/
def Component.attrs : Component → ComponentAttrs
  | .mk a _ => a

/-- The field `Children` of a component. -/
def Component.Children : Component → List Component
  | .mk _ cs => cs

/-- The message `dmi.Hardware`; its `Root` is taken as present (the program
reads `hw.Root.Children` with no check). -/
structure Hardware where
  LastChange : Option Timestamp := none
  LastBooted : Option Timestamp := none
  Root : Component := .mk {} []

/-! ## `json.Marshal` and `json.Unmarshal` on a component record -/

/-- A boolean member, left out when `false`. -/
def fieldBool (k : String) (b : Bool) : List (String × JVal) :=
  if b = false then [] else [(k, .bool b)]

/-- Decoding into a `bool`. -/
def decodeBool (cur : Bool) : JVal → Except String Bool
  | .bool b => .ok b
  | .null => .ok cur
  | _ => .error jsonError

/-- The members of the document of a `HwCompRecord`, in declaration order. -/
def HwCompRecord.jsonFields (r : HwCompRecord) : List (String × JVal) :=
  fieldStr "name" r.Name ++ fieldInt "class" r.Class ++ fieldStr "description" r.Description
    ++ fieldStr "parent" r.Parent ++ fieldInt "parent_rel_pos" r.ParentRelPos
    ++ fieldSeq "children" r.Children.length (.arr (r.Children.map JVal.str))
    ++ fieldStr "serial_num" r.SerialNum ++ fieldStr "mfg_name" r.MfgName
    ++ fieldStr "model_name" r.ModelName ++ fieldStr "alias" r.Alias
    ++ fieldStr "asset_id" r.AssetId ++ fieldBool "is_fru" r.IsFru
    ++ fieldPtr "mfg_date" (r.MfgDate.map Timestamp.toJson)
    ++ fieldStr "uri" r.Uri ++ fieldStr "uuid" r.Uuid
    ++ fieldPtr "state" (r.State.map ComponentState.toJson)
    ++ fieldStr "specific" r.Specific

/-- The call `json.Marshal(rec)` on a component record (it cannot fail). -/
def HwCompRecord.jsonMarshal (r : HwCompRecord) : JVal :=
  .obj r.jsonFields

/-- One member of the document of a `HwCompRecord`. -/
def HwCompRecord.setField (r : HwCompRecord) (k : String) (v : JVal) :
    Except String HwCompRecord :=
  if keyIs k "name" then (decodeString r.Name v).map (fun x => { r with Name := x })
  else if keyIs k "class" then (decodeInt 32 r.Class v).map (fun x => { r with Class := x })
  else if keyIs k "description" then
    (decodeString r.Description v).map (fun x => { r with Description := x })
  else if keyIs k "parent" then (decodeString r.Parent v).map (fun x => { r with Parent := x })
  else if keyIs k "parent_rel_pos" then
    (decodeInt 32 r.ParentRelPos v).map (fun x => { r with ParentRelPos := x })
  else if keyIs k "children" then
    (decodeSlice v).map (fun x => { r with Children := x })
  else if keyIs k "serial_num" then
    (decodeString r.SerialNum v).map (fun x => { r with SerialNum := x })
  else if keyIs k "mfg_name" then (decodeString r.MfgName v).map (fun x => { r with MfgName := x })
  else if keyIs k "model_name" then
    (decodeString r.ModelName v).map (fun x => { r with ModelName := x })
  else if keyIs k "alias" then (decodeString r.Alias v).map (fun x => { r with Alias := x })
  else if keyIs k "asset_id" then (decodeString r.AssetId v).map (fun x => { r with AssetId := x })
  else if keyIs k "is_fru" then (decodeBool r.IsFru v).map (fun x => { r with IsFru := x })
  else if keyIs k "mfg_date" then
    (decodePtr Timestamp.setField {} r.MfgDate v).map (fun x => { r with MfgDate := x })
  else if keyIs k "uri" then (decodeString r.Uri v).map (fun x => { r with Uri := x })
  else if keyIs k "uuid" then (decodeString r.Uuid v).map (fun x => { r with Uuid := x })
  else if keyIs k "state" then
    (decodePtr ComponentState.setField {} r.State v).map (fun x => { r with State := x })
  else if keyIs k "specific" then
    (decodeString r.Specific v).map (fun x => { r with Specific := x })
  else .ok r

/-- The call `json.Unmarshal([]byte(entry), rec)` with `rec := new(HwCompRecord)`. -/
def HwCompRecord.jsonUnmarshal : KVValue → Except String HwCompRecord
  | .text _ => .error "invalid character looking for beginning of value"
  | .json j => decodeStruct HwCompRecord.setField {} j

/-- The call `json.Unmarshal([]byte(entry), &nameToUuidMap)` on an allocated,
empty `map[string]string`: a `null` document makes the map `nil` (`none`). -/
def jsonUnmarshalNames : KVValue → Except String (Option (GoMap String))
  | .text _ => .error "invalid character looking for beginning of value"
  | .json j => decodeMap (decodeString "") (some []) j

/-- The reads `x.Uuid.Uuid` over a list of components, in order; `none` is the
panic of the read on a component that has no `Uuid` message. -/
def childUuids : List Component → Option (List String)
  | [] => some []
  | c :: t =>
    match c.attrs.Uuid, childUuids t with
    | some u, some us => some (u :: us)
    | _, _ => none

/-! ## `pkg/models/hwcomponents`: the component repository -/

namespace compCache

/-- The method `store` of the component cache. -/
def store (s : State) (devUuid : String) (rec : HwCompRecord) : State :=
  let uuidToRecMap : GoMap HwCompRecord :=
    match s.uuidToRec.load devUuid with
    | none => []
    | some val => val
  { s with uuidToRec := s.uuidToRec.store devUuid (uuidToRecMap.store rec.Uuid rec) }

/-- The method `get` of the component cache. -/
def get (s : State) (devUuid compUuid : String) : Option HwCompRecord :=
  match s.uuidToRec.load devUuid with
  | none => none
  | some uuidToRecMap => uuidToRecMap.load compUuid

end compCache

namespace hwcomponents

/-- The method `DBAddByUuid`: the cache is written whatever `db.Put` returned. -/
def DBAddByUuid (s : State) (rec : HwCompRecord) (deviceUuid : String) : State × Option String :=
  if rec.Uuid = "" ∨ deviceUuid = "" then (s, some "missing uuid")
  else
    let r := db.Put s (DbPathUuidToRecord deviceUuid rec.Uuid) (.json rec.jsonMarshal)
    (compCache.store r.1 deviceUuid rec, r.2)

/-- The function `DBAddNameToUuidlookup`. -/
def DBAddNameToUuidlookup (s : State) (deviceUuid : String) (nameToUuidMap : GoMap String) :
    State × Option String :=
  if deviceUuid = "" ∨ nameToUuidMap.length = 0 then (s, some "missing info")
  else db.Put s (DbPathNameToUuid deviceUuid) (.json (stringsToJson nameToUuidMap))

/-- The call `copy.Copy(&hwRec, &child)` into a new record: the copier fills the
fields that have the same name and a type it can assign (`Parent`, `Children`,
`Uri`, `Uuid` and `Specific` differ in type and keep their zero value). -/
def copyComponent (a : ComponentAttrs) : HwCompRecord :=
  { Name := a.Name, Class := a.Class, Description := a.Description,
    ParentRelPos := a.ParentRelPos, SerialNum := a.SerialNum, MfgName := a.MfgName,
    ModelName := a.ModelName, Alias := a.Alias, AssetId := a.AssetId, IsFru := a.IsFru,
    MfgDate := a.MfgDate, State := a.State }

mutual
/-- The body of the loop of `DBSaveHwCompsFromPhysicalInventory` for one child.
The result is the state, the map `nameToUuidMap` (the Go map is changed in
place) and whether the program panicked. -/
def saveChild (s : State) (deviceUuid : String) (nameToUuidMap : GoMap String) :
    Component → State × GoMap String × Bool
  | .mk a children =>
    let hwRec := copyComponent a
    if hwRec.Name = "" then (s, nameToUuidMap, false)
    else
      let hwRec1 := match a.Uri with
        | some uri => { hwRec with Uri := uri }
        | none => hwRec
      let hwRec2 := match a.Uuid with
        | some uuid => { hwRec1 with Uuid := uuid }
        | none => hwRec1
      match childUuids children with
      | none => (s, nameToUuidMap, true)
      | some uuids =>
        let hwRec3 := { hwRec2 with Children := hwRec2.Children ++ uuids }
        let s1 := (DBAddByUuid s hwRec3 deviceUuid).1
        DBSaveHwCompsFromPhysicalInventory s1 deviceUuid
          (nameToUuidMap.store hwRec3.Name hwRec3.Uuid) children
/-- The function `DBSaveHwCompsFromPhysicalInventory`. -/
def DBSaveHwCompsFromPhysicalInventory (s : State) (deviceUuid : String)
    (nameToUuidMap : GoMap String) : List Component → State × GoMap String × Bool
  | [] => (s, nameToUuidMap, false)
  | child :: rest =>
    match saveChild s deviceUuid nameToUuidMap child with
    | (s1, m1, true) => (s1, m1, true)
    | (s1, m1, false) => DBSaveHwCompsFromPhysicalInventory s1 deviceUuid m1 rest
end

/-- The function `DBGetRecByUuid`: the cache, then the KV row. -/
def DBGetRecByUuid (s : State) (deviceUuid hwCompUuid : String) :
    State × Option HwCompRecord × Option String :=
  if deviceUuid = "" ∨ hwCompUuid = "" then (s, none, some "uuid field is empty")
  else
    match compCache.get s deviceUuid hwCompUuid with
    | some rec => (s, some rec, none)
    | none =>
      match db.Read s (DbPathUuidToRecord deviceUuid hwCompUuid) with
      | (_, some err) => (s, none, some err)
      | (entry, none) =>
        match HwCompRecord.jsonUnmarshal entry with
        | .error err => (s, none, some err)
        | .ok rec => (compCache.store s deviceUuid rec, some rec, none)

/-- The function `DBGetRecByName`. Once the name is resolved the record is read
(and logged), and the function goes on to its last line. -/
def DBGetRecByName (s : State) (deviceUuid hwName : String) :
    State × Option HwCompRecord × Option String :=
  if deviceUuid = "" ∨ hwName = "" then (s, none, some "name field is empty")
  else
    match db.Read s (DbPathNameToUuid deviceUuid) with
    | (_, some err) => (s, none, some err)
    | (entry, none) =>
      match jsonUnmarshalNames entry with
      | .error err => (s, none, some err)
      | .ok none => (s, none, none)
      | .ok (some nameToUuidMap) =>
        match nameToUuidMap.load hwName with
        | some hwUuid => ((DBGetRecByUuid s deviceUuid hwUuid).1, none, some "name not found")
        | none => (s, none, some "name not found")

end hwcomponents

/-! ## `pkg/models/device`: listing, the hardware snapshot, the log levels -/

/-- The enum value `dmi.LogLevel_TRACE`. -/
def LogLevel_TRACE : Int := 0

/-- The enum value `dmi.LogLevel_DEBUG`. -/
def LogLevel_DEBUG : Int := 1

/-- The enum value `dmi.LogLevel_INFO`. -/
def LogLevel_INFO : Int := 2

/-- The enum value `dmi.LogLevel_WARN`. -/
def LogLevel_WARN : Int := 3

/-- The enum value `dmi.LogLevel_ERROR`. -/
def LogLevel_ERROR : Int := 4

/-- The message `dmi.EntitiesLogLevel`. A slice with no element stands for the
`nil` slice: that is what a message read from the wire holds for no entity, and
what the program itself builds. -/
structure EntitiesLogLevel where
  LogLevel : Int := 0
  Entities : List String := []
deriving DecidableEq, Repr

/-- The five local slices of `GetLoggableEntitiesFromDevRec`. -/
structure LevelLists where
  traceLevel : List String := []
  debugLevel : List String := []
  infoLevel : List String := []
  warnLevel : List String := []
  errorLevel : List String := []
deriving DecidableEq, Repr

/-- The `switch logLevel` of `GetLoggableEntitiesFromDevRec`: the entity is
appended to the slice of its level; the switch has no default case. -/
def LevelLists.add (l : LevelLists) (logLevel : Int) (entity : String) : LevelLists :=
  if logLevel = LogLevel_TRACE then { l with traceLevel := l.traceLevel ++ [entity] }
  else if logLevel = LogLevel_DEBUG then { l with debugLevel := l.debugLevel ++ [entity] }
  else if logLevel = LogLevel_INFO then { l with infoLevel := l.infoLevel ++ [entity] }
  else if logLevel = LogLevel_WARN then { l with warnLevel := l.warnLevel ++ [entity] }
  else if logLevel = LogLevel_ERROR then { l with errorLevel := l.errorLevel ++ [entity] }
  else l

/-- The slice `entitiesLogLevel` built at the end of
`GetLoggableEntitiesFromDevRec`. -/
def LevelLists.toGroups (l : LevelLists) : List EntitiesLogLevel :=
  [{ LogLevel := LogLevel_TRACE, Entities := l.traceLevel },
   { LogLevel := LogLevel_DEBUG, Entities := l.debugLevel },
   { LogLevel := LogLevel_INFO, Entities := l.infoLevel },
   { LogLevel := LogLevel_WARN, Entities := l.warnLevel },
   { LogLevel := LogLevel_ERROR, Entities := l.errorLevel }]

namespace device

/-- The function `DBGetAll`. A Go map is walked in no fixed order; the list is
given in the order of the rows of the store. -/
def DBGetAll (s : State) : List DeviceRecord × Option String :=
  match db.ReadAll s (DbPathNameToRecord "") with
  | (_, some err) => ([], some err)
  | (kvPairs, none) =>
    (kvPairs.filterMap (fun p => (DeviceRecord.jsonUnmarshal p.2).toOption), none)

/-- The call `copy.Copy(&rec, &hw.Root)`: the copier fills the fields of the
record that have the same name and a type it can assign (`Uri`, `Uuid` and
`Children` differ in type and are left as they are). It does not fail. -/
def copyRoot (rec : DeviceRecord) (a : ComponentAttrs) : DeviceRecord :=
  { rec with Name := a.Name, Class := a.Class, ParentRelPos := a.ParentRelPos,
             HardwareRev := a.HardwareRev, FirmwareRev := a.FirmwareRev,
             SoftwareRev := a.SoftwareRev, SerialNum := a.SerialNum, MfgName := a.MfgName,
             ModelName := a.ModelName, Alias := a.Alias, AssetId := a.AssetId,
             MfgDate := a.MfgDate, State := a.State }

/-- The outcome of `DBSaveHwInfo`: the state, the record behind the receiver,
the returned error, and whether the program panicked (then nothing was
returned). -/
structure HwInfoSaved where
  state : State
  devRec : DeviceRecord
  err : Option String
  panicked : Bool := false

/-- The method `DBSaveHwInfo`. -/
def DBSaveHwInfo (s : State) (rec : DeviceRecord) (hw : Hardware) : HwInfoSaved :=
  let rec1 := { rec with LastBooted := hw.LastBooted, LastChange := hw.LastChange }
  let name := rec1.Name
  let uuid := rec1.Uuid
  let rec2 := copyRoot rec1 hw.Root.attrs
  match childUuids hw.Root.Children with
  | none => { state := s, devRec := { rec2 with Children := [] }, err := none, panicked := true }
  | some uuids =>
    let rec3 := { rec2 with Children := [] ++ uuids, Name := name, Uuid := uuid }
    let r := DBAddByName s rec3
    { state := r.1, devRec := rec3, err := r.2 }

/-- The loop of `GetLoggableEntitiesFromDevRec` over the requested entities;
`none` is its return at an entity that the map does not hold. -/
def requestedLevels (loggable : GoMap Int) : List String → LevelLists → Option LevelLists
  | [], l => some l
  | entity :: rest, l =>
    match loggable.load entity with
    | some logLevel => requestedLevels loggable rest (l.add logLevel entity)
    | none => none

/-- The method `GetLoggableEntitiesFromDevRec`. A `nil` map reads as an empty
one. The last branch walks the Go map, here in the order of the list. -/
def GetLoggableEntitiesFromDevRec (rec : DeviceRecord) (entities : List String) :
    List EntitiesLogLevel × Bool :=
  let loggable : GoMap Int := rec.Logging.LoggableEntities.getD []
  if entities.length > 0 then
    match requestedLevels loggable entities {} with
    | none => ([], false)
    | some l => (l.toGroups, true)
  else if loggable.length = 0 then ([{ LogLevel := rec.Logging.LogLevel }], true)
  else ((loggable.foldl (fun (l : LevelLists) p => l.add p.2 p.1) {}).toGroups, true)

/-- The loop of `SaveLoggableEntities` over the groups and their entities. -/
def setLevels (loggable : GoMap Int) (listEntities : List EntitiesLogLevel) : GoMap Int :=
  listEntities.foldl
    (fun m entities => entities.Entities.foldl (fun m entity => m.store entity entities.LogLevel) m)
    loggable

/-- The method `SaveLoggableEntities`: the map is allocated when it is `nil`,
then one group without entities sets the level of the record, and any other
list sets the levels of the listed entities. -/
def SaveLoggableEntities (rec : DeviceRecord) (listEntities : List EntitiesLogLevel) :
    DeviceRecord :=
  let loggable : GoMap Int :=
    match rec.Logging.LoggableEntities with
    | none => []
    | some m => m
  match listEntities with
  | [entities] =>
    if entities.Entities = [] then
      { rec with Logging := { rec.Logging with LoggableEntities := some loggable,
                                               LogLevel := entities.LogLevel } }
    else
      { rec with Logging := { rec.Logging with
          LoggableEntities := some (setLevels loggable listEntities) } }
  | _ =>
    { rec with Logging := { rec.Logging with
        LoggableEntities := some (setLevels loggable listEntities) } }

end device

/-! ## The rpc `SetLogLevel` -/

/-- The enum `dmi.SetLogLevelResponse_Reason`. -/
inductive SetLogReason where
  | UNDEFINED_REASON
  | UNKNOWN_DEVICE
  | INTERNAL_ERROR
  | UNKNOWN_LOG_ENTITY
  | DEVICE_UNREACHABLE
deriving DecidableEq, Repr

/-- The message `dmi.SetLogLevelRequest`; its `DeviceUuid` message is taken as
present (the handler reads `req.DeviceUuid.Uuid` with no check). -/
structure SetLogLevelRequest where
  DeviceUuid : String := ""
  Loglevels : List EntitiesLogLevel := []
deriving DecidableEq, Repr

/-- The message `dmi.SetLogLevelResponse`. -/
structure SetLogLevelResponse where
  DeviceUuid : Option String := none
  Status : Status := .UNDEFINED_STATUS
  Reason : SetLogReason := .UNDEFINED_REASON
  ReasonDetail : String := ""
deriving DecidableEq, Repr

/-- The outcome of a unary rpc on the log levels: the state, what was returned,
and whether the program panicked (then nothing was returned). -/
structure SetLogHandled where
  state : State
  resp : Option SetLogLevelResponse
  err : Option String
  panicked : Bool := false

namespace grpc

/-- The adapter method `Client.SetLogLevel`; `reply` is what the device
answered. With no error and no response the read of `resp.Status` panics. -/
def SetLogLevel (s : State) (devRec : DeviceRecord) (req : SetLogLevelRequest)
    (reply : Option SetLogLevelResponse × Option String) : SetLogHandled :=
  match reply with
  | (resp, some err) => { state := s, resp := resp, err := some err }
  | (none, none) => { state := s, resp := none, err := none, panicked := true }
  | (some resp, none) =>
    if resp.Status = .OK_STATUS then
      let devRec1 := device.SaveLoggableEntities devRec req.Loglevels
      { state := (device.DBAddByName s devRec1).1, resp := some resp, err := none }
    else { state := s, resp := some resp, err := none }

end grpc

namespace nbi

/-- The function `isValidSetLogLevel`. -/
def isValidSetLogLevel (listEntities : List EntitiesLogLevel) : Bool × Option String :=
  if listEntities.length = 0 then (false, some "found empty entities")
  else if listEntities.length > 1 ∧ listEntities.any (fun entities => entities.Entities.length = 0)
  then (false, some "set-empty-entries-not-allowed")
  else (true, none)

/-- The function `errRespSetLogLevel`; `none` is the panic of `err.Error()` on a
`nil` error. -/
def errRespSetLogLevel (req : SetLogLevelRequest) (reason : SetLogReason)
    (err : Option String) : Option SetLogLevelResponse :=
  match err with
  | none => none
  | some msg =>
    some { DeviceUuid := some req.DeviceUuid, Status := .ERROR_STATUS, Reason := reason,
           ReasonDetail := msg }

/-- What the network does during one `SetLogLevel` request: the error of
`g.Dial` when `Connect` is called, and the answer of the device. -/
structure SetLogEnv where
  dial : Option String := none
  reply : Option SetLogLevelResponse × Option String := (some {}, none)

/-- The handler `NativeHwManagementService.SetLogLevel`. The error response is
built when `isValidSetLogLevel` returns `true`, as the source has it. -/
def SetLogLevel (s : State) (req : SetLogLevelRequest) (env : SetLogEnv) : SetLogHandled :=
  match isValidSetLogLevel req.Loglevels with
  | (true, err) =>
    match errRespSetLogLevel req .UNKNOWN_LOG_ENTITY err with
    | none => { state := s, resp := none, err := err, panicked := true }
    | some resp => { state := s, resp := some resp, err := err }
  | (false, _) =>
    match device.DBGetByUuid s req.DeviceUuid with
    | (s1, _, some err) =>
      { state := s1, resp := errRespSetLogLevel req .UNKNOWN_DEVICE (some err), err := some err }
    | (s1, none, none) => { state := s1, resp := none, err := none, panicked := true }
    | (s1, some devRec, none) =>
      match getConnection s1 devRec env.dial with
      | (s2, none, err) =>
        match errRespSetLogLevel req .DEVICE_UNREACHABLE err with
        | none => { state := s2, resp := none, err := err, panicked := true }
        | some resp => { state := s2, resp := some resp, err := err }
      | (s2, some _, _) => grpc.SetLogLevel s2 devRec req env.reply

end nbi

/-! ## Reference definitions for the log levels -/

/-- The level that a record holds for an entity, `none` when it holds none. -/
def DeviceRecord.levelOf (rec : DeviceRecord) (entity : String) : Option Int :=
  (rec.Logging.LoggableEntities.getD []).load entity

/-- The level of the last group of a list that names an entity, `none` when no
group names it. -/
def specLastLevel (entity : String) : List EntitiesLogLevel → Option Int
  | [] => none
  | g :: rest =>
    match specLastLevel entity rest with
    | some level => some level
    | none => if entity ∈ g.Entities then some g.LogLevel else none

/-- A list of groups that is a single group with no entity list. -/
def specSingleGlobal (groups : List EntitiesLogLevel) : Bool :=
  match groups with
  | [g] => g.Entities.isEmpty
  | _ => false

/-- The reference of `GetLoggableEntitiesFromDevRec`, requested entities: the
group of a level holds, in request order, the requested entities whose stored
level it is. -/
def specRequestedGroup (known : GoMap Int) (level : Int) (entities : List String) :
    EntitiesLogLevel :=
  { LogLevel := level, Entities := entities.filter (fun e => decide (known.load e = some level)) }

/-- The reference of `GetLoggableEntitiesFromDevRec`, all entities: the group
of a level holds the known entities stored with that level. -/
def specKnownGroup (known : GoMap Int) (level : Int) : EntitiesLogLevel :=
  { LogLevel := level,
    Entities := (known.filter (fun p => decide (p.2 = level))).map Prod.fst }

/-- The reference of `GetLoggableEntitiesFromDevRec`, following the words of the
specification: a non-empty request is not found when a requested entity is
absent, else it gives the five groups `TRACE`, `DEBUG`, `INFO`, `WARN`, `ERROR`
of the requested entities; an empty request gives one group with the level of
the record when no entity is known, else the five groups of the known
entities. -/
def specLoggableEntities (rec : DeviceRecord) (entities : List String) :
    List EntitiesLogLevel × Bool :=
  let known : GoMap Int := rec.Logging.LoggableEntities.getD []
  if entities ≠ [] then
    if entities.all (fun e => (known.load e).isSome) then
      ([specRequestedGroup known LogLevel_TRACE entities,
        specRequestedGroup known LogLevel_DEBUG entities,
        specRequestedGroup known LogLevel_INFO entities,
        specRequestedGroup known LogLevel_WARN entities,
        specRequestedGroup known LogLevel_ERROR entities], true)
    else ([], false)
  else if known = [] then ([{ LogLevel := rec.Logging.LogLevel, Entities := [] }], true)
  else
    ([specKnownGroup known LogLevel_TRACE, specKnownGroup known LogLevel_DEBUG,
      specKnownGroup known LogLevel_INFO, specKnownGroup known LogLevel_WARN,
      specKnownGroup known LogLevel_ERROR], true)

/-! ## Reference definitions for the inventory -/

mutual
/-- A component and the components below it, a parent before its children. -/
def Component.reachable : Component → List Component
  | .mk a cs => .mk a cs :: reachableFrom cs
/-- The components reachable from the components of a list. -/
def reachableFrom : List Component → List Component
  | [] => []
  | c :: rest => c.reachable ++ reachableFrom rest
end

namespace hwcomponents

/-- The record of a component: its copied fields, its uri and uuid (empty when
it carries none), and the uuids of its direct children in order. -/
def recordOf (c : Component) : HwCompRecord :=
  { copyComponent c.attrs with
    Uri := c.attrs.Uri.getD "", Uuid := c.attrs.Uuid.getD "",
    Children := c.Children.map (fun x => x.attrs.Uuid.getD "") }

/-- The effect of saving one component: its record is added under its uuid,
and its name is bound to its uuid in the map. -/
def saveOne (deviceUuid : String) (p : State × GoMap String) (c : Component) :
    State × GoMap String :=
  ((DBAddByUuid p.1 (recordOf c) deviceUuid).1,
    p.2.store c.attrs.Name (c.attrs.Uuid.getD ""))

/-- The two calls of the adapter after an inventory was received:
`DBSaveHwCompsFromPhysicalInventory(d, acc, children)`, then
`DBAddNameToUuidlookup(d, acc)`. The result is the state, the map `acc` and
whether the first call panicked. -/
def specIngest (s : State) (deviceUuid : String) (acc : GoMap String)
    (children : List Component) : State × GoMap String × Bool :=
  let out := DBSaveHwCompsFromPhysicalInventory s deviceUuid acc children
  ((DBAddNameToUuidlookup out.1 deviceUuid out.2.1).1, out.2.1, out.2.2)

end hwcomponents

/-! ## The other messages of the `dmi` interface

Of each enum of reasons the members that the repository names are listed, with
`UNDEFINED_REASON`, the zero value. The message `DeviceUuid` (or `Uuid`,
`ComponentUuid`, `Changes`) of a request is taken as present: the handlers read
through it with no check. -/

/-- The enum `dmi.PhysicalInventoryResponse_Reason`. -/
inductive InventoryReason where
  | UNDEFINED_REASON
  | UNKNOWN_DEVICE
  | INTERNAL_ERROR
  | DEVICE_UNREACHABLE
deriving DecidableEq, Repr

/-- The message `dmi.PhysicalInventoryRequest`. -/
structure PhysicalInventoryRequest where
  DeviceUuid : String := ""
deriving DecidableEq, Repr

/-- The message `dmi.PhysicalInventoryResponse`; its `Inventory` may be absent. -/
structure PhysicalInventoryResponse where
  Status : Status := .UNDEFINED_STATUS
  Reason : InventoryReason := .UNDEFINED_REASON
  Inventory : Option Hardware := none
  ReasonDetail : String := ""

/-- The enum `dmi.HWComponentInfoGetResponse_Reason`. -/
inductive CompGetReason where
  | UNDEFINED_REASON
  | UNKNOWN_DEVICE
  | INTERNAL_ERROR
  | DEVICE_UNREACHABLE
deriving DecidableEq, Repr

/-- The message `dmi.HWComponentInfoGetRequest`. -/
structure HWComponentInfoGetRequest where
  DeviceUuid : String := ""
  ComponentUuid : String := ""
deriving DecidableEq, Repr

/-- The message `dmi.HWComponentInfoGetResponse`; its `Component` may be
absent. -/
structure HWComponentInfoGetResponse where
  Status : Status := .UNDEFINED_STATUS
  Reason : CompGetReason := .UNDEFINED_REASON
  Component : Option Component := none
  ReasonDetail : String := ""

/-- The enum `dmi.HWComponentInfoSetResponse_Reason`. -/
inductive CompSetReason where
  | UNDEFINED_REASON
  | UNKNOWN_DEVICE
  | INTERNAL_ERROR
  | DEVICE_UNREACHABLE
deriving DecidableEq, Repr

/-- The message `dmi.HWComponentInfoSetRequest`. -/
structure HWComponentInfoSetRequest where
  DeviceUuid : String := ""
  ComponentUuid : String := ""
  Changes : ModifiableComponent := {}
deriving DecidableEq, Repr

/-- The message `dmi.HWComponentInfoSetResponse`. -/
structure HWComponentInfoSetResponse where
  Status : Status := .UNDEFINED_STATUS
  Reason : CompSetReason := .UNDEFINED_REASON
  ReasonDetail : String := ""
deriving DecidableEq, Repr

/-- The enum `dmi.SetRemoteEndpointResponse_Reason`. -/
inductive SetEndpointReason where
  | UNDEFINED_REASON
  | UNKNOWN_DEVICE
  | INTERNAL_ERROR
  | DEVICE_UNREACHABLE
deriving DecidableEq, Repr

/-- The message `dmi.SetLoggingEndpointRequest`. -/
structure SetLoggingEndpointRequest where
  DeviceUuid : String := ""
  LoggingEndpoint : String := ""
  LoggingProtocol : String := ""
deriving DecidableEq, Repr

/-- The message `dmi.SetRemoteEndpointResponse`. -/
structure SetRemoteEndpointResponse where
  Status : Status := .UNDEFINED_STATUS
  Reason : SetEndpointReason := .UNDEFINED_REASON
  ReasonDetail : String := ""
deriving DecidableEq, Repr

/-- The enum `dmi.GetLoggingEndpointResponse_Reason`. -/
inductive GetEndpointReason where
  | UNDEFINED_REASON
  | UNKNOWN_DEVICE
  | INTERNAL_ERROR
  | DEVICE_UNREACHABLE
deriving DecidableEq, Repr

/-- The message `dmi.HardwareID`. -/
structure HardwareID where
  Uuid : String := ""
deriving DecidableEq, Repr

/-- The message `dmi.GetLoggingEndpointResponse`. -/
structure GetLoggingEndpointResponse where
  Status : Status := .UNDEFINED_STATUS
  Reason : GetEndpointReason := .UNDEFINED_REASON
  LoggingEndpoint : String := ""
  LoggingProtocol : String := ""
  ReasonDetail : String := ""
deriving DecidableEq, Repr

/-- The enum `dmi.GetLogLevelResponse_Reason`. -/
inductive GetLogReason where
  | UNDEFINED_REASON
  | UNKNOWN_DEVICE
  | INTERNAL_ERROR
  | UNKNOWN_LOG_ENTITY
  | DEVICE_UNREACHABLE
deriving DecidableEq, Repr

/-- The message `dmi.GetLoggableEntitiesRequest`. -/
structure GetLoggableEntitiesRequest where
  DeviceUuid : String := ""
deriving DecidableEq, Repr

/-- The message `dmi.GetLogLevelRequest`. -/
structure GetLogLevelRequest where
  DeviceUuid : String := ""
  Entities : List String := []
deriving DecidableEq, Repr

/-- The message `dmi.GetLogLevelResponse`. -/
structure GetLogLevelResponse where
  DeviceUuid : Option String := none
  LogLevels : List EntitiesLogLevel := []
  Status : Status := .UNDEFINED_STATUS
  Reason : GetLogReason := .UNDEFINED_REASON
  ReasonDetail : String := ""
deriving DecidableEq, Repr

/-- The behaviour of the device agent on a southbound `GetPhysicalInventory`
call: the error of the call itself, the frames of the stream, and its end. -/
structure InventoryStream where
  openErr : Option String := none
  frames : List PhysicalInventoryResponse := []
  last : RecvEnd := .eof

/-- The behaviour of the device agent on a southbound `GetHWComponentInfo`
call. -/
structure CompInfoStream where
  openErr : Option String := none
  frames : List HWComponentInfoGetResponse := []
  last : RecvEnd := .eof

/-- The outcome of a unary call: the state, what was returned, and whether the
program panicked (then nothing was returned). -/
structure Unary (R : Type) where
  state : State
  resp : Option R
  err : Option String
  panicked : Bool := false

/-! ## `pkg/sbi/grpc`: the other adapter methods -/

namespace hwcomponents

/-- The call `copy.Copy(&hwCompRec, &respFromDev.Component)` onto a record: the
fields of equal name and assignable type are overwritten (`State` becomes `nil`
when the component has none); `Parent`, `Children`, `Uri`, `Uuid` and
`Specific` are left as they are. -/
def copyOnto (rec : HwCompRecord) (a : ComponentAttrs) : HwCompRecord :=
  { rec with Name := a.Name, Class := a.Class, Description := a.Description,
             ParentRelPos := a.ParentRelPos, SerialNum := a.SerialNum, MfgName := a.MfgName,
             ModelName := a.ModelName, Alias := a.Alias, AssetId := a.AssetId,
             IsFru := a.IsFru, MfgDate := a.MfgDate, State := a.State }

/-- The call `copy.Copy(&hwCompRec, &req.Changes)`: of a `ModifiableComponent`
the fields `Name`, `Class`, `ParentRelPos`, `Alias` and `AssetId` have a field
of the same name and type in the record. -/
def copyChanges (rec : HwCompRecord) (c : ModifiableComponent) : HwCompRecord :=
  { rec with Name := c.Name, Class := c.Class, ParentRelPos := c.ParentRelPos,
             Alias := c.Alias, AssetId := c.AssetId }

end hwcomponents

namespace grpc

/-- What the adapter does with the inventory of an OK frame. -/
structure InventoryStored where
  state : State
  devRec : DeviceRecord
  panicked : Bool := false

/-- The branch `respFromDev.Status == dmi.Status_OK_STATUS` of the method
`GetPhysicalInventory`: `DBSaveHwInfo`, then the components saved under the
uuid of the record with a new map, then the map. A frame without inventory
makes `DBSaveHwInfo` panic at its first read. -/
def storeInventory (s : State) (devRec : DeviceRecord) (inventory : Option Hardware) :
    InventoryStored :=
  match inventory with
  | none => { state := s, devRec := devRec, panicked := true }
  | some hw =>
    let saved := device.DBSaveHwInfo s devRec hw
    if saved.panicked then { state := saved.state, devRec := saved.devRec, panicked := true }
    else
      let out := hwcomponents.DBSaveHwCompsFromPhysicalInventory saved.state saved.devRec.Uuid []
        hw.Root.Children
      if out.2.2 then { state := out.1, devRec := saved.devRec, panicked := true }
      else
        { state := (hwcomponents.DBAddNameToUuidlookup out.1 saved.devRec.Uuid out.2.1).1,
          devRec := saved.devRec }

/-- The outcome of the adapter method `GetPhysicalInventory`. -/
structure InventoryOutcome where
  state : State
  devRec : DeviceRecord
  sent : List PhysicalInventoryResponse
  err : Option String
  panicked : Bool := false

/-- The receive loop of the method `GetPhysicalInventory`. -/
def inventoryLoop (last : RecvEnd) : List PhysicalInventoryResponse → State → DeviceRecord →
    List PhysicalInventoryResponse → InventoryOutcome
  | [], s, devRec, sent =>
    match last with
    | .eof => { state := s, devRec := devRec, sent := sent, err := none }
    | .failed err => { state := s, devRec := devRec, sent := sent, err := some err }
  | respFromDev :: rest, s, devRec, sent =>
    if respFromDev.Status = .OK_STATUS then
      let stored := storeInventory s devRec respFromDev.Inventory
      if stored.panicked then
        { state := stored.state, devRec := stored.devRec, sent := sent, err := none,
          panicked := true }
      else inventoryLoop last rest stored.state stored.devRec (sent ++ [respFromDev])
    else if respFromDev.Status = .ERROR_STATUS then
      { state := s, devRec := devRec, sent := sent ++ [respFromDev],
        err := some respFromDev.ReasonDetail }
    else inventoryLoop last rest s devRec (sent ++ [respFromDev])

/-- The method `Client.GetPhysicalInventory`. -/
def GetPhysicalInventory (s : State) (devRec : DeviceRecord) (sb : InventoryStream) :
    InventoryOutcome :=
  match sb.openErr with
  | some err =>
    { state := s, devRec := devRec,
      sent := [{ Status := .ERROR_STATUS, Reason := .INTERNAL_ERROR, ReasonDetail := err }],
      err := some err }
  | none => inventoryLoop sb.last sb.frames s devRec []

/-- What the adapter does with the component of an OK frame. -/
structure ComponentStored where
  state : State
  hwCompRec : HwCompRecord
  panicked : Bool := false

/-- The branch `respFromDev.Status == dmi.Status_OK_STATUS` of the method
`GetHWComponentInfo`. With no component in the frame the copy does nothing and
the read `respFromDev.Component.State` panics. -/
def storeComponent (s : State) (deviceUuid : String) (hwCompRec : HwCompRecord)
    (component : Option Component) : ComponentStored :=
  let rec1 : HwCompRecord :=
    if hwCompRec.State = none then { hwCompRec with State := some {} } else hwCompRec
  match component with
  | none => { state := s, hwCompRec := rec1, panicked := true }
  | some comp =>
    let rec2 := hwcomponents.copyOnto rec1 comp.attrs
    let rec3 : HwCompRecord :=
      match comp.attrs.State with
      | some st => { rec2 with State := (rec2.State.map
          (fun cur => { cur with AdminState := st.AdminState })) }
      | none => rec2
    { state := (hwcomponents.DBAddByUuid s rec3 deviceUuid).1, hwCompRec := rec3 }

/-- The outcome of the adapter method `GetHWComponentInfo`. -/
structure CompInfoOutcome where
  state : State
  hwCompRec : HwCompRecord
  sent : List HWComponentInfoGetResponse
  err : Option String
  panicked : Bool := false

/-- The receive loop of the method `GetHWComponentInfo`. -/
def compInfoLoop (last : RecvEnd) (deviceUuid : String) :
    List HWComponentInfoGetResponse → State → HwCompRecord →
    List HWComponentInfoGetResponse → CompInfoOutcome
  | [], s, hwCompRec, sent =>
    match last with
    | .eof => { state := s, hwCompRec := hwCompRec, sent := sent, err := none }
    | .failed err => { state := s, hwCompRec := hwCompRec, sent := sent, err := some err }
  | respFromDev :: rest, s, hwCompRec, sent =>
    if respFromDev.Status = .OK_STATUS then
      let stored := storeComponent s deviceUuid hwCompRec respFromDev.Component
      if stored.panicked then
        { state := stored.state, hwCompRec := stored.hwCompRec, sent := sent, err := none,
          panicked := true }
      else
        compInfoLoop last deviceUuid rest stored.state stored.hwCompRec (sent ++ [respFromDev])
    else if respFromDev.Status = .ERROR_STATUS then
      { state := s, hwCompRec := hwCompRec, sent := sent ++ [respFromDev],
        err := some respFromDev.ReasonDetail }
    else compInfoLoop last deviceUuid rest s hwCompRec (sent ++ [respFromDev])

/-- The method `Client.GetHWComponentInfo`. -/
def GetHWComponentInfo (s : State) (deviceUuid : String) (hwCompRec : HwCompRecord)
    (sb : CompInfoStream) : CompInfoOutcome :=
  match sb.openErr with
  | some err =>
    { state := s, hwCompRec := hwCompRec,
      sent := [{ Status := .ERROR_STATUS, Reason := .INTERNAL_ERROR, ReasonDetail := err }],
      err := some err }
  | none => compInfoLoop sb.last deviceUuid sb.frames s hwCompRec []

/-- The method `Client.SetHWComponentInfo`; `reply` is what the device
answered. With no error and no response the read of `resp.Status` panics. -/
def SetHWComponentInfo (s : State) (deviceUuid : String) (hwCompRec : HwCompRecord)
    (req : HWComponentInfoSetRequest)
    (reply : Option HWComponentInfoSetResponse × Option String) :
    Unary HWComponentInfoSetResponse :=
  match reply with
  | (resp, some err) => { state := s, resp := resp, err := some err }
  | (none, none) => { state := s, resp := none, err := none, panicked := true }
  | (some resp, none) =>
    if resp.Status = .OK_STATUS then
      let rec1 := hwcomponents.copyChanges { hwCompRec with State := some {} } req.Changes
      let rec2 : HwCompRecord := { rec1 with State := some { AdminState := req.Changes.AdminState } }
      { state := (hwcomponents.DBAddByUuid s rec2 deviceUuid).1, resp := some resp, err := none }
    else { state := s, resp := some resp, err := some resp.ReasonDetail }

/-- The method `Client.SetLoggingEndpoint`: once the call itself returned no
error, the error is `errors.New(resp.ReasonDetail)`, whatever the status. -/
def SetLoggingEndpoint (s : State) (devRec : DeviceRecord) (req : SetLoggingEndpointRequest)
    (reply : Option SetRemoteEndpointResponse × Option String) :
    Unary SetRemoteEndpointResponse :=
  match reply with
  | (resp, some err) => { state := s, resp := resp, err := some err }
  | (none, none) => { state := s, resp := none, err := none, panicked := true }
  | (some resp, none) =>
    if resp.Status = .OK_STATUS then
      let devRec1 : DeviceRecord :=
        { devRec with Logging := { devRec.Logging with EndPoint := req.LoggingEndpoint,
                                                       Protocol := req.LoggingProtocol } }
      { state := (device.DBAddByName s devRec1).1, resp := some resp,
        err := some resp.ReasonDetail }
    else { state := s, resp := some resp, err := some resp.ReasonDetail }

/-- The method `Client.GetLoggingEndpoint`, with the same error. -/
def GetLoggingEndpoint (s : State) (devRec : DeviceRecord)
    (reply : Option GetLoggingEndpointResponse × Option String) :
    Unary GetLoggingEndpointResponse :=
  match reply with
  | (resp, some err) => { state := s, resp := resp, err := some err }
  | (none, none) => { state := s, resp := none, err := none, panicked := true }
  | (some resp, none) =>
    if resp.Status = .OK_STATUS then
      let devRec1 : DeviceRecord :=
        { devRec with Logging := { devRec.Logging with EndPoint := resp.LoggingEndpoint,
                                                       Protocol := resp.LoggingProtocol } }
      { state := (device.DBAddByName s devRec1).1, resp := some resp,
        err := some resp.ReasonDetail }
    else { state := s, resp := some resp, err := some resp.ReasonDetail }

/-- The methods `Client.GetLoggableEntities` and `Client.GetLogLevel`, which
have the same body: on an OK response its levels are saved in the record. -/
def GetLogLevel (s : State) (devRec : DeviceRecord)
    (reply : Option GetLogLevelResponse × Option String) : Unary GetLogLevelResponse :=
  match reply with
  | (resp, some err) => { state := s, resp := resp, err := some err }
  | (none, none) => { state := s, resp := none, err := none, panicked := true }
  | (some resp, none) =>
    if resp.Status = .OK_STATUS then
      let devRec1 := device.SaveLoggableEntities devRec resp.LogLevels
      { state := (device.DBAddByName s devRec1).1, resp := some resp, err := none }
    else { state := s, resp := some resp, err := none }

/-- The method `Client.GetLoggableEntities`. -/
def GetLoggableEntities (s : State) (devRec : DeviceRecord)
    (reply : Option GetLogLevelResponse × Option String) : Unary GetLogLevelResponse :=
  GetLogLevel s devRec reply

end grpc

/-! ## `pkg/nbi`: the other error responses and handlers -/

namespace nbi

/-- The function `errRespGetPhysicatInventory`; `none` is the panic of
`err.Error()` on a `nil` error. -/
def errRespGetPhysicatInventory (reason : InventoryReason) (err : Option String) :
    Option PhysicalInventoryResponse :=
  match err with
  | none => none
  | some msg => some { Status := .ERROR_STATUS, Reason := reason, ReasonDetail := msg }

/-- The function `errRespGetHWComponentInfo`. -/
def errRespGetHWComponentInfo (reason : CompGetReason) (err : Option String) :
    Option HWComponentInfoGetResponse :=
  match err with
  | none => none
  | some msg => some { Status := .ERROR_STATUS, Reason := reason, ReasonDetail := msg }

/-- The function `errRespSetHWComponentInfo`. -/
def errRespSetHWComponentInfo (reason : CompSetReason) (err : Option String) :
    Option HWComponentInfoSetResponse :=
  match err with
  | none => none
  | some msg => some { Status := .ERROR_STATUS, Reason := reason, ReasonDetail := msg }

/-- The function `errRespSetLoggingEndpoint`. -/
def errRespSetLoggingEndpoint (reason : SetEndpointReason) (err : Option String) :
    Option SetRemoteEndpointResponse :=
  match err with
  | none => none
  | some msg => some { Status := .ERROR_STATUS, Reason := reason, ReasonDetail := msg }

/-- The function `errRespGetLoggingEndpoint`. -/
def errRespGetLoggingEndpoint (reason : GetEndpointReason) (err : Option String) :
    Option GetLoggingEndpointResponse :=
  match err with
  | none => none
  | some msg => some { Status := .ERROR_STATUS, Reason := reason, ReasonDetail := msg }

/-- The functions `errRespGetLoggableEntities` and `errRespGetLogLevel`, which
build the same response from the uuid of the request. -/
def errRespGetLogLevel (deviceUuid : String) (reason : GetLogReason) (err : Option String) :
    Option GetLogLevelResponse :=
  match err with
  | none => none
  | some msg =>
    some { DeviceUuid := some deviceUuid, Status := .ERROR_STATUS, Reason := reason,
           ReasonDetail := msg }

/-- The function `errRespGetLoggableEntities`. -/
def errRespGetLoggableEntities (deviceUuid : String) (reason : GetLogReason)
    (err : Option String) : Option GetLogLevelResponse :=
  errRespGetLogLevel deviceUuid reason err

/-- The outcome of a streaming handler: the state, the frames sent on the
northbound stream, the returned error, and whether the handler panicked. -/
structure Streamed (F : Type) where
  state : State
  sent : List F
  err : Option String
  panicked : Bool := false

/-- A unary outcome from an error response: the panic of the builder is the
panic of the handler. -/
def Unary.ofErrResp {R : Type} (s : State) (resp : Option R) (err : Option String) : Unary R :=
  match resp with
  | none => { state := s, resp := none, err := err, panicked := true }
  | some r => { state := s, resp := some r, err := err }

/-- A streaming outcome from an error response that is sent. -/
def Streamed.ofErrResp {F : Type} (s : State) (resp : Option F) (err : Option String) :
    Streamed F :=
  match resp with
  | none => { state := s, sent := [], err := err, panicked := true }
  | some r => { state := s, sent := [r], err := err }

/-- What the network does during one `GetPhysicalInventory` request. -/
structure InventoryEnv where
  dial : Option String := none
  stream : InventoryStream := {}

/-- The handler `NativeHwManagementService.GetPhysicalInventory`. -/
def GetPhysicalInventory (s : State) (req : PhysicalInventoryRequest) (env : InventoryEnv) :
    Streamed PhysicalInventoryResponse :=
  match device.DBGetByUuid s req.DeviceUuid with
  | (s1, none, err) =>
    Streamed.ofErrResp s1 (errRespGetPhysicatInventory .UNKNOWN_DEVICE err) err
  | (s1, some devRec, _) =>
    match getConnection s1 devRec env.dial with
    | (s2, none, err) =>
      Streamed.ofErrResp s2 (errRespGetPhysicatInventory .DEVICE_UNREACHABLE err) err
    | (s2, some _, _) =>
      let out := grpc.GetPhysicalInventory s2 devRec env.stream
      { state := out.state, sent := out.sent, err := out.err, panicked := out.panicked }

/-- What the network does during one `GetHWComponentInfo` request. -/
structure CompInfoEnv where
  dial : Option String := none
  stream : CompInfoStream := {}

/-- The handler `NativeHwManagementService.GetHWComponentInfo`. -/
def GetHWComponentInfo (s : State) (req : HWComponentInfoGetRequest) (env : CompInfoEnv) :
    Streamed HWComponentInfoGetResponse :=
  match device.DBGetByUuid s req.DeviceUuid with
  | (s1, none, err) =>
    Streamed.ofErrResp s1 (errRespGetHWComponentInfo .UNKNOWN_DEVICE err) err
  | (s1, some devRec, _) =>
    match hwcomponents.DBGetRecByUuid s1 req.DeviceUuid req.ComponentUuid with
    | (s2, none, err) =>
      Streamed.ofErrResp s2 (errRespGetHWComponentInfo .UNKNOWN_DEVICE err) err
    | (s2, some hwCompRec, _) =>
      match getConnection s2 devRec env.dial with
      | (s3, none, err) =>
        Streamed.ofErrResp s3 (errRespGetHWComponentInfo .DEVICE_UNREACHABLE err) err
      | (s3, some _, _) =>
        let out := grpc.GetHWComponentInfo s3 devRec.Uuid hwCompRec env.stream
        { state := out.state, sent := out.sent, err := out.err, panicked := out.panicked }

/-- What the network does during one unary request: the error of `g.Dial` when
`Connect` is called, and the answer of the device. -/
structure UnaryEnv (R : Type) where
  dial : Option String := none
  reply : Option R × Option String

/-- The handler `NativeHwManagementService.SetHWComponentInfo`. -/
def SetHWComponentInfo (s : State) (req : HWComponentInfoSetRequest)
    (env : UnaryEnv HWComponentInfoSetResponse) : Unary HWComponentInfoSetResponse :=
  match device.DBGetByUuid s req.DeviceUuid with
  | (s1, none, err) => Unary.ofErrResp s1 (errRespSetHWComponentInfo .UNKNOWN_DEVICE err) err
  | (s1, some devRec, _) =>
    match hwcomponents.DBGetRecByUuid s1 req.DeviceUuid req.ComponentUuid with
    | (s2, none, err) => Unary.ofErrResp s2 (errRespSetHWComponentInfo .UNKNOWN_DEVICE err) err
    | (s2, some hwCompRec, _) =>
      match getConnection s2 devRec env.dial with
      | (s3, none, err) =>
        Unary.ofErrResp s3 (errRespSetHWComponentInfo .DEVICE_UNREACHABLE err) err
      | (s3, some _, _) => grpc.SetHWComponentInfo s3 devRec.Uuid hwCompRec req env.reply

/-- The handler `NativeHwManagementService.SetLoggingEndpoint`. A `nil` record
without error would panic in `getConnection`. -/
def SetLoggingEndpoint (s : State) (req : SetLoggingEndpointRequest)
    (env : UnaryEnv SetRemoteEndpointResponse) : Unary SetRemoteEndpointResponse :=
  match device.DBGetByUuid s req.DeviceUuid with
  | (s1, _, some err) =>
    Unary.ofErrResp s1 (errRespSetLoggingEndpoint .UNKNOWN_DEVICE (some err)) (some err)
  | (s1, none, none) => { state := s1, resp := none, err := none, panicked := true }
  | (s1, some devRec, none) =>
    match getConnection s1 devRec env.dial with
    | (s2, none, err2) =>
      Unary.ofErrResp s2 (errRespSetLoggingEndpoint .DEVICE_UNREACHABLE err2) err2
    | (s2, some _, _) => grpc.SetLoggingEndpoint s2 devRec req env.reply

/-- The handler `NativeHwManagementService.GetLoggingEndpoint`. -/
def GetLoggingEndpoint (s : State) (req : HardwareID)
    (env : UnaryEnv GetLoggingEndpointResponse) : Unary GetLoggingEndpointResponse :=
  match device.DBGetByUuid s req.Uuid with
  | (s1, _, some err) =>
    Unary.ofErrResp s1 (errRespGetLoggingEndpoint .UNKNOWN_DEVICE (some err)) (some err)
  | (s1, none, none) => { state := s1, resp := none, err := none, panicked := true }
  | (s1, some devRec, none) =>
    match getConnection s1 devRec env.dial with
    | (s2, none, err) =>
      Unary.ofErrResp s2 (errRespGetLoggingEndpoint .DEVICE_UNREACHABLE err) err
    | (s2, some _, _) => grpc.GetLoggingEndpoint s2 devRec env.reply

/-- The handler `NativeHwManagementService.GetLoggableEntities`: a record with
an allocated per-entity map answers the request itself. -/
def GetLoggableEntities (s : State) (req : GetLoggableEntitiesRequest)
    (env : UnaryEnv GetLogLevelResponse) : Unary GetLogLevelResponse :=
  match device.DBGetByUuid s req.DeviceUuid with
  | (s1, _, some err) =>
    Unary.ofErrResp s1 (errRespGetLoggableEntities req.DeviceUuid .UNKNOWN_DEVICE (some err))
      (some err)
  | (s1, none, none) => { state := s1, resp := none, err := none, panicked := true }
  | (s1, some devRec, none) =>
    if devRec.Logging.LoggableEntities ≠ none then
      { state := s1,
        resp := some { DeviceUuid := some req.DeviceUuid, Status := .OK_STATUS,
                       LogLevels := (device.GetLoggableEntitiesFromDevRec devRec []).1 },
        err := none }
    else
      match getConnection s1 devRec env.dial with
      | (s2, none, err) =>
        Unary.ofErrResp s2 (errRespGetLoggableEntities req.DeviceUuid .DEVICE_UNREACHABLE err)
          err
      | (s2, some _, _) => grpc.GetLoggableEntities s2 devRec env.reply

/-- The handler `NativeHwManagementService.GetLogLevel`: a record with an
allocated per-entity map answers the request itself when it knows every
requested entity. -/
def GetLogLevel (s : State) (req : GetLogLevelRequest)
    (env : UnaryEnv GetLogLevelResponse) : Unary GetLogLevelResponse :=
  match device.DBGetByUuid s req.DeviceUuid with
  | (s1, _, some err) =>
    Unary.ofErrResp s1 (errRespGetLogLevel req.DeviceUuid .UNKNOWN_DEVICE (some err)) (some err)
  | (s1, none, none) => { state := s1, resp := none, err := none, panicked := true }
  | (s1, some devRec, none) =>
    if devRec.Logging.LoggableEntities ≠ none
        ∧ (device.GetLoggableEntitiesFromDevRec devRec req.Entities).2 = true then
      { state := s1,
        resp := some { DeviceUuid := some req.DeviceUuid, Status := .OK_STATUS,
                       LogLevels := (device.GetLoggableEntitiesFromDevRec devRec req.Entities).1 },
        err := none }
    else
      match getConnection s1 devRec env.dial with
      | (s2, none, err) =>
        Unary.ofErrResp s2 (errRespGetLogLevel req.DeviceUuid .DEVICE_UNREACHABLE err) err
      | (s2, some _, _) => grpc.GetLogLevel s2 devRec env.reply

end nbi

/-! ## Sequences of calls on the connection registry -/

namespace nbi

/-- A call on the connection registry: `getConnection` for a record, with the
error of `g.Dial` for the case that `Connect` is called, or `delConn`. -/
inductive RegistryCall where
  | get (devRec : DeviceRecord) (dial : Option String)
  | del (name : String)

/-- The state after one call on the registry. -/
def applyCall (s : State) : RegistryCall → State
  | .get devRec dial => (getConnection s devRec dial).1
  | .del name => delConn s name

/-- The state after a sequence of calls on the registry. -/
def runCalls (s : State) (calls : List RegistryCall) : State :=
  calls.foldl applyCall s

/-- What holds of the registry between two calls: one adapter for a name, every
adapter dialled once and before the next one is made, every adapter of the
registry dialled. -/
def registryInv (s : State) : Prop :=
  (GoMap.keys s.nameToAdapter).Nodup
  ∧ s.dialled.Nodup
  ∧ (∀ id ∈ s.dialled, id < s.created)
  ∧ (∀ p ∈ s.nameToAdapter, p.2.id ∈ s.dialled)

end nbi

/-! ## Sequences of calls on the device repository -/

namespace device

/-- A call of one of the operations of the device repository. -/
inductive RepoCall where
  | addByName (rec : DeviceRecord)
  | addUuidLookup (rec : DeviceRecord)
  | getByName (name : String)
  | getByUuid (uuid : String)
  | delRecord (rec : DeviceRecord)

/-- The state after one call on the device repository. -/
def applyRepoCall (s : State) : RepoCall → State
  | .addByName rec => (DBAddByName s rec).1
  | .addUuidLookup rec => (DBAddUuidLookup s rec).1
  | .getByName name => (DBGetByName s name).1
  | .getByUuid uuid => (DBGetByUuid s uuid).1
  | .delRecord rec => (DBDelRecord s rec).1

/-- The state after a sequence of calls on the device repository. -/
def runRepoCalls (s : State) (calls : List RepoCall) : State :=
  calls.foldl applyRepoCall s

/-- The caches agree with the KV store: the KV client is initialised, every
entry of the name cache has a row that holds the document of the cached record
or decodes to it, and every entry of the uuid cache has a row whose text is the
cached name. -/
def cacheInv (s : State) : Prop :=
  s.kvClient.isSome = true
  ∧ (∀ name rec, s.nameToRec.load name = some rec →
      ∃ v, s.row (DbPathNameToRecord name) = some v
        ∧ (v = .json rec.jsonMarshal ∨ DeviceRecord.jsonUnmarshal v = .ok rec))
  ∧ (∀ uuid name, s.uuidToName.load uuid = some name →
      ∃ v, s.row (DbPathUuidToName uuid) = some v ∧ v.toText = name)

end device

/-! ## Reference definitions for the streaming calls -/

/-- The frames that a streaming call forwards: the received frames up to and
including the first one with the status `ERROR`, all of them when there is
none. -/
def specForwarded {F : Type} (status : F → Status) : List F → List F
  | [] => []
  | f :: rest => if status f = .ERROR_STATUS then [f] else f :: specForwarded status rest

/-- The error that a streaming call returns: the detail of the first frame with
the status `ERROR`; with no such frame, nothing when the stream ends cleanly
and the transport error when it breaks. -/
def specReturned {F : Type} (status : F → Status) (detail : F → String) (last : RecvEnd) :
    List F → Option String
  | [] =>
    match last with
    | .eof => none
    | .failed err => some err
  | f :: rest =>
    if status f = .ERROR_STATUS then some (detail f) else specReturned status detail last rest

/-- A frame of `StartManagingDevice` that, when its status is `OK`, carries the
uuid of the device. -/
def startFrameComplete (f : StartManagingDeviceResponse) : Bool :=
  !decide (f.Status = .OK_STATUS) || f.DeviceUuid.isSome

/-- An inventory in which every component below the root carries a uuid. -/
def Hardware.complete (hw : Hardware) : Bool :=
  (reachableFrom hw.Root.Children).all (fun c => c.attrs.Uuid.isSome)

/-- A frame of `GetPhysicalInventory` that, when its status is `OK`, carries an
inventory in which every component below the root carries a uuid. -/
def inventoryFrameComplete (f : PhysicalInventoryResponse) : Bool :=
  !decide (f.Status = .OK_STATUS) || (f.Inventory.map Hardware.complete).getD false

/-- A frame of `GetHWComponentInfo` that, when its status is `OK`, carries a
component. -/
def compInfoFrameComplete (f : HWComponentInfoGetResponse) : Bool :=
  !decide (f.Status = .OK_STATUS) || f.Component.isSome

namespace device

/-- Reference definition: a key is under `DevRec/DevName/` when it starts with
the key `DbPathNameToRecord` filled with the empty name. -/
def specUnderDevName (key : String) : Bool :=
  (DbPathNameToRecord "").data.isPrefixOf key.data

/-- Reference definition: the rows of a store under `DevRec/DevName/`, in the
order of the store. -/
def specDevNameRows (rows : GoMap KVValue) : GoMap KVValue :=
  rows.filter (fun p => specUnderDevName p.1)

end device

/-! # Lemmas -/

/-! ## Go maps -/

namespace GoMap

variable {V : Type}

theorem load_cons (p : String × V) (t : GoMap V) (k : String) :
    load (p :: t) k = if p.1 = k then some p.2 else load t k := rfl

theorem delete_cons (p : String × V) (t : GoMap V) (k : String) :
    delete (p :: t) k = if p.1 = k then delete t k else p :: delete t k := by
  by_cases h : p.1 = k <;> simp [delete, List.filter, h]

theorem load_delete_self (m : GoMap V) (k : String) : load (delete m k) k = none := by
  induction m with
  | nil => rfl
  | cons p t ih =>
    rw [delete_cons]
    by_cases h : p.1 = k
    · rw [if_pos h]; exact ih
    · rw [if_neg h, load_cons, if_neg h]; exact ih

theorem load_delete_ne (m : GoMap V) {k k' : String} (h : k' ≠ k) :
    load (delete m k) k' = load m k' := by
  induction m with
  | nil => rfl
  | cons p t ih =>
    rw [delete_cons, load_cons]
    by_cases hp : p.1 = k
    · have hk : ¬ p.1 = k' := fun e => h (e.symm.trans hp)
      rw [if_pos hp, if_neg hk]; exact ih
    · rw [if_neg hp, load_cons, ih]

theorem load_store_self (m : GoMap V) (k : String) (v : V) : load (store m k v) k = some v := by
  simp [store, load_cons]

theorem load_store_ne (m : GoMap V) {k k' : String} (v : V) (h : k' ≠ k) :
    load (store m k v) k' = load m k' := by
  have hk : ¬ k = k' := fun e => h e.symm
  rw [store, load_cons]
  simp only [hk, if_false]
  exact load_delete_ne m h

end GoMap

/-! ## Keys of the KV rows -/

namespace device

theorem DbPathNameToRecord_inj {a b : String} :
    DbPathNameToRecord a = DbPathNameToRecord b ↔ a = b := by
  simp [DbPathNameToRecord, String.ext_iff]

theorem DbPathUuidToName_inj {a b : String} :
    DbPathUuidToName a = DbPathUuidToName b ↔ a = b := by
  simp [DbPathUuidToName, String.ext_iff]

theorem DbPathNameToRecord_ne_uuid (a b : String) :
    DbPathNameToRecord a ≠ DbPathUuidToName b := by
  simp [DbPathNameToRecord, DbPathUuidToName, String.ext_iff]

theorem DbPathUuidToName_ne_name (a b : String) :
    DbPathUuidToName a ≠ DbPathNameToRecord b :=
  fun e => DbPathNameToRecord_ne_uuid b a e.symm

theorem DbPathNameToRecord_ne_empty (a : String) : DbPathNameToRecord a ≠ "" := by
  simp [DbPathNameToRecord, String.ext_iff]

theorem DbPathUuidToName_ne_empty (a : String) : DbPathUuidToName a ≠ "" := by
  simp [DbPathUuidToName, String.ext_iff]

end device

/-! ## The KV facade over an initialised client -/

namespace db

theorem Put_some (s : State) (rows : GoMap KVValue) (key : String) (val : KVValue)
    (h : s.kvClient = some rows) (hk : key ≠ "") :
    Put s key val = ({ s with kvClient := some (rows.store key val) }, none) := by
  simp [Put, h, mockKVClient.Put, hk]

theorem Del_some (s : State) (rows : GoMap KVValue) (key : String)
    (h : s.kvClient = some rows) (hk : key ≠ "") :
    Del s key = ({ s with kvClient := some (rows.delete key) }, none) := by
  simp [Del, h, mockKVClient.Delete, hk]

theorem Read_some (s : State) (rows : GoMap KVValue) (key : String)
    (h : s.kvClient = some rows) :
    Read s key = match rows.load key with
      | some v => (v, none)
      | none => (.text "", some "key didn't find") := by
  simp only [Read, h, mockKVClient.Get]
  cases rows.load key <;> rfl

theorem Read_none (s : State) (key : String) (h : s.kvClient = none) :
    Read s key = (.text "", some "kvstore not initialised") := by
  simp [Read, h]

end db

/-! ## Decoding the document of a record -/

theorem decodeFields_append {α : Type} (set : α → String → JVal → Except String α)
    (A B : List (String × JVal)) (a a' : α) (h : decodeFields set A a = .ok a') :
    decodeFields set (A ++ B) a = decodeFields set B a' := by
  induction A generalizing a with
  | nil => simp only [decodeFields, Except.ok.injEq] at h; subst h; rfl
  | cons p t ih =>
    obtain ⟨k, v⟩ := p
    simp only [List.cons_append, decodeFields] at h ⊢
    cases hs : set a k v with
    | error e => rw [hs] at h; simp at h
    | ok a1 => rw [hs] at h; simp only at h ⊢; exact ih a1 h

theorem decodeFields_opt {α : Type} (set : α → String → JVal → Except String α)
    (c : Prop) [Decidable c] (k : String) (j : JVal) (rest : List (String × JVal)) (a a' : α)
    (h : ¬ c → set a k j = .ok a') (h0 : c → a' = a) :
    decodeFields set ((if c then [] else [(k, j)]) ++ rest) a = decodeFields set rest a' := by
  by_cases hc : c
  · rw [if_pos hc, h0 hc]; rfl
  · rw [if_neg hc]; simp only [List.singleton_append, decodeFields, h hc]; rfl

theorem decodeFields_fieldPtr {α : Type} (set : α → String → JVal → Except String α)
    (k : String) (o : Option JVal) (rest : List (String × JVal)) (a a' : α)
    (h : ∀ j, o = some j → set a k j = .ok a') (h0 : o = none → a' = a) :
    decodeFields set (fieldPtr k o ++ rest) a = decodeFields set rest a' := by
  cases o with
  | none => rw [h0 rfl]; rfl
  | some j => simp only [fieldPtr, List.singleton_append, decodeFields, h j rfl]; rfl

theorem decodeStrings_map (xs : List String) :
    decodeStrings (xs.map JVal.str) = .ok xs := by
  induction xs with
  | nil => rfl
  | cons x t ih => simp only [List.map_cons, decodeStrings, decodeString, ih]

theorem decodeEntries_levels (m : GoMap Int)
    (hfit : m.all (fun p => fitsInt 32 p.2) = true) (hnd : (GoMap.keys m).Nodup) :
    decodeEntries (decodeInt 32 0) (m.map (fun p => (p.1, JVal.num p.2))) = .ok m := by
  induction m with
  | nil => rfl
  | cons p t ih =>
    obtain ⟨k, n⟩ := p
    simp only [List.all_cons, Bool.and_eq_true] at hfit
    simp only [GoMap.keys, List.map_cons, List.nodup_cons] at hnd
    have hk : k ∉ GoMap.keys t := hnd.1
    simp only [List.map_cons, decodeEntries, decodeInt, hfit.1, if_true, ih hfit.2 hnd.2, hk,
      if_false]

theorem decodeEntries_strings (m : GoMap String) (hnd : (GoMap.keys m).Nodup) :
    decodeEntries (decodeString "") (m.map (fun p => (p.1, JVal.str p.2))) = .ok m := by
  induction m with
  | nil => rfl
  | cons p t ih =>
    obtain ⟨k, n⟩ := p
    simp only [GoMap.keys, List.map_cons, List.nodup_cons] at hnd
    have hk : k ∉ GoMap.keys t := hnd.1
    simp only [List.map_cons, decodeEntries, decodeString, ih hnd.2, hk, if_false]

theorem Timestamp.decodePtr_toJson (t : Timestamp) (h : t.wellFormed = true) :
    decodePtr Timestamp.setField {} none t.toJson = .ok (some t) := by
  simp only [Timestamp.wellFormed, Bool.and_eq_true] at h
  have e : decodeFields Timestamp.setField
      (fieldInt "seconds" t.Seconds ++ (fieldInt "nanos" t.Nanos ++ [])) {} = .ok t := by
    rw [fieldInt, decodeFields_opt _ _ _ _ _ _ { Seconds := t.Seconds }
      (fun _ => by
        show Except.map _ (decodeInt 64 0 (JVal.num t.Seconds)) = _
        simp only [decodeInt, h.1, if_true]; rfl)
      (fun h0 => by rw [h0])]
    rw [fieldInt, decodeFields_opt _ _ _ _ _ _ { Seconds := t.Seconds, Nanos := t.Nanos }
      (fun _ => by
        show Except.map _ (decodeInt 32 0 (JVal.num t.Nanos)) = _
        simp only [decodeInt, h.2, if_true]; rfl)
      (fun h0 => by rw [h0])]
    rfl
  rw [List.append_nil] at e
  simp only [Timestamp.toJson, decodePtr, Option.getD_none, e]; rfl

theorem ComponentState.decodeState_toJson (c : ComponentState) (h : fitsInt 32 c.AdminState = true) :
    decodePtr ComponentState.setField {} none c.toJson = .ok (some c) := by
  have e : decodeFields ComponentState.setField
      (fieldInt "admin_state" c.AdminState ++ []) {} = .ok c := by
    rw [fieldInt, decodeFields_opt _ _ _ _ _ _ { AdminState := c.AdminState }
      (fun _ => by
        show Except.map _ (decodeInt 32 0 (JVal.num c.AdminState)) = _
        simp only [decodeInt, h, if_true]; rfl)
      (fun h0 => by rw [h0])]
    rfl
  rw [List.append_nil] at e
  simp only [ComponentState.toJson, decodePtr, Option.getD_none, e]; rfl

theorem LoggingInfo.decodeStruct_toJson (l : LoggingInfo) (hfit : fitsInt 32 l.LogLevel = true)
    (hall : (l.LoggableEntities.getD []).all (fun p => fitsInt 32 p.2) = true)
    (hnd : (GoMap.keys (l.LoggableEntities.getD [])).Nodup) :
    decodeStruct LoggingInfo.setField {} l.toJson
      = .ok { l with LoggableEntities :=
                if l.LoggableEntities = some [] then none else l.LoggableEntities } := by
  have e : decodeFields LoggingInfo.setField
      (fieldStr "end_point" l.EndPoint ++ (fieldStr "protocol" l.Protocol
        ++ (fieldInt "log_level" l.LogLevel
        ++ (fieldSeq "loggable_entities" ((l.LoggableEntities.getD []).length)
            (levelsToJson (l.LoggableEntities.getD [])) ++ [])))) {}
      = .ok { l with LoggableEntities :=
                if l.LoggableEntities = some [] then none else l.LoggableEntities } := by
    rw [fieldStr, decodeFields_opt _ _ _ _ _ _ { EndPoint := l.EndPoint }
      (fun _ => rfl) (fun h0 => by rw [h0])]
    rw [fieldStr, decodeFields_opt _ _ _ _ _ _ { EndPoint := l.EndPoint, Protocol := l.Protocol }
      (fun _ => rfl) (fun h0 => by rw [h0])]
    rw [fieldInt, decodeFields_opt _ _ _ _ _ _
      { EndPoint := l.EndPoint, Protocol := l.Protocol, LogLevel := l.LogLevel }
      (fun _ => by
        show Except.map _ (decodeInt 32 0 (JVal.num l.LogLevel)) = _
        simp only [decodeInt, hfit, if_true]; rfl)
      (fun h0 => by rw [h0])]
    rw [fieldSeq, decodeFields_opt _ _ _ _ _ _
      { l with LoggableEntities :=
                if l.LoggableEntities = some [] then none else l.LoggableEntities }
      (fun hc => by
        show Except.map _ (decodeMap (decodeInt 32 0) none
          (levelsToJson (l.LoggableEntities.getD []))) = _
        cases hle : l.LoggableEntities with
        | none => rw [hle] at hc; simp at hc
        | some m =>
          rw [hle] at hc hall hnd
          simp only [Option.getD_some] at hc hall hnd ⊢
          have hm : m ≠ [] := fun e => hc (by rw [e]; rfl)
          simp only [levelsToJson, decodeMap, decodeEntries_levels m hall hnd, Option.getD_none,
            List.filter_nil, List.append_nil, Except.map, Option.some.injEq, hm, if_false])
      (fun hc => by
        cases hle : l.LoggableEntities with
        | none => simp
        | some m =>
          rw [hle] at hc
          simp only [Option.getD_some, List.length_eq_zero] at hc
          subst hc; simp)]
    rfl
  rw [List.append_nil] at e
  simp only [LoggingInfo.toJson, decodeStruct, List.append_assoc, e]

theorem DeviceRecord.jsonUnmarshal_jsonMarshal (r : DeviceRecord) (h : r.wellFormed = true) :
    DeviceRecord.jsonUnmarshal (.json r.jsonMarshal) = .ok r.readBack := by
  simp only [DeviceRecord.wellFormed, Bool.and_eq_true, decide_eq_true_eq] at h
  obtain ⟨⟨⟨⟨⟨⟨⟨⟨⟨hClass, hRel⟩, hMfg⟩, hState⟩, hInv⟩, hLvl⟩, hAll⟩, hNd⟩, hChg⟩, hBoot⟩ := h
  have e : decodeFields DeviceRecord.setField (r.jsonFields ++ []) {} = .ok r.readBack := by
    simp only [DeviceRecord.jsonFields, List.append_assoc]
    rw [fieldStr, decodeFields_opt _ _ _ _ _ _ { Uuid := r.Uuid }
      (fun _ => rfl) (fun h0 => by rw [h0])]
    rw [fieldStr, decodeFields_opt _ _ _ _ _ _ { Uuid := r.Uuid, Name := r.Name }
      (fun _ => rfl) (fun h0 => by rw [h0])]
    rw [fieldStr, decodeFields_opt _ _ _ _ _ _ { Uuid := r.Uuid, Name := r.Name, Make := r.Make }
      (fun _ => rfl) (fun h0 => by rw [h0])]
    rw [fieldInt, decodeFields_opt _ _ _ _ _ _ { Uuid := r.Uuid, Name := r.Name, Make := r.Make, Class := r.Class }
      (fun _ => by
        show Except.map _ (decodeInt 32 0 (JVal.num r.Class)) = _
        simp only [decodeInt, hClass, if_true]; rfl)
      (fun h0 => by rw [h0])]
    rw [fieldInt, decodeFields_opt _ _ _ _ _ _ { Uuid := r.Uuid, Name := r.Name, Make := r.Make, Class := r.Class, ParentRelPos := r.ParentRelPos }
      (fun _ => by
        show Except.map _ (decodeInt 32 0 (JVal.num r.ParentRelPos)) = _
        simp only [decodeInt, hRel, if_true]; rfl)
      (fun h0 => by rw [h0])]
    rw [fieldStr, decodeFields_opt _ _ _ _ _ _ { Uuid := r.Uuid, Name := r.Name, Make := r.Make, Class := r.Class, ParentRelPos := r.ParentRelPos, Alias := r.Alias }
      (fun _ => rfl) (fun h0 => by rw [h0])]
    rw [fieldStr, decodeFields_opt _ _ _ _ _ _ { Uuid := r.Uuid, Name := r.Name, Make := r.Make, Class := r.Class, ParentRelPos := r.ParentRelPos, Alias := r.Alias, AssetId := r.AssetId }
      (fun _ => rfl) (fun h0 => by rw [h0])]
    rw [fieldStr, decodeFields_opt _ _ _ _ _ _ { Uuid := r.Uuid, Name := r.Name, Make := r.Make, Class := r.Class, ParentRelPos := r.ParentRelPos, Alias := r.Alias, AssetId := r.AssetId, Uri := r.Uri }
      (fun _ => rfl) (fun h0 => by rw [h0])]
    rw [fieldStr, decodeFields_opt _ _ _ _ _ _ { Uuid := r.Uuid, Name := r.Name, Make := r.Make, Class := r.Class, ParentRelPos := r.ParentRelPos, Alias := r.Alias, AssetId := r.AssetId, Uri := r.Uri, HardwareRev := r.HardwareRev }
      (fun _ => rfl) (fun h0 => by rw [h0])]
    rw [fieldStr, decodeFields_opt _ _ _ _ _ _ { Uuid := r.Uuid, Name := r.Name, Make := r.Make, Class := r.Class, ParentRelPos := r.ParentRelPos, Alias := r.Alias, AssetId := r.AssetId, Uri := r.Uri, HardwareRev := r.HardwareRev, FirmwareRev := r.FirmwareRev }
      (fun _ => rfl) (fun h0 => by rw [h0])]
    rw [fieldStr, decodeFields_opt _ _ _ _ _ _ { Uuid := r.Uuid, Name := r.Name, Make := r.Make, Class := r.Class, ParentRelPos := r.ParentRelPos, Alias := r.Alias, AssetId := r.AssetId, Uri := r.Uri, HardwareRev := r.HardwareRev, FirmwareRev := r.FirmwareRev, SoftwareRev := r.SoftwareRev }
      (fun _ => rfl) (fun h0 => by rw [h0])]
    rw [fieldStr, decodeFields_opt _ _ _ _ _ _ { Uuid := r.Uuid, Name := r.Name, Make := r.Make, Class := r.Class, ParentRelPos := r.ParentRelPos, Alias := r.Alias, AssetId := r.AssetId, Uri := r.Uri, HardwareRev := r.HardwareRev, FirmwareRev := r.FirmwareRev, SoftwareRev := r.SoftwareRev, SerialNum := r.SerialNum }
      (fun _ => rfl) (fun h0 => by rw [h0])]
    rw [fieldStr, decodeFields_opt _ _ _ _ _ _ { Uuid := r.Uuid, Name := r.Name, Make := r.Make, Class := r.Class, ParentRelPos := r.ParentRelPos, Alias := r.Alias, AssetId := r.AssetId, Uri := r.Uri, HardwareRev := r.HardwareRev, FirmwareRev := r.FirmwareRev, SoftwareRev := r.SoftwareRev, SerialNum := r.SerialNum, ModelName := r.ModelName }
      (fun _ => rfl) (fun h0 => by rw [h0])]
    rw [fieldStr, decodeFields_opt _ _ _ _ _ _ { Uuid := r.Uuid, Name := r.Name, Make := r.Make, Class := r.Class, ParentRelPos := r.ParentRelPos, Alias := r.Alias, AssetId := r.AssetId, Uri := r.Uri, HardwareRev := r.HardwareRev, FirmwareRev := r.FirmwareRev, SoftwareRev := r.SoftwareRev, SerialNum := r.SerialNum, ModelName := r.ModelName, MfgName := r.MfgName }
      (fun _ => rfl) (fun h0 => by rw [h0])]
    rw [decodeFields_fieldPtr _ _ _ _ _ { Uuid := r.Uuid, Name := r.Name, Make := r.Make, Class := r.Class, ParentRelPos := r.ParentRelPos, Alias := r.Alias, AssetId := r.AssetId, Uri := r.Uri, HardwareRev := r.HardwareRev, FirmwareRev := r.FirmwareRev, SoftwareRev := r.SoftwareRev, SerialNum := r.SerialNum, ModelName := r.ModelName, MfgName := r.MfgName, MfgDate := r.MfgDate }
      (fun j hj => by
        cases ht : r.MfgDate with
        | none => rw [ht] at hj; simp at hj
        | some t =>
          rw [ht] at hj hMfg
          simp only [Option.map_some', Option.some.injEq, Option.getD_some] at hj hMfg
          subst hj
          show Except.map _ (decodePtr Timestamp.setField {} none t.toJson) = _
          rw [Timestamp.decodePtr_toJson t hMfg]; rfl)
      (fun h0 => by
        cases ht : r.MfgDate with
        | none => rfl
        | some t => rw [ht] at h0; simp at h0)]
    rw [decodeFields_fieldPtr _ _ _ _ _ { Uuid := r.Uuid, Name := r.Name, Make := r.Make, Class := r.Class, ParentRelPos := r.ParentRelPos, Alias := r.Alias, AssetId := r.AssetId, Uri := r.Uri, HardwareRev := r.HardwareRev, FirmwareRev := r.FirmwareRev, SoftwareRev := r.SoftwareRev, SerialNum := r.SerialNum, ModelName := r.ModelName, MfgName := r.MfgName, MfgDate := r.MfgDate, State := r.State }
      (fun j hj => by
        cases ht : r.State with
        | none => rw [ht] at hj; simp at hj
        | some t =>
          rw [ht] at hj hState
          simp only [Option.map_some', Option.some.injEq, Option.getD_some] at hj hState
          subst hj
          show Except.map _ (decodePtr ComponentState.setField {} none t.toJson) = _
          rw [ComponentState.decodeState_toJson t hState]; rfl)
      (fun h0 => by
        cases ht : r.State with
        | none => rfl
        | some t => rw [ht] at h0; simp at h0)]
    rw [fieldSeq, decodeFields_opt _ _ _ _ _ _ { Uuid := r.Uuid, Name := r.Name, Make := r.Make, Class := r.Class, ParentRelPos := r.ParentRelPos, Alias := r.Alias, AssetId := r.AssetId, Uri := r.Uri, HardwareRev := r.HardwareRev, FirmwareRev := r.FirmwareRev, SoftwareRev := r.SoftwareRev, SerialNum := r.SerialNum, ModelName := r.ModelName, MfgName := r.MfgName, MfgDate := r.MfgDate, State := r.State, Inventories := r.Inventories }
      (fun _ => by
        show Except.map _ (decodeMap (decodeString "") (some [])
          (stringsToJson r.Inventories)) = _
        simp only [stringsToJson, decodeMap, decodeEntries_strings r.Inventories hInv,
          Option.getD_some, List.filter_nil, List.append_nil]; rfl)
      (fun h0 => by rw [List.length_eq_zero] at h0; rw [h0])]
    rw [fieldSeq, decodeFields_opt _ _ _ _ _ _ { Uuid := r.Uuid, Name := r.Name, Make := r.Make, Class := r.Class, ParentRelPos := r.ParentRelPos, Alias := r.Alias, AssetId := r.AssetId, Uri := r.Uri, HardwareRev := r.HardwareRev, FirmwareRev := r.FirmwareRev, SoftwareRev := r.SoftwareRev, SerialNum := r.SerialNum, ModelName := r.ModelName, MfgName := r.MfgName, MfgDate := r.MfgDate, State := r.State, Inventories := r.Inventories, Children := r.Children }
      (fun _ => by
        show Except.map _ (decodeSlice (JVal.arr (r.Children.map JVal.str))) = _
        simp only [decodeSlice, decodeStrings_map]; rfl)
      (fun h0 => by rw [List.length_eq_zero] at h0; rw [h0])]
    rw [List.singleton_append, decodeFields]
    have hlog : DeviceRecord.setField { Uuid := r.Uuid, Name := r.Name, Make := r.Make, Class := r.Class, ParentRelPos := r.ParentRelPos, Alias := r.Alias, AssetId := r.AssetId, Uri := r.Uri, HardwareRev := r.HardwareRev, FirmwareRev := r.FirmwareRev, SoftwareRev := r.SoftwareRev, SerialNum := r.SerialNum, ModelName := r.ModelName, MfgName := r.MfgName, MfgDate := r.MfgDate, State := r.State, Inventories := r.Inventories, Children := r.Children } "logging" r.Logging.toJson
        = .ok { Uuid := r.Uuid, Name := r.Name, Make := r.Make, Class := r.Class, ParentRelPos := r.ParentRelPos, Alias := r.Alias, AssetId := r.AssetId, Uri := r.Uri, HardwareRev := r.HardwareRev, FirmwareRev := r.FirmwareRev, SoftwareRev := r.SoftwareRev, SerialNum := r.SerialNum, ModelName := r.ModelName, MfgName := r.MfgName, MfgDate := r.MfgDate, State := r.State, Inventories := r.Inventories, Children := r.Children, Logging := r.readBack.Logging } := by
      show Except.map _ (decodeStruct LoggingInfo.setField {} r.Logging.toJson) = _
      rw [LoggingInfo.decodeStruct_toJson r.Logging hLvl hAll hNd]; rfl
    rw [hlog]
    dsimp only
    rw [decodeFields_fieldPtr _ _ _ _ _ { Uuid := r.Uuid, Name := r.Name, Make := r.Make, Class := r.Class, ParentRelPos := r.ParentRelPos, Alias := r.Alias, AssetId := r.AssetId, Uri := r.Uri, HardwareRev := r.HardwareRev, FirmwareRev := r.FirmwareRev, SoftwareRev := r.SoftwareRev, SerialNum := r.SerialNum, ModelName := r.ModelName, MfgName := r.MfgName, MfgDate := r.MfgDate, State := r.State, Inventories := r.Inventories, Children := r.Children, Logging := r.readBack.Logging, LastChange := r.LastChange }
      (fun j hj => by
        cases ht : r.LastChange with
        | none => rw [ht] at hj; simp at hj
        | some t =>
          rw [ht] at hj hChg
          simp only [Option.map_some', Option.some.injEq, Option.getD_some] at hj hChg
          subst hj
          show Except.map _ (decodePtr Timestamp.setField {} none t.toJson) = _
          rw [Timestamp.decodePtr_toJson t hChg]; rfl)
      (fun h0 => by
        cases ht : r.LastChange with
        | none => rfl
        | some t => rw [ht] at h0; simp at h0)]
    rw [decodeFields_fieldPtr _ _ _ _ _ { Uuid := r.Uuid, Name := r.Name, Make := r.Make, Class := r.Class, ParentRelPos := r.ParentRelPos, Alias := r.Alias, AssetId := r.AssetId, Uri := r.Uri, HardwareRev := r.HardwareRev, FirmwareRev := r.FirmwareRev, SoftwareRev := r.SoftwareRev, SerialNum := r.SerialNum, ModelName := r.ModelName, MfgName := r.MfgName, MfgDate := r.MfgDate, State := r.State, Inventories := r.Inventories, Children := r.Children, Logging := r.readBack.Logging, LastChange := r.LastChange, LastBooted := r.LastBooted }
      (fun j hj => by
        cases ht : r.LastBooted with
        | none => rw [ht] at hj; simp at hj
        | some t =>
          rw [ht] at hj hBoot
          simp only [Option.map_some', Option.some.injEq, Option.getD_some] at hj hBoot
          subst hj
          show Except.map _ (decodePtr Timestamp.setField {} none t.toJson) = _
          rw [Timestamp.decodePtr_toJson t hBoot]; rfl)
      (fun h0 => by
        cases ht : r.LastBooted with
        | none => rfl
        | some t => rw [ht] at h0; simp at h0)]
    rfl
  rw [List.append_nil] at e
  simp only [DeviceRecord.jsonUnmarshal, DeviceRecord.jsonMarshal, decodeStruct, e]

/-! ## The device repository -/

namespace device

theorem DBAddByName_ok (s : State) (rec : DeviceRecord) (h : (DBAddByName s rec).2 = none) :
    rec.Name ≠ "" ∧ ∃ rows, s.kvClient = some rows ∧
      (DBAddByName s rec).1 =
        { s with kvClient := some (rows.store (DbPathNameToRecord rec.Name) (.json rec.jsonMarshal)),
                 nameToRec := s.nameToRec.store rec.Name rec } := by
  by_cases hn : rec.Name = ""
  · simp [DBAddByName, hn] at h
  · refine ⟨hn, ?_⟩
    cases hkv : s.kvClient with
    | none => simp [DBAddByName, hn, db.Put, hkv] at h
    | some rows =>
      refine ⟨rows, rfl, ?_⟩
      simp [DBAddByName, hn, db.Put_some s rows _ _ hkv (DbPathNameToRecord_ne_empty _)]

theorem DBAddUuidLookup_ok (s : State) (rec : DeviceRecord)
    (h : (DBAddUuidLookup s rec).2 = none) :
    rec.Uuid ≠ "" ∧ rec.Name ≠ "" ∧ ∃ rows, s.kvClient = some rows ∧
      (DBAddUuidLookup s rec).1 =
        { s with kvClient := some (rows.store (DbPathUuidToName rec.Uuid) (.text rec.Name)),
                 uuidToName := s.uuidToName.store rec.Uuid rec.Name } := by
  by_cases hn : rec.Uuid = "" ∨ rec.Name = ""
  · simp [DBAddUuidLookup, hn] at h
  · have hn' := hn
    rw [not_or] at hn'
    refine ⟨hn'.1, hn'.2, ?_⟩
    cases hkv : s.kvClient with
    | none => simp [DBAddUuidLookup, hn, db.Put, hkv] at h
    | some rows =>
      refine ⟨rows, rfl, ?_⟩
      simp [DBAddUuidLookup, hn, db.Put_some s rows _ _ hkv (DbPathUuidToName_ne_empty _)]

/-- What `DBGetByName` returns does not depend on the uuid cache. -/
theorem DBGetByName_uuidToName (s : State) (m : GoMap String) (name : String) :
    (DBGetByName { s with uuidToName := m } name).2 = (DBGetByName s name).2 := by
  by_cases hn : name = ""
  · simp [DBGetByName, hn]
  · simp only [DBGetByName, hn, if_false]
    cases hl : s.nameToRec.load name with
    | some v => rfl
    | none =>
      have hr : db.Read { s with uuidToName := m } (DbPathNameToRecord name)
          = db.Read s (DbPathNameToRecord name) := rfl
      rw [hr]
      rcases hrd : db.Read s (DbPathNameToRecord name) with ⟨entry, err⟩
      cases err with
      | some e => rfl
      | none =>
        simp only
        cases DeviceRecord.jsonUnmarshal entry <;> rfl

theorem runWrites_append (s : State) (a : List Write) (w : Write) :
    runWrites s (a ++ [w]) =
      (runWrites s a).bind (fun s1 =>
        match applyWrite s1 w with
        | (s2, none) => some s2
        | (_, some _) => none) := by
  induction a generalizing s with
  | nil =>
    simp only [List.nil_append, runWrites, Option.some_bind]
  | cons x t ih =>
    simp only [List.cons_append, runWrites]
    rcases applyWrite s x with ⟨s1, e⟩
    cases e with
    | none => exact ih s1
    | some e => rfl

theorem lastLookup_append_byName (uuid : String) (a : List Write) (r' : DeviceRecord) :
    lastLookup uuid (a ++ [.addByName r']) = lastLookup uuid a := by
  induction a with
  | nil => rfl
  | cons x t ih =>
    cases x with
    | addByName r => simpa [lastLookup] using ih
    | addUuidLookup r =>
      show (match lastLookup uuid (t ++ [.addByName r']) with
        | some n => some n
        | none => if r.Uuid = uuid then some r.Name else none) = _
      rw [ih]; rfl

theorem lastLookup_append_lookup (uuid : String) (a : List Write) (r' : DeviceRecord) :
    lastLookup uuid (a ++ [.addUuidLookup r'])
      = if r'.Uuid = uuid then some r'.Name else lastLookup uuid a := by
  induction a with
  | nil => simp [lastLookup]
  | cons x t ih =>
    cases x with
    | addByName r => simpa [lastLookup] using ih
    | addUuidLookup r =>
      show (match lastLookup uuid (t ++ [.addUuidLookup r']) with
        | some n => some n
        | none => if r.Uuid = uuid then some r.Name else none) = _
      rw [ih]
      by_cases h : r'.Uuid = uuid
      · simp [h]
      · simp only [h, if_false]; rfl

theorem lastLookup_append (uuid : String) (a : List Write) (w : Write) :
    lastLookup uuid (a ++ [w]) =
      match w with
      | .addUuidLookup rec => if rec.Uuid = uuid then some rec.Name else lastLookup uuid a
      | .addByName _ => lastLookup uuid a := by
  cases w with
  | addByName r' => exact lastLookup_append_byName uuid a r'
  | addUuidLookup r' => exact lastLookup_append_lookup uuid a r'

theorem lastByName_append_lookup (name : String) (a : List Write) (r' : DeviceRecord) :
    lastByName name (a ++ [.addUuidLookup r']) = lastByName name a := by
  induction a with
  | nil => rfl
  | cons x t ih =>
    cases x with
    | addUuidLookup r => simpa [lastByName] using ih
    | addByName r =>
      show (match lastByName name (t ++ [.addUuidLookup r']) with
        | some n => some n
        | none => if r.Name = name then some r else none) = _
      rw [ih]; rfl

theorem lastByName_append_byName (name : String) (a : List Write) (r' : DeviceRecord) :
    lastByName name (a ++ [.addByName r'])
      = if r'.Name = name then some r' else lastByName name a := by
  induction a with
  | nil => simp [lastByName]
  | cons x t ih =>
    cases x with
    | addUuidLookup r => simpa [lastByName] using ih
    | addByName r =>
      show (match lastByName name (t ++ [.addByName r']) with
        | some n => some n
        | none => if r.Name = name then some r else none) = _
      rw [ih]
      by_cases h : r'.Name = name
      · simp [h]
      · simp only [h, if_false]; rfl

theorem lastByName_append (name : String) (a : List Write) (w : Write) :
    lastByName name (a ++ [w]) =
      match w with
      | .addByName rec => if rec.Name = name then some rec else lastByName name a
      | .addUuidLookup _ => lastByName name a := by
  cases w with
  | addUuidLookup r' => exact lastByName_append_lookup name a r'
  | addByName r' => exact lastByName_append_byName name a r'

/-- After a successful sequence of writes, the lookup row and the uuid cache of
a uuid hold the name of the last lookup written for it. -/
theorem runWrites_lookup (s s' : State) (ops : List Write) (uuid name : String)
    (hrun : runWrites s ops = some s') (hlast : lastLookup uuid ops = some name) :
    uuid ≠ "" ∧ s'.row (DbPathUuidToName uuid) = some (.text name)
      ∧ s'.uuidToName.load uuid = some name := by
  induction ops using List.reverseRecOn generalizing s' with
  | nil => simp [lastLookup] at hlast
  | append_singleton a w ih =>
    rw [runWrites_append] at hrun
    rw [lastLookup_append] at hlast
    cases hs1 : runWrites s a with
    | none => rw [hs1] at hrun; simp at hrun
    | some s1 =>
      rw [hs1] at hrun
      simp only [Option.some_bind] at hrun
      cases w with
      | addByName r =>
        simp only at hlast
        obtain ⟨hu, hrow, hc⟩ := ih s1 hs1 hlast
        cases he : (applyWrite s1 (.addByName r)).2 with
        | some e =>
          rcases hw : applyWrite s1 (.addByName r) with ⟨s2, e2⟩
          rw [hw] at hrun he; simp only at he; subst he; simp at hrun
        | none =>
          rcases hw : applyWrite s1 (.addByName r) with ⟨s2, e2⟩
          rw [hw] at hrun he; simp only at he; subst he
          simp only [Option.some.injEq] at hrun; subst hrun
          have hok := DBAddByName_ok s1 r (by simpa [applyWrite] using congrArg Prod.snd hw)
          obtain ⟨_, rows, hkv, hst⟩ := hok
          have hs2 : s2 = (DBAddByName s1 r).1 := by
            simpa [applyWrite] using (congrArg Prod.fst hw).symm
          rw [hs2, hst]
          refine ⟨hu, ?_, hc⟩
          simp only [State.row, hkv] at hrow ⊢
          rw [GoMap.load_store_ne _ _ (DbPathUuidToName_ne_name _ _)]
          exact hrow
      | addUuidLookup r =>
        simp only at hlast
        cases he : (applyWrite s1 (.addUuidLookup r)).2 with
        | some e =>
          rcases hw : applyWrite s1 (.addUuidLookup r) with ⟨s2, e2⟩
          rw [hw] at hrun he; simp only at he; subst he; simp at hrun
        | none =>
          rcases hw : applyWrite s1 (.addUuidLookup r) with ⟨s2, e2⟩
          rw [hw] at hrun he; simp only at he; subst he
          simp only [Option.some.injEq] at hrun; subst hrun
          have hok := DBAddUuidLookup_ok s1 r (by simpa [applyWrite] using congrArg Prod.snd hw)
          obtain ⟨hru, _, rows, hkv, hst⟩ := hok
          have hs2 : s2 = (DBAddUuidLookup s1 r).1 := by
            simpa [applyWrite] using (congrArg Prod.fst hw).symm
          rw [hs2, hst]
          by_cases hsame : r.Uuid = uuid
          · rw [if_pos hsame] at hlast
            simp only [Option.some.injEq] at hlast
            subst hsame; subst hlast
            exact ⟨hru, by simp [State.row, GoMap.load_store_self],
              by simp [GoMap.load_store_self]⟩
          · rw [if_neg hsame] at hlast
            obtain ⟨hu, hrow, hc⟩ := ih s1 hs1 hlast
            have hne : uuid ≠ r.Uuid := fun e => hsame e.symm
            refine ⟨hu, ?_, ?_⟩
            · simp only [State.row, hkv] at hrow ⊢
              rw [GoMap.load_store_ne _ _ (fun e => hne (DbPathUuidToName_inj.mp e))]
              exact hrow
            · simp only
              rw [GoMap.load_store_ne _ _ hne]
              exact hc

/-- After a successful sequence of writes, the name cache holds for a name the
record of the last `DBAddByName` call for it. -/
theorem runWrites_byName (s s' : State) (ops : List Write) (name : String) (rec : DeviceRecord)
    (hrun : runWrites s ops = some s') (hlast : lastByName name ops = some rec) :
    name ≠ "" ∧ s'.nameToRec.load name = some rec := by
  induction ops using List.reverseRecOn generalizing s' with
  | nil => simp [lastByName] at hlast
  | append_singleton a w ih =>
    rw [runWrites_append] at hrun
    rw [lastByName_append] at hlast
    cases hs1 : runWrites s a with
    | none => rw [hs1] at hrun; simp at hrun
    | some s1 =>
      rw [hs1] at hrun
      simp only [Option.some_bind] at hrun
      cases w with
      | addUuidLookup r =>
        simp only at hlast
        obtain ⟨hn, hc⟩ := ih s1 hs1 hlast
        cases he : (applyWrite s1 (.addUuidLookup r)).2 with
        | some e =>
          rcases hw : applyWrite s1 (.addUuidLookup r) with ⟨s2, e2⟩
          rw [hw] at hrun he; simp only at he; subst he; simp at hrun
        | none =>
          rcases hw : applyWrite s1 (.addUuidLookup r) with ⟨s2, e2⟩
          rw [hw] at hrun he; simp only at he; subst he
          simp only [Option.some.injEq] at hrun; subst hrun
          have hok := DBAddUuidLookup_ok s1 r (by simpa [applyWrite] using congrArg Prod.snd hw)
          obtain ⟨_, _, rows, hkv, hst⟩ := hok
          have hs2 : s2 = (DBAddUuidLookup s1 r).1 := by
            simpa [applyWrite] using (congrArg Prod.fst hw).symm
          rw [hs2, hst]
          exact ⟨hn, hc⟩
      | addByName r =>
        simp only at hlast
        cases he : (applyWrite s1 (.addByName r)).2 with
        | some e =>
          rcases hw : applyWrite s1 (.addByName r) with ⟨s2, e2⟩
          rw [hw] at hrun he; simp only at he; subst he; simp at hrun
        | none =>
          rcases hw : applyWrite s1 (.addByName r) with ⟨s2, e2⟩
          rw [hw] at hrun he; simp only at he; subst he
          simp only [Option.some.injEq] at hrun; subst hrun
          have hok := DBAddByName_ok s1 r (by simpa [applyWrite] using congrArg Prod.snd hw)
          obtain ⟨hrn, rows, hkv, hst⟩ := hok
          have hs2 : s2 = (DBAddByName s1 r).1 := by
            simpa [applyWrite] using (congrArg Prod.fst hw).symm
          rw [hs2, hst]
          by_cases hsame : r.Name = name
          · rw [if_pos hsame] at hlast
            simp only [Option.some.injEq] at hlast
            subst hsame; subst hlast
            exact ⟨hrn, by simp [GoMap.load_store_self]⟩
          · rw [if_neg hsame] at hlast
            obtain ⟨hn, hc⟩ := ih s1 hs1 hlast
            have hne : name ≠ r.Name := fun e => hsame e.symm
            refine ⟨hn, ?_⟩
            simp only
            rw [GoMap.load_store_ne _ _ hne]
            exact hc

end device

namespace device

/-- A call of `DBGetByName` that returns no record returns an error and leaves
the state as it was. -/
theorem DBGetByName_none (s : State) (name : String) (h : (DBGetByName s name).2.1 = none) :
    (DBGetByName s name).1 = s ∧ (DBGetByName s name).2.2 ≠ none := by
  by_cases hn : name = ""
  · simp [DBGetByName, hn]
  · simp only [DBGetByName, hn, if_false] at h ⊢
    cases hl : s.nameToRec.load name with
    | some v => rw [hl] at h; simp at h
    | none =>
      rw [hl] at h
      simp only at h ⊢
      rcases hrd : db.Read s (DbPathNameToRecord name) with ⟨entry, err⟩
      rw [hrd] at h
      cases err with
      | some e => simp
      | none =>
        simp only at h ⊢
        cases hj : DeviceRecord.jsonUnmarshal entry with
        | error e => simp
        | ok rec => rw [hj] at h; simp at h

/-- A call of `DBGetByName` that returns a record returns no error, changes at
most the name cache, and a second call returns the same record. -/
theorem DBGetByName_some (s : State) (name : String) (rec : DeviceRecord)
    (h : (DBGetByName s name).2.1 = some rec) :
    name ≠ "" ∧ (DBGetByName s name).2.2 = none
    ∧ (DBGetByName s name).1.nameToRec.load name = some rec
    ∧ (DBGetByName s name).1.kvClient = s.kvClient
    ∧ (DBGetByName s name).1.uuidToName = s.uuidToName
    ∧ (DBGetByName s name).1.uuidToRec = s.uuidToRec
    ∧ (DBGetByName s name).1.nameToAdapter = s.nameToAdapter
    ∧ (DBGetByName s name).1.created = s.created
    ∧ (DBGetByName s name).1.dialled = s.dialled
    ∧ (DBGetByName s name).1.disconnected = s.disconnected := by
  by_cases hn : name = ""
  · simp [DBGetByName, hn] at h
  · refine ⟨hn, ?_⟩
    simp only [DBGetByName, hn, if_false] at h ⊢
    cases hl : s.nameToRec.load name with
    | some v =>
      rw [hl] at h
      simp only [Option.some.injEq] at h
      subst h
      simp [hl]
    | none =>
      rw [hl] at h
      simp only at h ⊢
      rcases hrd : db.Read s (DbPathNameToRecord name) with ⟨entry, err⟩
      rw [hrd] at h
      cases err with
      | some e => simp at h
      | none =>
        simp only at h ⊢
        cases hj : DeviceRecord.jsonUnmarshal entry with
        | error e => rw [hj] at h; simp at h
        | ok r =>
          rw [hj] at h
          simp only [Option.some.injEq] at h
          subst h
          simp [GoMap.load_store_self]

end device

namespace device

theorem DBAddByName_kvClient_isSome (s : State) (rec : DeviceRecord) :
    (DBAddByName s rec).1.kvClient.isSome = s.kvClient.isSome := by
  by_cases hn : rec.Name = ""
  · simp [DBAddByName, hn]
  · cases hkv : s.kvClient <;> simp [DBAddByName, hn, db.Put, hkv]

theorem DBAddUuidLookup_kvClient_isSome (s : State) (rec : DeviceRecord) :
    (DBAddUuidLookup s rec).1.kvClient.isSome = s.kvClient.isSome := by
  by_cases hn : rec.Uuid = "" ∨ rec.Name = ""
  · simp [DBAddUuidLookup, hn]
  · cases hkv : s.kvClient <;> simp [DBAddUuidLookup, hn, db.Put, hkv]

theorem DBAddByName_some (s : State) (rows : GoMap KVValue) (rec : DeviceRecord)
    (hkv : s.kvClient = some rows) (hn : rec.Name ≠ "") :
    DBAddByName s rec =
      ({ s with kvClient := some (rows.store (DbPathNameToRecord rec.Name) (.json rec.jsonMarshal)),
                nameToRec := s.nameToRec.store rec.Name rec }, none) := by
  simp only [DBAddByName, hn, if_false,
    db.Put_some s rows _ _ hkv (DbPathNameToRecord_ne_empty _)]

theorem DBAddUuidLookup_some (s : State) (rows : GoMap KVValue) (rec : DeviceRecord)
    (hkv : s.kvClient = some rows) (hn : rec.Name ≠ "") (hu : rec.Uuid ≠ "") :
    DBAddUuidLookup s rec =
      ({ s with kvClient := some (rows.store (DbPathUuidToName rec.Uuid) (.text rec.Name)),
                uuidToName := s.uuidToName.store rec.Uuid rec.Name }, none) := by
  have hor : ¬ (rec.Uuid = "" ∨ rec.Name = "") := by simp [hn, hu]
  simp only [DBAddUuidLookup, hor, if_false,
    db.Put_some s rows _ _ hkv (DbPathUuidToName_ne_empty _)]

/-- The two rows that an OK frame of `StartManagingDevice` leaves. -/
theorem rows_after_store (s : State) (rec : DeviceRecord) (hkv : s.kvClient.isSome = true)
    (hn : rec.Name ≠ "") (hu : rec.Uuid ≠ "") :
    (DBAddUuidLookup (DBAddByName s rec).1 rec).1.row (DbPathNameToRecord rec.Name)
        = some (.json rec.jsonMarshal)
    ∧ (DBAddUuidLookup (DBAddByName s rec).1 rec).1.row (DbPathUuidToName rec.Uuid)
        = some (.text rec.Name) := by
  cases hrows : s.kvClient with
  | none => rw [hrows] at hkv; simp at hkv
  | some rows =>
    rw [DBAddByName_some s rows rec hrows hn]
    rw [DBAddUuidLookup_some _ _ rec rfl hn hu]
    simp only [State.row]
    refine ⟨?_, GoMap.load_store_self _ _ _⟩
    rw [GoMap.load_store_ne _ _ (DbPathNameToRecord_ne_uuid rec.Name rec.Uuid)]
    exact GoMap.load_store_self _ _ _

end device

/-! ## Validation of the uri -/

namespace nbi

theorem containsChars_colon (h p : List Char) : containsChars (h ++ ':' :: p) [':'] = true := by
  induction h with
  | nil => simp [containsChars, List.isPrefixOf]
  | cons c t ih => simp [containsChars, ih]

theorem splitColon_no_colon (p : List Char) (hp : ':' ∉ p) : splitColon p = [p] := by
  induction p with
  | nil => rfl
  | cons c t ih =>
    simp only [List.mem_cons, not_or] at hp
    have hc : ¬ c = ':' := fun e => hp.1 e.symm
    simp [splitColon, hc, ih hp.2]

theorem splitColon_append (h p : List Char) (hh : ':' ∉ h) :
    splitColon (h ++ ':' :: p) = h :: splitColon p := by
  induction h with
  | nil => simp [splitColon]
  | cons c t ih =>
    simp only [List.mem_cons, not_or] at hh
    have hc : ¬ c = ':' := fun e => hh.1 e.symm
    simp [splitColon, hc, ih hh.2]

/-- The function `validateUri` never returns `false` with a `nil` error. -/
theorem validateUri_false_err (net : Net) (uri : String) (h : (validateUri net uri).1 = false) :
    (validateUri net uri).2 ≠ none := by
  unfold validateUri at h ⊢
  split
  · simp
  · split
    · split
      · simp
      · split
        · simp
        · rename_i h1 h2 h3
          simp [h1, h3] at h
          split at h <;> simp_all
    · simp

end nbi

/-! ## The receive loop of the adapter -/

namespace grpc

/-- Frames without an ERROR frame and without an OK frame that lacks its uuid
are all consumed: the loop goes on with the same record but for its uuid, and
the client stays as initialised as it was. -/
theorem startLoop_consumed (last : RecvEnd) (pre rest : List StartManagingDeviceResponse)
    (hpre : ∀ g ∈ pre, g.Status ≠ .ERROR_STATUS ∧ (g.Status = .OK_STATUS → g.DeviceUuid ≠ none))
    (s : State) (devRec : DeviceRecord) (sent : List StartManagingDeviceResponse)
    (connMade : Bool) :
    ∃ s' x sent' cm', startLoop last (pre ++ rest) s devRec sent connMade
        = startLoop last rest s' { devRec with Uuid := x } sent' cm'
      ∧ s'.kvClient.isSome = s.kvClient.isSome := by
  induction pre generalizing s devRec sent connMade with
  | nil => exact ⟨s, devRec.Uuid, sent, connMade, rfl, rfl⟩
  | cons g t ih =>
    have hg := hpre g (List.mem_cons_self _ _)
    have ht : ∀ g ∈ t, g.Status ≠ .ERROR_STATUS ∧ (g.Status = .OK_STATUS → g.DeviceUuid ≠ none) :=
      fun x hx => hpre x (List.mem_cons_of_mem _ hx)
    by_cases hok : g.Status = .OK_STATUS
    · cases hu : g.DeviceUuid with
      | none => exact absurd hu (hg.2 hok)
      | some uuid =>
        obtain ⟨s', x, sent', cm', he, hkv⟩ := ih ht
          (device.DBAddUuidLookup (device.DBAddByName s { devRec with Uuid := uuid }).1
            { devRec with Uuid := uuid }).1 { devRec with Uuid := uuid } (sent ++ [g]) true
        refine ⟨s', x, sent', cm', ?_, ?_⟩
        · simp only [List.cons_append, startLoop, hok, if_true, hu]
          exact he
        · rw [hkv, device.DBAddUuidLookup_kvClient_isSome, device.DBAddByName_kvClient_isSome]
    · obtain ⟨s', x, sent', cm', he, hkv⟩ := ih ht s devRec (sent ++ [g]) connMade
      refine ⟨s', x, sent', cm', ?_, hkv⟩
      simp only [List.cons_append, startLoop, hok, if_false, hg.1]
      exact he

/-- Frames without an OK frame leave the state, the record and `connMade` as
they are, and do not panic. -/
theorem startLoop_no_ok (last : RecvEnd) (post : List StartManagingDeviceResponse)
    (hpost : ∀ g ∈ post, g.Status ≠ .OK_STATUS)
    (s : State) (devRec : DeviceRecord) (sent : List StartManagingDeviceResponse)
    (connMade : Bool) :
    (startLoop last post s devRec sent connMade).state = s
    ∧ (startLoop last post s devRec sent connMade).devRec = devRec
    ∧ (startLoop last post s devRec sent connMade).connMade = connMade
    ∧ (startLoop last post s devRec sent connMade).panicked = false := by
  induction post generalizing sent with
  | nil => cases last <;> simp [startLoop]
  | cons g t ih =>
    have hg := hpost g (List.mem_cons_self _ _)
    have ht : ∀ g ∈ t, g.Status ≠ .OK_STATUS := fun x hx => hpost x (List.mem_cons_of_mem _ hx)
    by_cases he : g.Status = .ERROR_STATUS
    · simp [startLoop, hg, he]
    · simp only [startLoop, hg, he, if_false]
      exact ih ht (sent ++ [g])

end grpc

namespace grpc

/-- The adapter on a stream whose last OK frame carries the uuid `u`. -/
theorem StartManagingDevice_last_ok (s : State) (devRec : DeviceRecord) (sb : StartStream)
    (u : String) (pre post : List StartManagingDeviceResponse) (f : StartManagingDeviceResponse)
    (hkv : s.kvClient.isSome = true) (hname : devRec.Name ≠ "")
    (hopen : sb.openErr = none) (hframes : sb.frames = pre ++ f :: post)
    (hpre : ∀ g ∈ pre, g.Status ≠ .ERROR_STATUS ∧ (g.Status = .OK_STATUS → g.DeviceUuid ≠ none))
    (hf : f.Status = .OK_STATUS ∧ f.DeviceUuid = some u) (hu : u ≠ "")
    (hpost : ∀ g ∈ post, g.Status ≠ .OK_STATUS) :
    (StartManagingDevice s devRec sb).connMade = true
    ∧ (StartManagingDevice s devRec sb).panicked = false
    ∧ (StartManagingDevice s devRec sb).state.row (device.DbPathNameToRecord devRec.Name)
        = some (.json ({ devRec with Uuid := u } : DeviceRecord).jsonMarshal)
    ∧ (StartManagingDevice s devRec sb).state.row (device.DbPathUuidToName u)
        = some (.text devRec.Name) := by
  obtain ⟨s', x, sent', cm', he, hkv'⟩ :=
    startLoop_consumed sb.last pre (f :: post) hpre s devRec [] false
  have hstep : startLoop sb.last (f :: post) s' { devRec with Uuid := x } sent' cm'
      = startLoop sb.last post
          (device.DBAddUuidLookup (device.DBAddByName s' { devRec with Uuid := u }).1
            { devRec with Uuid := u }).1 { devRec with Uuid := u } (sent' ++ [f]) true := by
    simp only [startLoop, hf.1, hf.2, if_true]
  have hout : StartManagingDevice s devRec sb
      = startLoop sb.last post
          (device.DBAddUuidLookup (device.DBAddByName s' { devRec with Uuid := u }).1
            { devRec with Uuid := u }).1 { devRec with Uuid := u } (sent' ++ [f]) true := by
    simp only [StartManagingDevice, hopen, hframes]
    rw [he, hstep]
  obtain ⟨h1, _, h3, h4⟩ := startLoop_no_ok sb.last post hpost
    (device.DBAddUuidLookup (device.DBAddByName s' { devRec with Uuid := u }).1
      { devRec with Uuid := u }).1 { devRec with Uuid := u } (sent' ++ [f]) true
  have hrows := device.rows_after_store s' { devRec with Uuid := u } (hkv'.trans hkv) hname hu
  rw [hout]
  refine ⟨h3, h4, ?_, ?_⟩
  · rw [h1]; exact hrows.1
  · rw [h1]; exact hrows.2

end grpc

/-! ## Deleting rows -/

namespace GoMap

variable {V : Type}

theorem load_filter_of_none (m : GoMap V) (p : String × V → Bool) (k : String)
    (h : load m k = none) : load (m.filter p) k = none := by
  induction m with
  | nil => rfl
  | cons x t ih =>
    rw [load_cons] at h
    by_cases hx : x.1 = k
    · rw [if_pos hx] at h; cases h
    · rw [if_neg hx] at h
      by_cases hp : p x = true
      · rw [List.filter_cons_of_pos hp, load_cons, if_neg hx]; exact ih h
      · rw [List.filter_cons_of_neg hp]; exact ih h

theorem load_filter_key (m : GoMap V) (q : String → Bool) (k : String) (hq : q k = false) :
    load (m.filter (fun p => q p.1)) k = none := by
  induction m with
  | nil => rfl
  | cons x t ih =>
    by_cases hp : q x.1 = true
    · have hx : ¬ x.1 = k := fun e => by rw [e, hq] at hp; cases hp
      rw [List.filter_cons_of_pos (by simpa using hp), load_cons, if_neg hx]; exact ih
    · rw [List.filter_cons_of_neg (by simpa using hp)]; exact ih

theorem load_delete_of_none (m : GoMap V) (k k' : String) (h : load m k = none) :
    load (delete m k') k = none :=
  load_filter_of_none m _ k h

end GoMap

theorem containsChars_of_start (s sub : List Char) (h : sub <+: s) :
    containsChars s sub = true := by
  cases s with
  | nil =>
    have : sub = [] := List.prefix_nil.mp h
    subst this; rfl
  | cons c t =>
    have hp : List.isPrefixOf sub (c :: t) = true := List.isPrefixOf_iff_prefix.mpr h
    simp [containsChars, hp]

namespace hwcomponents

theorem DBDelAllHwComponents_row_of_none (t : State) (u key : String) (h : t.row key = none) :
    (DBDelAllHwComponents t u).1.row key = none := by
  by_cases hu : u = ""
  · simpa [DBDelAllHwComponents, hu] using h
  · cases hkv : t.kvClient with
    | none => simp [DBDelAllHwComponents, hu, db.DelAll, hkv, State.row]
    | some rows =>
      simp only [State.row, hkv] at h
      simp only [DBDelAllHwComponents, hu, if_false, db.DelAll, hkv, mockKVClient.DeleteWithPrefix,
        State.row]
      exact GoMap.load_filter_of_none rows _ key h

theorem DBDelAllHwComponents_row_under (t : State) (u key : String) (hu : u ≠ "")
    (hpre : (DbPrefix u ++ "/").data <+: key.data) :
    (DBDelAllHwComponents t u).1.row key = none := by
  cases hkv : t.kvClient with
  | none => simp [DBDelAllHwComponents, hu, db.DelAll, hkv, State.row]
  | some rows =>
    have hsub : (DbPrefix u).data <+: key.data := by
      refine List.IsPrefix.trans ?_ hpre
      rw [String.data_append]
      exact List.prefix_append _ _
    have hc : stringsContains key (DbPrefix u) = true := containsChars_of_start _ _ hsub
    simp only [DBDelAllHwComponents, hu, if_false, db.DelAll, hkv, mockKVClient.DeleteWithPrefix,
      State.row]
    exact GoMap.load_filter_key rows (fun k => !stringsContains k (DbPrefix u)) key (by simp [hc])

theorem DBDelAllHwComponents_fields (t : State) (u : String) :
    (DBDelAllHwComponents t u).1.kvClient.isSome = t.kvClient.isSome
    ∧ (DBDelAllHwComponents t u).1.nameToAdapter = t.nameToAdapter
    ∧ (DBDelAllHwComponents t u).1.disconnected = t.disconnected := by
  by_cases hu : u = ""
  · simp [DBDelAllHwComponents, hu]
  · cases hkv : t.kvClient <;> simp [DBDelAllHwComponents, hu, db.DelAll, hkv]

end hwcomponents

namespace device

theorem DBDelRecord_some (t : State) (rows : GoMap KVValue) (d : DeviceRecord)
    (hkv : t.kvClient = some rows) (hn : d.Name ≠ "") :
    (DBDelRecord t d).1 =
      if d.Uuid = "" then
        { t with kvClient := some (rows.delete (DbPathNameToRecord d.Name)),
                 nameToRec := t.nameToRec.delete d.Name }
      else
        { t with kvClient := some ((rows.delete (DbPathNameToRecord d.Name)).delete
                    (DbPathUuidToName d.Uuid)),
                 nameToRec := t.nameToRec.delete d.Name,
                 uuidToName := t.uuidToName.delete d.Uuid } := by
  have hd := db.Del_some t rows (DbPathNameToRecord d.Name) hkv (DbPathNameToRecord_ne_empty _)
  by_cases hu : d.Uuid = ""
  · simp [DBDelRecord, hn, hu, hd]
  · have hd2 := db.Del_some
      { t with kvClient := some (rows.delete (DbPathNameToRecord d.Name)),
               nameToRec := t.nameToRec.delete d.Name }
      (rows.delete (DbPathNameToRecord d.Name)) (DbPathUuidToName d.Uuid) rfl
      (DbPathUuidToName_ne_empty _)
    simp [DBDelRecord, hn, hu, hd, hd2]

end device

namespace device

theorem DBDelRecord_row_of_none (t : State) (d : DeviceRecord) (key : String)
    (h : t.row key = none) : (DBDelRecord t d).1.row key = none := by
  cases hkv : t.kvClient with
  | none =>
    by_cases hn : d.Name = "" <;> by_cases hu : d.Uuid = "" <;>
      simp [DBDelRecord, hn, hu, db.Del, hkv, State.row]
  | some rows =>
    simp only [State.row, hkv] at h
    by_cases hn : d.Name = ""
    · by_cases hu : d.Uuid = ""
      · simp [DBDelRecord, hn, hu, State.row, hkv, h]
      · have hd := db.Del_some t rows (DbPathUuidToName d.Uuid) hkv (DbPathUuidToName_ne_empty _)
        simp [DBDelRecord, hn, hu, hd, State.row, GoMap.load_delete_of_none _ _ _ h]
    · rw [DBDelRecord_some t rows d hkv hn]
      by_cases hu : d.Uuid = ""
      · simp [hu, State.row, GoMap.load_delete_of_none _ _ _ h]
      · simp [hu, State.row,
          GoMap.load_delete_of_none _ _ _ (GoMap.load_delete_of_none _ _ (DbPathNameToRecord d.Name) h)]

theorem DBDelRecord_rows (t : State) (d : DeviceRecord) (hkv : t.kvClient.isSome = true)
    (hn : d.Name ≠ "") :
    (DBDelRecord t d).1.row (DbPathNameToRecord d.Name) = none
    ∧ (d.Uuid ≠ "" → (DBDelRecord t d).1.row (DbPathUuidToName d.Uuid) = none)
    ∧ (DBDelRecord t d).1.nameToAdapter = t.nameToAdapter
    ∧ (DBDelRecord t d).1.disconnected = t.disconnected := by
  cases hrows : t.kvClient with
  | none => rw [hrows] at hkv; simp at hkv
  | some rows =>
    rw [DBDelRecord_some t rows d hrows hn]
    by_cases hu : d.Uuid = ""
    · simp [hu, State.row, GoMap.load_delete_self]
    · simp [hu, State.row, GoMap.load_delete_self,
        GoMap.load_delete_of_none _ _ _ (GoMap.load_delete_self rows (DbPathNameToRecord d.Name))]

end device

/-! ## Lemmas on the log levels -/

namespace device

theorem requestedLevels_eq (known : GoMap Int) (entities : List String) (l : LevelLists) :
    requestedLevels known entities l =
      if entities.all (fun e => (known.load e).isSome) then
        some { traceLevel := l.traceLevel
                 ++ entities.filter (fun e => decide (known.load e = some LogLevel_TRACE)),
               debugLevel := l.debugLevel
                 ++ entities.filter (fun e => decide (known.load e = some LogLevel_DEBUG)),
               infoLevel := l.infoLevel
                 ++ entities.filter (fun e => decide (known.load e = some LogLevel_INFO)),
               warnLevel := l.warnLevel
                 ++ entities.filter (fun e => decide (known.load e = some LogLevel_WARN)),
               errorLevel := l.errorLevel
                 ++ entities.filter (fun e => decide (known.load e = some LogLevel_ERROR)) }
      else none := by
  induction entities generalizing l with
  | nil => simp [requestedLevels]
  | cons e t ih =>
    cases hl : known.load e with
    | none => simp [requestedLevels, hl]
    | some lv =>
      simp only [requestedLevels, hl, ih, List.all_cons, Option.isSome_some, Bool.true_and]
      by_cases hall : (t.all fun e => (known.load e).isSome) = true
      · simp only [hall, if_true, Option.some.injEq]
        simp only [LevelLists.add, LogLevel_TRACE, LogLevel_DEBUG, LogLevel_INFO, LogLevel_WARN,
          LogLevel_ERROR, List.filter_cons, hl, Option.some.injEq]
        by_cases h0 : lv = 0
        · subst h0; simp
        by_cases h1 : lv = 1
        · subst h1; simp
        by_cases h2 : lv = 2
        · subst h2; simp
        by_cases h3 : lv = 3
        · subst h3; simp
        by_cases h4 : lv = 4
        · subst h4; simp
        simp [h0, h1, h2, h3, h4]
      · simp [hall]

theorem foldl_add_eq (known : GoMap Int) (l : LevelLists) :
    known.foldl (fun (l : LevelLists) p => l.add p.2 p.1) l =
      { traceLevel := l.traceLevel
          ++ (known.filter (fun p => decide (p.2 = LogLevel_TRACE))).map Prod.fst,
        debugLevel := l.debugLevel
          ++ (known.filter (fun p => decide (p.2 = LogLevel_DEBUG))).map Prod.fst,
        infoLevel := l.infoLevel
          ++ (known.filter (fun p => decide (p.2 = LogLevel_INFO))).map Prod.fst,
        warnLevel := l.warnLevel
          ++ (known.filter (fun p => decide (p.2 = LogLevel_WARN))).map Prod.fst,
        errorLevel := l.errorLevel
          ++ (known.filter (fun p => decide (p.2 = LogLevel_ERROR))).map Prod.fst } := by
  induction known generalizing l with
  | nil => simp
  | cons p t ih =>
    obtain ⟨e, lv⟩ := p
    simp only [List.foldl_cons, ih]
    simp only [LevelLists.add, LogLevel_TRACE, LogLevel_DEBUG, LogLevel_INFO, LogLevel_WARN,
      LogLevel_ERROR, List.filter_cons]
    by_cases h0 : lv = 0
    · subst h0; simp
    by_cases h1 : lv = 1
    · subst h1; simp
    by_cases h2 : lv = 2
    · subst h2; simp
    by_cases h3 : lv = 3
    · subst h3; simp
    by_cases h4 : lv = 4
    · subst h4; simp
    simp [h0, h1, h2, h3, h4]

end device

namespace device

theorem foldl_store_load (lv : Int) (es : List String) (m : GoMap Int) (e : String) :
    (es.foldl (fun m entity => GoMap.store m entity lv) m).load e
      = if e ∈ es then some lv else m.load e := by
  induction es generalizing m with
  | nil => simp
  | cons x t ih =>
    simp only [List.foldl_cons, ih, List.mem_cons]
    by_cases ht : e ∈ t
    · simp [ht]
    · by_cases hx : e = x
      · subst hx; simp [ht, GoMap.load_store_self]
      · simp [ht, hx, GoMap.load_store_ne m lv hx]

theorem setLevels_load (groups : List EntitiesLogLevel) (m : GoMap Int) (e : String) :
    (setLevels m groups).load e
      = match specLastLevel e groups with
        | some level => some level
        | none => m.load e := by
  induction groups generalizing m with
  | nil => simp [setLevels, specLastLevel]
  | cons g rest ih =>
    have h : setLevels m (g :: rest)
        = setLevels (g.Entities.foldl (fun m entity => GoMap.store m entity g.LogLevel) m) rest := by
      simp [setLevels]
    rw [h, ih, foldl_store_load]
    simp only [specLastLevel]
    cases specLastLevel e rest with
    | some l => rfl
    | none =>
      by_cases hm : e ∈ g.Entities <;> simp [hm]

end device

namespace device

theorem SaveLoggableEntities_levels (rec : DeviceRecord) (groups : List EntitiesLogLevel)
    (h : specSingleGlobal groups = false) :
    SaveLoggableEntities rec groups
      = { rec with Logging := { rec.Logging with
            LoggableEntities :=
              some (setLevels (rec.Logging.LoggableEntities.getD []) groups) } } := by
  have hget : (match rec.Logging.LoggableEntities with
      | none => ([] : GoMap Int)
      | some m => m) = rec.Logging.LoggableEntities.getD [] := by
    cases rec.Logging.LoggableEntities <;> rfl
  match groups with
  | [] => simp only [SaveLoggableEntities, hget]
  | [g] =>
    have hg : ¬ g.Entities = [] := by
      intro hg
      simp [specSingleGlobal, hg] at h
    simp only [SaveLoggableEntities, hget, hg, if_false]
  | g1 :: g2 :: rest => simp only [SaveLoggableEntities, hget]

theorem SaveLoggableEntities_global (rec : DeviceRecord) (groups : List EntitiesLogLevel)
    (h : specSingleGlobal groups = true) :
    ∃ g, groups = [g] ∧ SaveLoggableEntities rec groups
      = { rec with Logging := { rec.Logging with
            LoggableEntities := some (rec.Logging.LoggableEntities.getD []),
            LogLevel := g.LogLevel } } := by
  have hget : (match rec.Logging.LoggableEntities with
      | none => ([] : GoMap Int)
      | some m => m) = rec.Logging.LoggableEntities.getD [] := by
    cases rec.Logging.LoggableEntities <;> rfl
  match groups with
  | [] => simp [specSingleGlobal] at h
  | [g] =>
    have hg : g.Entities = [] := by
      simpa [specSingleGlobal] using h
    exact ⟨g, rfl, by simp only [SaveLoggableEntities, hget, hg, if_true]⟩
  | g1 :: g2 :: rest => simp [specSingleGlobal] at h

end device

/-! ## Lemmas on `DBGetAll` -/

namespace GoMap

theorem delete_of_not_mem {V : Type} (m : GoMap V) (k : String) (h : k ∉ keys m) :
    delete m k = m := by
  unfold delete
  apply List.filter_eq_self.mpr
  intro p hp
  have : p.1 ≠ k := by
    intro e
    apply h
    rw [← e]
    exact List.mem_map_of_mem Prod.fst hp
  simpa using this

end GoMap

namespace device

theorem stringsContains_DbPathNameToRecord (name : String) :
    stringsContains (DbPathNameToRecord name) (DbPathNameToRecord "") = true := by
  unfold stringsContains
  apply containsChars_of_start
  simp [DbPathNameToRecord]

/-- The store after the records of a list were added to the empty store. -/
theorem foldl_DBAddByName_rows (recs : List DeviceRecord)
    (hn : "" ∉ recs.map (fun r => r.Name)) (hd : (recs.map (fun r => r.Name)).Nodup) :
    (recs.foldl (fun s r => (DBAddByName s r).1) { kvClient := some [] }).kvClient
      = some (recs.reverse.map
          (fun r => (DbPathNameToRecord r.Name, KVValue.json r.jsonMarshal))) := by
  induction recs using List.reverseRecOn with
  | nil => rfl
  | append_singleton init r ih =>
    simp only [List.map_append, List.map_cons, List.map_nil, List.mem_append, List.mem_singleton,
      not_or] at hn
    have hd2 := hd
    simp only [List.map_append, List.map_cons, List.map_nil] at hd2
    have hd3 := List.nodup_append.mp hd2
    have ih2 := ih hn.1 hd3.1
    have hrn : r.Name ≠ "" := fun e => hn.2 e.symm
    rw [List.foldl_append, List.foldl_cons, List.foldl_nil,
      DBAddByName_some _ _ r ih2 hrn]
    simp only [List.reverse_append, List.reverse_cons, List.reverse_nil, List.nil_append,
      List.singleton_append, List.map_cons]
    have hnot : DbPathNameToRecord r.Name ∉ GoMap.keys
        (init.reverse.map (fun r => (DbPathNameToRecord r.Name, KVValue.json r.jsonMarshal))) := by
      intro hmem
      simp only [GoMap.keys, List.map_map, List.mem_map, List.mem_reverse, Function.comp] at hmem
      obtain ⟨x, hx, hxe⟩ := hmem
      have hxn : x.Name = r.Name := DbPathNameToRecord_inj.mp hxe
      have h1 : r.Name ∈ init.map (fun r => r.Name) := by
        rw [← hxn]
        exact List.mem_map_of_mem (fun r => r.Name) hx
      exact hd3.2.2 h1 (List.mem_singleton.mpr rfl)
    simp only [GoMap.store, GoMap.delete_of_not_mem _ _ hnot]

theorem filterMap_rows (recs : List DeviceRecord) (hwf : ∀ r ∈ recs, r.wellFormed = true) :
    (recs.map (fun r => (DbPathNameToRecord r.Name, KVValue.json r.jsonMarshal))).filterMap
        (fun p => (DeviceRecord.jsonUnmarshal p.2).toOption)
      = recs.map DeviceRecord.readBack := by
  induction recs with
  | nil => rfl
  | cons r t ih =>
    have h1 := DeviceRecord.jsonUnmarshal_jsonMarshal r (hwf r (List.mem_cons_self _ _))
    have h2 := ih (fun x hx => hwf x (List.mem_cons_of_mem _ hx))
    rw [List.map_cons, List.filterMap_cons, List.map_cons, h2]
    simp only [h1, Except.toOption]

theorem filter_rows (recs : List DeviceRecord) :
    (recs.map (fun r => (DbPathNameToRecord r.Name, KVValue.json r.jsonMarshal))).filter
        (fun p => stringsContains p.1 (DbPathNameToRecord ""))
      = recs.map (fun r => (DbPathNameToRecord r.Name, KVValue.json r.jsonMarshal)) := by
  apply List.filter_eq_self.mpr
  intro p hp
  obtain ⟨r, _, hr⟩ := List.mem_map.mp hp
  rw [← hr]
  exact stringsContains_DbPathNameToRecord r.Name

theorem DBGetAll_some (s : State) (rows : GoMap KVValue) (hkv : s.kvClient = some rows)
    (hlen : (rows.filter
      (fun p => stringsContains p.1 (DbPathNameToRecord ""))).length ≠ 0) :
    DBGetAll s
      = ((rows.filter (fun p => stringsContains p.1 (DbPathNameToRecord ""))).filterMap
          (fun p => (DeviceRecord.jsonUnmarshal p.2).toOption), none) := by
  simp only [DBGetAll, db.ReadAll, hkv, mockKVClient.List, hlen, ne_eq, not_false_eq_true,
    if_true]

end device

/-! ## Lemmas on the inventory -/

theorem childUuids_some (cs : List Component) (h : none ∉ cs.map (fun c => c.attrs.Uuid)) :
    childUuids cs = some (cs.map (fun c => c.attrs.Uuid.getD "")) := by
  induction cs with
  | nil => rfl
  | cons c t ih =>
    simp only [List.map_cons, List.mem_cons, not_or] at h
    have ht := ih h.2
    cases hu : c.attrs.Uuid with
    | none => exact absurd hu.symm h.1
    | some u => simp [childUuids, hu, ht]

theorem mem_reachable_self (c : Component) : c ∈ c.reachable := by
  cases c with
  | mk a cs => simp [Component.reachable]

theorem mem_reachableFrom_of_mem {c : Component} {cs : List Component} (h : c ∈ cs) :
    c ∈ reachableFrom cs := by
  induction cs with
  | nil => cases h
  | cons x t ih =>
    simp only [reachableFrom, List.mem_append]
    rcases List.mem_cons.mp h with h1 | h1
    · left; rw [h1]; exact mem_reachable_self x
    · right; exact ih h1

namespace hwcomponents

mutual
theorem saveChild_eq (d : String) : ∀ (c : Component) (s : State) (m : GoMap String),
    (∀ x ∈ c.reachable, x.attrs.Name ≠ "" ∧ x.attrs.Uuid ≠ none) →
      saveChild s d m c
        = ((c.reachable.foldl (saveOne d) (s, m)).1,
           (c.reachable.foldl (saveOne d) (s, m)).2, false)
  | .mk a cs, s, m, h => by
    have ha := h (.mk a cs) (mem_reachable_self _)
    have hcs : ∀ x ∈ reachableFrom cs, x.attrs.Name ≠ "" ∧ x.attrs.Uuid ≠ none := by
      intro x hx
      apply h
      simp [Component.reachable, hx]
    have hchild : none ∉ cs.map (fun c => c.attrs.Uuid) := by
      intro hmem
      obtain ⟨x, hx, hxe⟩ := List.mem_map.mp hmem
      exact (hcs x (mem_reachableFrom_of_mem hx)).2 hxe
    have hc := childUuids_some cs hchild
    have hname : ¬ a.Name = "" := ha.1
    obtain ⟨u, hu⟩ : ∃ u, a.Uuid = some u := by
      cases hq : a.Uuid with
      | none => exact absurd hq ha.2
      | some u => exact ⟨u, rfl⟩
    have key : saveChild s d m (.mk a cs)
        = DBSaveHwCompsFromPhysicalInventory (DBAddByUuid s (recordOf (.mk a cs)) d).1 d
            (m.store a.Name (a.Uuid.getD "")) cs := by
      cases hi : a.Uri <;>
        simp [saveChild, hname, hc, hu, hi, recordOf, copyComponent, Component.attrs,
          Component.Children]
    have ih := DBSaveHwCompsFromPhysicalInventory_eq d cs
      (DBAddByUuid s (recordOf (.mk a cs)) d).1
      (m.store a.Name (a.Uuid.getD "")) hcs
    rw [key, ih]
    simp only [Component.reachable, List.foldl_cons]
    rfl
theorem DBSaveHwCompsFromPhysicalInventory_eq (d : String) :
    ∀ (cs : List Component) (s : State) (m : GoMap String),
    (∀ x ∈ reachableFrom cs, x.attrs.Name ≠ "" ∧ x.attrs.Uuid ≠ none) →
      DBSaveHwCompsFromPhysicalInventory s d m cs
        = (((reachableFrom cs).foldl (saveOne d) (s, m)).1,
           ((reachableFrom cs).foldl (saveOne d) (s, m)).2, false)
  | [], s, m, _ => by simp [DBSaveHwCompsFromPhysicalInventory, reachableFrom]
  | c :: rest, s, m, h => by
    have h1 : ∀ x ∈ c.reachable, x.attrs.Name ≠ "" ∧ x.attrs.Uuid ≠ none := by
      intro x hx
      apply h
      simp [reachableFrom, hx]
    have h2 : ∀ x ∈ reachableFrom rest, x.attrs.Name ≠ "" ∧ x.attrs.Uuid ≠ none := by
      intro x hx
      apply h
      simp [reachableFrom, hx]
    have e1 := saveChild_eq d c s m h1
    have e2 := DBSaveHwCompsFromPhysicalInventory_eq d rest
      (c.reachable.foldl (saveOne d) (s, m)).1 (c.reachable.foldl (saveOne d) (s, m)).2 h2
    simp only [DBSaveHwCompsFromPhysicalInventory, e1, e2, reachableFrom, List.foldl_append]
end

end hwcomponents

namespace hwcomponents

theorem DbPathNameToUuid_ne_empty (d : String) : DbPathNameToUuid d ≠ "" := by
  simp [DbPathNameToUuid, DbPrefix, String.ext_iff]

theorem DbPathUuidToRecord_ne_empty (d u : String) : DbPathUuidToRecord d u ≠ "" := by
  simp [DbPathUuidToRecord, DbPrefix, String.ext_iff]

theorem Put_uuidToRec (s : State) (key : String) (val : KVValue) :
    (db.Put s key val).1.uuidToRec = s.uuidToRec := by
  cases hkv : s.kvClient <;> simp [db.Put, hkv]

theorem Put_kvClient_isSome (s : State) (key : String) (val : KVValue) :
    (db.Put s key val).1.kvClient.isSome = s.kvClient.isSome := by
  cases hkv : s.kvClient <;> simp [db.Put, hkv]

theorem get_DBAddByUuid (s : State) (r : HwCompRecord) (d u : String) (hr : r.Uuid ≠ "")
    (hd : d ≠ "") :
    compCache.get (DBAddByUuid s r d).1 d u
      = if u = r.Uuid then some r else compCache.get s d u := by
  have hcond : ¬ (r.Uuid = "" ∨ d = "") := by
    intro h
    rcases h with h | h
    · exact hr h
    · exact hd h
  simp only [DBAddByUuid, hcond, if_false, compCache.get, compCache.store, Put_uuidToRec,
    GoMap.load_store_self]
  by_cases hu : u = r.Uuid
  · subst hu
    simp [GoMap.load_store_self]
  · simp only [hu, if_false]
    rw [GoMap.load_store_ne _ r hu]
    cases s.uuidToRec.load d <;> rfl

theorem DBAddByUuid_kvClient_isSome (s : State) (r : HwCompRecord) (d : String) :
    (DBAddByUuid s r d).1.kvClient.isSome = s.kvClient.isSome := by
  by_cases hcond : r.Uuid = "" ∨ d = ""
  · simp [DBAddByUuid, hcond]
  · simp only [DBAddByUuid, hcond, if_false, compCache.store]
    exact Put_kvClient_isSome s _ _

theorem foldl_saveOne_kvClient (d : String) (l : List Component) (p : State × GoMap String) :
    (l.foldl (saveOne d) p).1.kvClient.isSome = p.1.kvClient.isSome := by
  induction l generalizing p with
  | nil => rfl
  | cons c t ih =>
    rw [List.foldl_cons, ih]
    exact DBAddByUuid_kvClient_isSome _ _ _

theorem foldl_saveOne_length (d : String) (l : List Component) (p : State × GoMap String)
    (hl : l ≠ []) : (l.foldl (saveOne d) p).2.length ≠ 0 := by
  induction l using List.reverseRecOn with
  | nil => exact absurd rfl hl
  | append_singleton init x _ =>
    rw [List.foldl_append, List.foldl_cons, List.foldl_nil]
    simp [saveOne, GoMap.store]

theorem foldl_saveOne_get (d : String) (hd : d ≠ "") (l : List Component)
    (p : State × GoMap String)
    (hu : ∀ c ∈ l, c.attrs.Uuid.getD "" ≠ "")
    (hnd : (l.map (fun c => c.attrs.Uuid.getD "")).Nodup) :
    ∀ c ∈ l, compCache.get (l.foldl (saveOne d) p).1 d (c.attrs.Uuid.getD "")
      = some (recordOf c) := by
  induction l using List.reverseRecOn with
  | nil => intro c hc; cases hc
  | append_singleton init x ih =>
    intro c hc
    simp only [List.map_append, List.map_cons, List.map_nil] at hnd
    have hnd2 := List.nodup_append.mp hnd
    have hux : (recordOf x).Uuid ≠ "" := hu x (by simp)
    rw [List.foldl_append, List.foldl_cons, List.foldl_nil]
    show compCache.get (DBAddByUuid _ (recordOf x) d).1 d _ = _
    rw [get_DBAddByUuid _ _ _ _ hux hd]
    rcases List.mem_append.mp hc with hci | hcx
    · have hne : ¬ c.attrs.Uuid.getD "" = (recordOf x).Uuid := by
        intro e
        have h1 : c.attrs.Uuid.getD "" ∈ init.map (fun c => c.attrs.Uuid.getD "") :=
          List.mem_map_of_mem (fun c => c.attrs.Uuid.getD "") hci
        exact hnd2.2.2 h1 (by rw [e]; exact List.mem_singleton.mpr rfl)
      simp only [hne, if_false]
      exact ih (fun y hy => hu y (List.mem_append_left _ hy)) hnd2.1 c hci
    · have hcx2 : c = x := List.mem_singleton.mp hcx
      subst hcx2
      have : c.attrs.Uuid.getD "" = (recordOf c).Uuid := rfl
      simp [this]

theorem foldl_saveOne_load (d : String) (l : List Component) (p : State × GoMap String)
    (hnd : (l.map (fun c => c.attrs.Name)).Nodup) :
    ∀ c ∈ l, (l.foldl (saveOne d) p).2.load c.attrs.Name = some (c.attrs.Uuid.getD "") := by
  induction l using List.reverseRecOn with
  | nil => intro c hc; cases hc
  | append_singleton init x ih =>
    intro c hc
    simp only [List.map_append, List.map_cons, List.map_nil] at hnd
    have hnd2 := List.nodup_append.mp hnd
    rw [List.foldl_append, List.foldl_cons, List.foldl_nil]
    show GoMap.load (GoMap.store _ x.attrs.Name (x.attrs.Uuid.getD "")) _ = _
    rcases List.mem_append.mp hc with hci | hcx
    · have hne : c.attrs.Name ≠ x.attrs.Name := by
        intro e
        have h1 : c.attrs.Name ∈ init.map (fun c => c.attrs.Name) :=
          List.mem_map_of_mem (fun c => c.attrs.Name) hci
        exact hnd2.2.2 h1 (by rw [e]; exact List.mem_singleton.mpr rfl)
      rw [GoMap.load_store_ne _ _ hne]
      exact ih hnd2.1 c hci
    · have hcx2 : c = x := List.mem_singleton.mp hcx
      subst hcx2
      exact GoMap.load_store_self _ _ _

theorem DBGetRecByUuid_cached (s : State) (d u : String) (r : HwCompRecord) (hd : d ≠ "")
    (hu : u ≠ "") (h : compCache.get s d u = some r) :
    DBGetRecByUuid s d u = (s, some r, none) := by
  have hcond : ¬ (d = "" ∨ u = "") := by
    intro hq
    rcases hq with hq | hq
    · exact hd hq
    · exact hu hq
  simp only [DBGetRecByUuid, hcond, if_false, h]

theorem DBAddNameToUuidlookup_some (s : State) (rows : GoMap KVValue) (d : String)
    (m : GoMap String) (hkv : s.kvClient = some rows) (hd : d ≠ "") (hm : m.length ≠ 0) :
    DBAddNameToUuidlookup s d m
      = ({ s with kvClient := some (rows.store (DbPathNameToUuid d) (.json (stringsToJson m))) },
          none) := by
  have hcond : ¬ (d = "" ∨ m.length = 0) := by
    intro hq
    rcases hq with hq | hq
    · exact hd hq
    · exact hm hq
  simp only [DBAddNameToUuidlookup, hcond, if_false,
    db.Put_some s rows _ _ hkv (DbPathNameToUuid_ne_empty d)]

end hwcomponents

/-! ## Lemmas on the reads of the device repository -/

namespace device

theorem DBGetByName_result (s : State) (name : String) :
    ((DBGetByName s name).2.1 ≠ none ∧ (DBGetByName s name).2.2 = none)
    ∨ ((DBGetByName s name).2.1 = none ∧ (DBGetByName s name).2.2 ≠ none) := by
  cases h : (DBGetByName s name).2.1 with
  | none => exact Or.inr ⟨rfl, (DBGetByName_none s name h).2⟩
  | some rec => exact Or.inl ⟨by simp, (DBGetByName_some s name rec h).2.1⟩

theorem DBGetByUuid_result (s : State) (uuid : String) :
    ((DBGetByUuid s uuid).2.1 ≠ none ∧ (DBGetByUuid s uuid).2.2 = none)
    ∨ ((DBGetByUuid s uuid).2.1 = none ∧ (DBGetByUuid s uuid).2.2 ≠ none) := by
  by_cases hu : uuid = ""
  · simp [DBGetByUuid, hu]
  · simp only [DBGetByUuid, hu, if_false]
    cases hl : s.uuidToName.load uuid with
    | some val => exact DBGetByName_result _ _
    | none =>
      rcases hrd : db.Read s (DbPathUuidToName uuid) with ⟨name, err⟩
      cases err with
      | some e => simp
      | none => exact DBGetByName_result _ _

theorem DBGetByName_absent (s : State) (name : String) (hc : s.nameToRec.load name = none)
    (hrow : s.row (DbPathNameToRecord name) = none) :
    (DBGetByName s name).2.1 = none ∧ (DBGetByName s name).2.2 ≠ none := by
  by_cases hn : name = ""
  · simp [DBGetByName, hn]
  · simp only [DBGetByName, hn, if_false, hc]
    cases hkv : s.kvClient with
    | none => simp [db.Read_none s _ hkv]
    | some rows =>
      have hl : rows.load (DbPathNameToRecord name) = none := by
        simpa [State.row, hkv] using hrow
      simp [db.Read_some s rows _ hkv, hl]

end device

/-! ## Lemmas on the connection registry -/

namespace GoMap

theorem keys_delete_nodup {V : Type} (m : GoMap V) (k : String) (h : (keys m).Nodup) :
    (keys (delete m k)).Nodup := by
  unfold keys delete
  exact List.Nodup.sublist (List.Sublist.map Prod.fst (List.filter_sublist m)) h

theorem not_mem_keys_delete {V : Type} (m : GoMap V) (k : String) : k ∉ keys (delete m k) := by
  unfold keys delete
  intro h
  obtain ⟨p, hp, hk⟩ := List.mem_map.mp h
  have := (List.mem_filter.mp hp).2
  simp [hk] at this

theorem keys_store_nodup {V : Type} (m : GoMap V) (k : String) (v : V) (h : (keys m).Nodup) :
    (keys (store m k v)).Nodup := by
  have h1 := keys_delete_nodup m k h
  have h2 := not_mem_keys_delete m k
  unfold store
  unfold keys at h1 h2 ⊢
  rw [List.map_cons]
  exact List.nodup_cons.mpr ⟨h2, h1⟩

theorem mem_of_mem_delete {V : Type} (m : GoMap V) (k : String) (p : String × V)
    (h : p ∈ delete m k) : p ∈ m :=
  (List.mem_filter.mp h).1

end GoMap

namespace nbi

theorem getConnection_hit (s : State) (devRec : DeviceRecord) (dial : Option String)
    (c : Client) (h : s.nameToAdapter.load devRec.Name = some c) :
    getConnection s devRec dial = (s, some c, none) := by
  simp [getConnection, h]

theorem getConnection_miss_ok (s : State) (devRec : DeviceRecord)
    (h : s.nameToAdapter.load devRec.Name = none) :
    getConnection s devRec none
      = ({ s with created := s.created + 1, dialled := s.created :: s.dialled,
                  nameToAdapter := s.nameToAdapter.store devRec.Name
                    { id := s.created, uri := devRec.Uri } },
          some { id := s.created, uri := devRec.Uri }, none) := by
  simp [getConnection, h]

theorem getConnection_miss_failed (s : State) (devRec : DeviceRecord) (e : String)
    (h : s.nameToAdapter.load devRec.Name = none) :
    getConnection s devRec (some e)
      = ({ s with created := s.created + 1, dialled := s.created :: s.dialled }, none, some e) := by
  simp [getConnection, h]

theorem registryInv_applyCall (s : State) (call : RegistryCall) (h : registryInv s) :
    registryInv (applyCall s call) := by
  obtain ⟨h1, h2, h3, h4⟩ := h
  have hfresh : s.created ∉ s.dialled := fun hm => Nat.lt_irrefl _ (h3 _ hm)
  cases call with
  | del name =>
    by_cases hn : name = ""
    · simpa [applyCall, delConn, hn] using ⟨h1, h2, h3, h4⟩
    · simp only [applyCall, delConn, hn, ne_eq, not_false_eq_true, if_true]
      exact ⟨GoMap.keys_delete_nodup _ _ h1, h2, h3,
        fun p hp => h4 p (GoMap.mem_of_mem_delete _ _ _ hp)⟩
  | get devRec dial =>
    cases hl : s.nameToAdapter.load devRec.Name with
    | some c =>
      simp only [applyCall, getConnection_hit s devRec dial c hl]
      exact ⟨h1, h2, h3, h4⟩
    | none =>
      cases dial with
      | some e =>
        simp only [applyCall, getConnection_miss_failed s devRec e hl]
        refine ⟨h1, List.nodup_cons.mpr ⟨hfresh, h2⟩, ?_, ?_⟩
        · intro id hid
          rcases List.mem_cons.mp hid with hid | hid
          · rw [hid]; exact Nat.lt_succ_self _
          · exact Nat.lt_succ_of_lt (h3 id hid)
        · intro p hp
          exact List.mem_cons_of_mem _ (h4 p hp)
      | none =>
        simp only [applyCall, getConnection_miss_ok s devRec hl]
        refine ⟨GoMap.keys_store_nodup _ _ _ h1, List.nodup_cons.mpr ⟨hfresh, h2⟩, ?_, ?_⟩
        · intro id hid
          rcases List.mem_cons.mp hid with hid | hid
          · rw [hid]; exact Nat.lt_succ_self _
          · exact Nat.lt_succ_of_lt (h3 id hid)
        · intro p hp
          rcases List.mem_cons.mp hp with hp | hp
          · rw [hp]; exact List.mem_cons_self _ _
          · exact List.mem_cons_of_mem _ (h4 p (GoMap.mem_of_mem_delete _ _ _ hp))

theorem registryInv_runCalls (s : State) (calls : List RegistryCall) (h : registryInv s) :
    registryInv (runCalls s calls) := by
  induction calls generalizing s with
  | nil => exact h
  | cons c t ih => exact ih _ (registryInv_applyCall s c h)

end nbi

/-! ## Lemmas on the caches of the device repository -/

namespace device

theorem cacheInv_store_name (s : State) (rows : GoMap KVValue) (rec : DeviceRecord)
    (hkv : s.kvClient = some rows) (h : cacheInv s) :
    cacheInv { s with
      kvClient := some (rows.store (DbPathNameToRecord rec.Name) (.json rec.jsonMarshal)),
      nameToRec := s.nameToRec.store rec.Name rec } := by
  obtain ⟨_, h2, h3⟩ := h
  refine ⟨rfl, ?_, ?_⟩
  · intro name r hl
    by_cases hn : name = rec.Name
    · subst hn
      rw [show ({ s with
          kvClient := some (rows.store (DbPathNameToRecord rec.Name) (.json rec.jsonMarshal)),
          nameToRec := s.nameToRec.store rec.Name rec } : State).nameToRec
            = s.nameToRec.store rec.Name rec from rfl, GoMap.load_store_self] at hl
      cases hl
      exact ⟨.json rec.jsonMarshal, by simp [State.row, GoMap.load_store_self], Or.inl rfl⟩
    · have hl2 : s.nameToRec.load name = some r := by
        rw [← GoMap.load_store_ne s.nameToRec rec hn]; exact hl
      obtain ⟨v, hv, hc⟩ := h2 name r hl2
      refine ⟨v, ?_, hc⟩
      have hk : DbPathNameToRecord name ≠ DbPathNameToRecord rec.Name :=
        fun e => hn (DbPathNameToRecord_inj.mp e)
      simp only [State.row, hkv] at hv ⊢
      rw [GoMap.load_store_ne rows _ hk]; exact hv
  · intro uuid name hl
    obtain ⟨v, hv, hc⟩ := h3 uuid name hl
    refine ⟨v, ?_, hc⟩
    simp only [State.row, hkv] at hv ⊢
    rw [GoMap.load_store_ne rows _ (DbPathUuidToName_ne_name uuid rec.Name)]; exact hv

theorem cacheInv_store_uuid (s : State) (rows : GoMap KVValue) (rec : DeviceRecord)
    (hkv : s.kvClient = some rows) (h : cacheInv s) :
    cacheInv { s with
      kvClient := some (rows.store (DbPathUuidToName rec.Uuid) (.text rec.Name)),
      uuidToName := s.uuidToName.store rec.Uuid rec.Name } := by
  obtain ⟨_, h2, h3⟩ := h
  refine ⟨rfl, ?_, ?_⟩
  · intro name r hl
    obtain ⟨v, hv, hc⟩ := h2 name r hl
    refine ⟨v, ?_, hc⟩
    simp only [State.row, hkv] at hv ⊢
    rw [GoMap.load_store_ne rows _ (DbPathNameToRecord_ne_uuid name rec.Uuid)]; exact hv
  · intro uuid name hl
    by_cases hn : uuid = rec.Uuid
    · subst hn
      rw [show ({ s with
          kvClient := some (rows.store (DbPathUuidToName rec.Uuid) (.text rec.Name)),
          uuidToName := s.uuidToName.store rec.Uuid rec.Name } : State).uuidToName
            = s.uuidToName.store rec.Uuid rec.Name from rfl, GoMap.load_store_self] at hl
      cases hl
      exact ⟨.text rec.Name, by simp [State.row, GoMap.load_store_self], rfl⟩
    · have hl2 : s.uuidToName.load uuid = some name := by
        rw [← GoMap.load_store_ne s.uuidToName rec.Name hn]; exact hl
      obtain ⟨v, hv, hc⟩ := h3 uuid name hl2
      refine ⟨v, ?_, hc⟩
      have hk : DbPathUuidToName uuid ≠ DbPathUuidToName rec.Uuid :=
        fun e => hn (DbPathUuidToName_inj.mp e)
      simp only [State.row, hkv] at hv ⊢
      rw [GoMap.load_store_ne rows _ hk]; exact hv

theorem cacheInv_cache_name (s : State) (name : String) (rec : DeviceRecord) (v : KVValue)
    (hrow : s.row (DbPathNameToRecord name) = some v)
    (hdec : DeviceRecord.jsonUnmarshal v = .ok rec) (h : cacheInv s) :
    cacheInv { s with nameToRec := s.nameToRec.store name rec } := by
  obtain ⟨h1, h2, h3⟩ := h
  refine ⟨h1, ?_, h3⟩
  intro name2 r hl
  by_cases hn : name2 = name
  · subst hn
    rw [show ({ s with nameToRec := s.nameToRec.store name2 rec } : State).nameToRec
          = s.nameToRec.store name2 rec from rfl, GoMap.load_store_self] at hl
    cases hl
    exact ⟨v, hrow, Or.inr hdec⟩
  · have hl2 : s.nameToRec.load name2 = some r := by
      rw [← GoMap.load_store_ne s.nameToRec rec hn]; exact hl
    exact h2 name2 r hl2

theorem cacheInv_cache_uuid (s : State) (uuid : String) (v : KVValue)
    (hrow : s.row (DbPathUuidToName uuid) = some v) (h : cacheInv s) :
    cacheInv { s with uuidToName := s.uuidToName.store uuid v.toText } := by
  obtain ⟨h1, h2, h3⟩ := h
  refine ⟨h1, h2, ?_⟩
  intro uuid2 name hl
  by_cases hn : uuid2 = uuid
  · subst hn
    rw [show ({ s with uuidToName := s.uuidToName.store uuid2 v.toText } : State).uuidToName
          = s.uuidToName.store uuid2 v.toText from rfl, GoMap.load_store_self] at hl
    cases hl
    exact ⟨v, hrow, rfl⟩
  · have hl2 : s.uuidToName.load uuid2 = some name := by
      rw [← GoMap.load_store_ne s.uuidToName v.toText hn]; exact hl
    exact h3 uuid2 name hl2

theorem cacheInv_del_name (s : State) (rows : GoMap KVValue) (name : String)
    (hkv : s.kvClient = some rows) (h : cacheInv s) :
    cacheInv { s with kvClient := some (rows.delete (DbPathNameToRecord name)),
                      nameToRec := s.nameToRec.delete name } := by
  obtain ⟨_, h2, h3⟩ := h
  refine ⟨rfl, ?_, ?_⟩
  · intro name2 r hl
    by_cases hn : name2 = name
    · subst hn
      rw [show ({ s with kvClient := some (rows.delete (DbPathNameToRecord name2)),
                         nameToRec := s.nameToRec.delete name2 } : State).nameToRec
            = s.nameToRec.delete name2 from rfl, GoMap.load_delete_self] at hl
      cases hl
    · have hl2 : s.nameToRec.load name2 = some r := by
        rw [← GoMap.load_delete_ne s.nameToRec hn]; exact hl
      obtain ⟨v, hv, hc⟩ := h2 name2 r hl2
      refine ⟨v, ?_, hc⟩
      have hk : DbPathNameToRecord name2 ≠ DbPathNameToRecord name :=
        fun e => hn (DbPathNameToRecord_inj.mp e)
      simp only [State.row, hkv] at hv ⊢
      rw [GoMap.load_delete_ne rows hk]; exact hv
  · intro uuid n hl
    obtain ⟨v, hv, hc⟩ := h3 uuid n hl
    refine ⟨v, ?_, hc⟩
    simp only [State.row, hkv] at hv ⊢
    rw [GoMap.load_delete_ne rows (DbPathUuidToName_ne_name uuid name)]; exact hv

theorem cacheInv_del_uuid (s : State) (rows : GoMap KVValue) (uuid : String)
    (hkv : s.kvClient = some rows) (h : cacheInv s) :
    cacheInv { s with kvClient := some (rows.delete (DbPathUuidToName uuid)),
                      uuidToName := s.uuidToName.delete uuid } := by
  obtain ⟨_, h2, h3⟩ := h
  refine ⟨rfl, ?_, ?_⟩
  · intro name r hl
    obtain ⟨v, hv, hc⟩ := h2 name r hl
    refine ⟨v, ?_, hc⟩
    simp only [State.row, hkv] at hv ⊢
    rw [GoMap.load_delete_ne rows (DbPathNameToRecord_ne_uuid name uuid)]; exact hv
  · intro uuid2 n hl
    by_cases hn : uuid2 = uuid
    · subst hn
      rw [show ({ s with kvClient := some (rows.delete (DbPathUuidToName uuid2)),
                         uuidToName := s.uuidToName.delete uuid2 } : State).uuidToName
            = s.uuidToName.delete uuid2 from rfl, GoMap.load_delete_self] at hl
      cases hl
    · have hl2 : s.uuidToName.load uuid2 = some n := by
        rw [← GoMap.load_delete_ne s.uuidToName hn]; exact hl
      obtain ⟨v, hv, hc⟩ := h3 uuid2 n hl2
      refine ⟨v, ?_, hc⟩
      have hk : DbPathUuidToName uuid2 ≠ DbPathUuidToName uuid :=
        fun e => hn (DbPathUuidToName_inj.mp e)
      simp only [State.row, hkv] at hv ⊢
      rw [GoMap.load_delete_ne rows hk]; exact hv

end device

namespace device

theorem cacheInv_DBGetByName (s : State) (name : String) (h : cacheInv s) :
    cacheInv (DBGetByName s name).1 := by
  by_cases hn : name = ""
  · simpa [DBGetByName, hn] using h
  · simp only [DBGetByName, hn, if_false]
    cases hl : s.nameToRec.load name with
    | some val => exact h
    | none =>
      obtain ⟨rows, hkv⟩ : ∃ rows, s.kvClient = some rows := by
        cases hq : s.kvClient with
        | none => have := h.1; rw [hq] at this; simp at this
        | some rows => exact ⟨rows, rfl⟩
      rw [db.Read_some s rows _ hkv]
      cases hrow : rows.load (DbPathNameToRecord name) with
      | none => exact h
      | some v =>
        simp only []
        cases hdec : DeviceRecord.jsonUnmarshal v with
        | error e => exact h
        | ok rec =>
          exact cacheInv_cache_name s name rec v (by simp [State.row, hkv, hrow]) hdec h

theorem cacheInv_DBGetByUuid (s : State) (uuid : String) (h : cacheInv s) :
    cacheInv (DBGetByUuid s uuid).1 := by
  by_cases hu : uuid = ""
  · simpa [DBGetByUuid, hu] using h
  · simp only [DBGetByUuid, hu, if_false]
    cases hl : s.uuidToName.load uuid with
    | some val =>
      obtain ⟨v, hv, hc⟩ := h.2.2 uuid val hl
      have h2 := cacheInv_cache_uuid s uuid v hv h
      rw [hc] at h2
      exact cacheInv_DBGetByName _ val h2
    | none =>
      obtain ⟨rows, hkv⟩ : ∃ rows, s.kvClient = some rows := by
        cases hq : s.kvClient with
        | none => have := h.1; rw [hq] at this; simp at this
        | some rows => exact ⟨rows, rfl⟩
      rw [db.Read_some s rows _ hkv]
      cases hrow : rows.load (DbPathUuidToName uuid) with
      | none => exact h
      | some v =>
        simp only []
        exact cacheInv_DBGetByName _ _
          (cacheInv_cache_uuid s uuid v (by simp [State.row, hkv, hrow]) h)

theorem cacheInv_DBDelRecord (s : State) (rec : DeviceRecord) (h : cacheInv s) :
    cacheInv (DBDelRecord s rec).1 := by
  obtain ⟨rows, hkv⟩ : ∃ rows, s.kvClient = some rows := by
    cases hq : s.kvClient with
    | none => have := h.1; rw [hq] at this; simp at this
    | some rows => exact ⟨rows, rfl⟩
  by_cases hn : rec.Name = ""
  · by_cases hu : rec.Uuid = ""
    · simpa [DBDelRecord, hn, hu] using h
    · have hd := db.Del_some s rows (DbPathUuidToName rec.Uuid) hkv (DbPathUuidToName_ne_empty _)
      have key : (DBDelRecord s rec).1
          = { s with kvClient := some (rows.delete (DbPathUuidToName rec.Uuid)),
                     uuidToName := s.uuidToName.delete rec.Uuid } := by
        simp [DBDelRecord, hn, hu, hd]
      rw [key]
      exact cacheInv_del_uuid s rows rec.Uuid hkv h
  · rw [DBDelRecord_some s rows rec hkv hn]
    have h1 := cacheInv_del_name s rows rec.Name hkv h
    by_cases hu : rec.Uuid = ""
    · simpa [hu] using h1
    · simp only [hu, if_false]
      exact cacheInv_del_uuid _ (rows.delete (DbPathNameToRecord rec.Name)) rec.Uuid rfl h1

theorem cacheInv_applyRepoCall (s : State) (call : RepoCall) (h : cacheInv s) :
    cacheInv (applyRepoCall s call) := by
  obtain ⟨rows, hkv⟩ : ∃ rows, s.kvClient = some rows := by
    cases hq : s.kvClient with
    | none => have := h.1; rw [hq] at this; simp at this
    | some rows => exact ⟨rows, rfl⟩
  cases call with
  | addByName rec =>
    by_cases hn : rec.Name = ""
    · simpa [applyRepoCall, DBAddByName, hn] using h
    · simp only [applyRepoCall, DBAddByName_some s rows rec hkv hn]
      exact cacheInv_store_name s rows rec hkv h
  | addUuidLookup rec =>
    by_cases hn : rec.Uuid = "" ∨ rec.Name = ""
    · simpa [applyRepoCall, DBAddUuidLookup, hn] using h
    · have hu : rec.Uuid ≠ "" := fun e => hn (Or.inl e)
      have hm : rec.Name ≠ "" := fun e => hn (Or.inr e)
      simp only [applyRepoCall, DBAddUuidLookup_some s rows rec hkv hm hu]
      exact cacheInv_store_uuid s rows rec hkv h
  | getByName name => exact cacheInv_DBGetByName s name h
  | getByUuid uuid => exact cacheInv_DBGetByUuid s uuid h
  | delRecord rec => exact cacheInv_DBDelRecord s rec h

theorem cacheInv_runRepoCalls (s : State) (calls : List RepoCall) (h : cacheInv s) :
    cacheInv (runRepoCalls s calls) := by
  induction calls generalizing s with
  | nil => exact h
  | cons c t ih => exact ih _ (cacheInv_applyRepoCall s c h)

end device

/-! ## Lemmas on the handlers and the registry -/

namespace device

theorem DBGetByName_nameToAdapter (s : State) (name : String) :
    (DBGetByName s name).1.nameToAdapter = s.nameToAdapter := by
  cases h : (DBGetByName s name).2.1 with
  | none => rw [(DBGetByName_none s name h).1]
  | some rec => exact (DBGetByName_some s name rec h).2.2.2.2.2.2.1

theorem DBGetByUuid_nameToAdapter (s : State) (uuid : String) :
    (DBGetByUuid s uuid).1.nameToAdapter = s.nameToAdapter := by
  by_cases hu : uuid = ""
  · simp [DBGetByUuid, hu]
  · simp only [DBGetByUuid, hu, if_false]
    cases hl : s.uuidToName.load uuid with
    | some val => exact DBGetByName_nameToAdapter _ val
    | none =>
      rcases hrd : db.Read s (DbPathUuidToName uuid) with ⟨name, err⟩
      cases err with
      | some e => rfl
      | none => exact DBGetByName_nameToAdapter _ _

end device

namespace hwcomponents

theorem DBGetRecByUuid_nameToAdapter (s : State) (d u : String) :
    (DBGetRecByUuid s d u).1.nameToAdapter = s.nameToAdapter := by
  by_cases hc : d = "" ∨ u = ""
  · simp [DBGetRecByUuid, hc]
  · simp only [DBGetRecByUuid, hc, if_false]
    cases hg : compCache.get s d u with
    | some rec => rfl
    | none =>
      rcases hrd : db.Read s (DbPathUuidToRecord d u) with ⟨entry, err⟩
      cases err with
      | some e => rfl
      | none =>
        simp only []
        cases hdec : HwCompRecord.jsonUnmarshal entry with
        | error e => rfl
        | ok rec => rfl

end hwcomponents

namespace nbi

/-- The acquisition of an adapter fails: the registry has no adapter for the
name and the dial of the new one returns the error. -/
theorem getConnection_failed (s : State) (devRec : DeviceRecord) (e : String)
    (h : s.nameToAdapter.load devRec.Name = none) :
    ∃ s2, getConnection s devRec (some e) = (s2, none, some e) :=
  ⟨_, getConnection_miss_failed s devRec e h⟩

end nbi

/-! ## Lemmas on the streaming calls -/

namespace hwcomponents

mutual
theorem saveChild_not_panicked (d : String) : ∀ (c : Component) (s : State) (m : GoMap String),
    (∀ x ∈ c.reachable, x.attrs.Uuid ≠ none) → (saveChild s d m c).2.2 = false
  | .mk a cs, s, m, h => by
    have hcs : ∀ x ∈ reachableFrom cs, x.attrs.Uuid ≠ none := by
      intro x hx
      apply h
      simp [Component.reachable, hx]
    have hchild : none ∉ cs.map (fun c => c.attrs.Uuid) := by
      intro hmem
      obtain ⟨x, hx, hxe⟩ := List.mem_map.mp hmem
      exact hcs x (mem_reachableFrom_of_mem hx) hxe
    have hc := childUuids_some cs hchild
    by_cases hname : a.Name = ""
    · simp [saveChild, copyComponent, hname]
    · have hname2 : ¬ (copyComponent a).Name = "" := hname
      simp only [saveChild, hname2, if_false, hc]
      exact DBSaveHwCompsFromPhysicalInventory_not_panicked d cs _ _ hcs
theorem DBSaveHwCompsFromPhysicalInventory_not_panicked (d : String) :
    ∀ (cs : List Component) (s : State) (m : GoMap String),
    (∀ x ∈ reachableFrom cs, x.attrs.Uuid ≠ none) →
      (DBSaveHwCompsFromPhysicalInventory s d m cs).2.2 = false
  | [], s, m, _ => by simp [DBSaveHwCompsFromPhysicalInventory]
  | c :: rest, s, m, h => by
    have h1 : ∀ x ∈ c.reachable, x.attrs.Uuid ≠ none := by
      intro x hx
      apply h
      simp [reachableFrom, hx]
    have h2 : ∀ x ∈ reachableFrom rest, x.attrs.Uuid ≠ none := by
      intro x hx
      apply h
      simp [reachableFrom, hx]
    have e1 := saveChild_not_panicked d c s m h1
    rcases hsc : saveChild s d m c with ⟨s1, m1, p⟩
    rw [hsc] at e1
    simp only at e1
    subst e1
    simp only [DBSaveHwCompsFromPhysicalInventory, hsc]
    exact DBSaveHwCompsFromPhysicalInventory_not_panicked d rest s1 m1 h2
end

end hwcomponents

theorem Hardware.complete_iff (hw : Hardware) (h : hw.complete = true) :
    ∀ x ∈ reachableFrom hw.Root.Children, x.attrs.Uuid ≠ none := by
  intro x hx hnone
  have := List.all_eq_true.mp h x hx
  rw [hnone] at this
  simp at this

namespace grpc

theorem storeInventory_not_panicked (s : State) (devRec : DeviceRecord) (hw : Hardware)
    (h : hw.complete = true) : (storeInventory s devRec (some hw)).panicked = false := by
  have hall := Hardware.complete_iff hw h
  have hchild : none ∉ hw.Root.Children.map (fun c => c.attrs.Uuid) := by
    intro hmem
    obtain ⟨x, hx, hxe⟩ := List.mem_map.mp hmem
    exact hall x (mem_reachableFrom_of_mem hx) hxe
  have hc := childUuids_some hw.Root.Children hchild
  have hsaved : (device.DBSaveHwInfo s devRec hw).panicked = false := by
    simp only [device.DBSaveHwInfo, hc]
  have hcomps := hwcomponents.DBSaveHwCompsFromPhysicalInventory_not_panicked
    (device.DBSaveHwInfo s devRec hw).devRec.Uuid hw.Root.Children
    (device.DBSaveHwInfo s devRec hw).state [] hall
  simp only [storeInventory, hsaved, hcomps, Bool.false_eq_true, if_false]

theorem inventoryLoop_forwards (last : RecvEnd) (frames : List PhysicalInventoryResponse) :
    ∀ (s : State) (devRec : DeviceRecord) (sent : List PhysicalInventoryResponse),
    (specForwarded (fun f => f.Status) frames).all inventoryFrameComplete = true →
      (inventoryLoop last frames s devRec sent).sent
          = sent ++ specForwarded (fun f => f.Status) frames
      ∧ (inventoryLoop last frames s devRec sent).err
          = specReturned (fun f => f.Status) (fun f => f.ReasonDetail) last frames
      ∧ (inventoryLoop last frames s devRec sent).panicked = false := by
  induction frames with
  | nil =>
    intro s devRec sent _
    cases last <;> simp [inventoryLoop, specForwarded, specReturned]
  | cons f rest ih =>
    intro s devRec sent h
    by_cases hok : f.Status = .OK_STATUS
    · have hne : ¬ f.Status = .ERROR_STATUS := by rw [hok]; decide
      simp only [specForwarded, hne, if_false, List.all_cons, Bool.and_eq_true] at h
      obtain ⟨hf, hrest⟩ := h
      obtain ⟨hw, hinv, hcomplete⟩ : ∃ hw, f.Inventory = some hw ∧ hw.complete = true := by
        cases hi : f.Inventory with
        | none => simp [inventoryFrameComplete, hok, hi] at hf
        | some hw => exact ⟨hw, rfl, by simpa [inventoryFrameComplete, hok, hi] using hf⟩
      have hp := storeInventory_not_panicked s devRec hw hcomplete
      have := ih (storeInventory s devRec (some hw)).state
        (storeInventory s devRec (some hw)).devRec (sent ++ [f]) hrest
      simp only [inventoryLoop, hok, if_true, hinv, hp, Bool.false_eq_true, if_false,
        specForwarded, specReturned, hne]
      simpa using this
    · by_cases herr : f.Status = .ERROR_STATUS
      · simp [inventoryLoop, hok, herr, specForwarded, specReturned]
      · simp only [specForwarded, herr, if_false, List.all_cons, Bool.and_eq_true] at h
        have := ih s devRec (sent ++ [f]) h.2
        simp only [inventoryLoop, hok, herr, if_false, specForwarded, specReturned]
        simpa using this

theorem compInfoLoop_forwards (last : RecvEnd) (d : String)
    (frames : List HWComponentInfoGetResponse) :
    ∀ (s : State) (rec : HwCompRecord) (sent : List HWComponentInfoGetResponse),
    (specForwarded (fun f => f.Status) frames).all compInfoFrameComplete = true →
      (compInfoLoop last d frames s rec sent).sent
          = sent ++ specForwarded (fun f => f.Status) frames
      ∧ (compInfoLoop last d frames s rec sent).err
          = specReturned (fun f => f.Status) (fun f => f.ReasonDetail) last frames
      ∧ (compInfoLoop last d frames s rec sent).panicked = false := by
  induction frames with
  | nil =>
    intro s rec sent _
    cases last <;> simp [compInfoLoop, specForwarded, specReturned]
  | cons f rest ih =>
    intro s rec sent h
    by_cases hok : f.Status = .OK_STATUS
    · have hne : ¬ f.Status = .ERROR_STATUS := by rw [hok]; decide
      simp only [specForwarded, hne, if_false, List.all_cons, Bool.and_eq_true] at h
      obtain ⟨hf, hrest⟩ := h
      obtain ⟨comp, hcomp⟩ : ∃ comp, f.Component = some comp := by
        cases hi : f.Component with
        | none => simp [compInfoFrameComplete, hok, hi] at hf
        | some comp => exact ⟨comp, rfl⟩
      have hp : (storeComponent s d rec (some comp)).panicked = false := rfl
      have := ih (storeComponent s d rec (some comp)).state
        (storeComponent s d rec (some comp)).hwCompRec (sent ++ [f]) hrest
      simp only [compInfoLoop, hok, if_true, hcomp, hp, Bool.false_eq_true, if_false,
        specForwarded, specReturned, hne]
      simpa using this
    · by_cases herr : f.Status = .ERROR_STATUS
      · simp [compInfoLoop, hok, herr, specForwarded, specReturned]
      · simp only [specForwarded, herr, if_false, List.all_cons, Bool.and_eq_true] at h
        have := ih s rec (sent ++ [f]) h.2
        simp only [compInfoLoop, hok, herr, if_false, specForwarded, specReturned]
        simpa using this

theorem startLoop_forwards (last : RecvEnd) (frames : List StartManagingDeviceResponse) :
    ∀ (s : State) (devRec : DeviceRecord) (sent : List StartManagingDeviceResponse)
      (connMade : Bool),
    (specForwarded (fun f => f.Status) frames).all startFrameComplete = true →
      (startLoop last frames s devRec sent connMade).sent
          = sent ++ specForwarded (fun f => f.Status) frames
      ∧ (startLoop last frames s devRec sent connMade).err
          = specReturned (fun f => f.Status) (fun f => f.ReasonDetail) last frames
      ∧ (startLoop last frames s devRec sent connMade).panicked = false := by
  induction frames with
  | nil =>
    intro s devRec sent connMade _
    cases last <;> simp [startLoop, specForwarded, specReturned]
  | cons f rest ih =>
    intro s devRec sent connMade h
    by_cases hok : f.Status = .OK_STATUS
    · have hne : ¬ f.Status = .ERROR_STATUS := by rw [hok]; decide
      simp only [specForwarded, hne, if_false, List.all_cons, Bool.and_eq_true] at h
      obtain ⟨hf, hrest⟩ := h
      obtain ⟨u, hu⟩ : ∃ u, f.DeviceUuid = some u := by
        cases hi : f.DeviceUuid with
        | none => simp [startFrameComplete, hok, hi] at hf
        | some u => exact ⟨u, rfl⟩
      have := ih (device.DBAddUuidLookup (device.DBAddByName s { devRec with Uuid := u }).1
        { devRec with Uuid := u }).1 { devRec with Uuid := u } (sent ++ [f]) true hrest
      simp only [startLoop, hok, if_true, hu, specForwarded, specReturned, hne, if_false]
      simpa using this
    · by_cases herr : f.Status = .ERROR_STATUS
      · simp [startLoop, hok, herr, specForwarded, specReturned]
      · simp only [specForwarded, herr, if_false, List.all_cons, Bool.and_eq_true] at h
        have := ih s devRec (sent ++ [f]) connMade h.2
        simp only [startLoop, hok, herr, if_false, specForwarded, specReturned]
        simpa using this

end grpc

theorem specForwarded_of_no_error {F : Type} (status : F → Status) (frames : List F)
    (h : ∀ f ∈ frames, status f ≠ .ERROR_STATUS) : specForwarded status frames = frames := by
  induction frames with
  | nil => rfl
  | cons f rest ih =>
    have hf : ¬ status f = .ERROR_STATUS := h f (List.mem_cons_self _ _)
    simp only [specForwarded, hf, if_false]
    rw [ih (fun g hg => h g (List.mem_cons_of_mem _ hg))]

theorem specReturned_of_no_error {F : Type} (status : F → Status) (detail : F → String)
    (last : RecvEnd) (frames : List F) (h : ∀ f ∈ frames, status f ≠ .ERROR_STATUS) :
    specReturned status detail last frames = specReturned status detail last [] := by
  induction frames with
  | nil => rfl
  | cons f rest ih =>
    have hf : ¬ status f = .ERROR_STATUS := h f (List.mem_cons_self _ _)
    simp only [specReturned, hf, if_false] at ih ⊢
    exact ih (fun g hg => h g (List.mem_cons_of_mem _ hg))

/-! ## The members `name` and `children` of the document of a component record -/

theorem filter_fieldStr (k key v : String) (h : (k == key) = false) :
    (fieldStr k v).filter (fun p => p.1 == key) = [] := by
  unfold fieldStr; split <;> simp [h]

theorem filter_fieldInt (k key : String) (n : Int) (h : (k == key) = false) :
    (fieldInt k n).filter (fun p => p.1 == key) = [] := by
  unfold fieldInt; split <;> simp [h]

theorem filter_fieldSeq (k key : String) (n : Nat) (j : JVal) (h : (k == key) = false) :
    (fieldSeq k n j).filter (fun p => p.1 == key) = [] := by
  unfold fieldSeq; split <;> simp [h]

theorem filter_fieldBool (k key : String) (b : Bool) (h : (k == key) = false) :
    (fieldBool k b).filter (fun p => p.1 == key) = [] := by
  unfold fieldBool; split <;> simp [h]

theorem filter_fieldPtr (k key : String) (o : Option JVal) (h : (k == key) = false) :
    (fieldPtr k o).filter (fun p => p.1 == key) = [] := by
  cases o <;> simp [fieldPtr, h]

theorem HwCompRecord.jsonFields_name (r : HwCompRecord) :
    r.jsonFields.filter (fun p => p.1 == "name") = fieldStr "name" r.Name := by
  have hself : (fieldStr "name" r.Name).filter (fun p => p.1 == "name")
      = fieldStr "name" r.Name := by
    unfold fieldStr; split <;> simp
  simp only [HwCompRecord.jsonFields, List.filter_append, hself]
  rw [filter_fieldInt _ _ _ (by decide), filter_fieldStr "description" _ _ (by decide),
    filter_fieldStr "parent" _ _ (by decide), filter_fieldInt _ _ _ (by decide),
    filter_fieldSeq _ _ _ _ (by decide), filter_fieldStr "serial_num" _ _ (by decide),
    filter_fieldStr "mfg_name" _ _ (by decide), filter_fieldStr "model_name" _ _ (by decide),
    filter_fieldStr "alias" _ _ (by decide), filter_fieldStr "asset_id" _ _ (by decide),
    filter_fieldBool _ _ _ (by decide), filter_fieldPtr "mfg_date" _ _ (by decide),
    filter_fieldStr "uri" _ _ (by decide), filter_fieldStr "uuid" _ _ (by decide),
    filter_fieldPtr "state" _ _ (by decide), filter_fieldStr "specific" _ _ (by decide)]
  simp

theorem HwCompRecord.jsonFields_children (r : HwCompRecord) :
    r.jsonFields.filter (fun p => p.1 == "children")
      = fieldSeq "children" r.Children.length (.arr (r.Children.map JVal.str)) := by
  have hself : (fieldSeq "children" r.Children.length (.arr (r.Children.map JVal.str))).filter
      (fun p => p.1 == "children")
      = fieldSeq "children" r.Children.length (.arr (r.Children.map JVal.str)) := by
    unfold fieldSeq; split <;> simp
  simp only [HwCompRecord.jsonFields, List.filter_append, hself]
  rw [filter_fieldStr "name" _ _ (by decide), filter_fieldInt "class" _ _ (by decide),
    filter_fieldStr "description" _ _ (by decide),
    filter_fieldStr "parent" _ _ (by decide), filter_fieldInt "parent_rel_pos" _ _ (by decide),
    filter_fieldStr "serial_num" _ _ (by decide),
    filter_fieldStr "mfg_name" _ _ (by decide), filter_fieldStr "model_name" _ _ (by decide),
    filter_fieldStr "alias" _ _ (by decide), filter_fieldStr "asset_id" _ _ (by decide),
    filter_fieldBool _ _ _ (by decide), filter_fieldPtr "mfg_date" _ _ (by decide),
    filter_fieldStr "uri" _ _ (by decide), filter_fieldStr "uuid" _ _ (by decide),
    filter_fieldPtr "state" _ _ (by decide), filter_fieldStr "specific" _ _ (by decide)]
  simp

/-- Two component records with the same document have the same name. -/
theorem HwCompRecord.jsonMarshal_name {r1 r2 : HwCompRecord}
    (h : r1.jsonMarshal = r2.jsonMarshal) : r1.Name = r2.Name := by
  have hf : r1.jsonFields = r2.jsonFields := JVal.obj.inj h
  have hn := congrArg (fun l => l.filter (fun p => p.1 == "name")) hf
  simp only [HwCompRecord.jsonFields_name, fieldStr] at hn
  by_cases h1 : r1.Name = "" <;> by_cases h2 : r2.Name = "" <;>
    simp [h1, h2] at hn ⊢
  exact hn

/-- Two component records with the same document have the same children. -/
theorem HwCompRecord.jsonMarshal_children {r1 r2 : HwCompRecord}
    (h : r1.jsonMarshal = r2.jsonMarshal) : r1.Children = r2.Children := by
  have hf : r1.jsonFields = r2.jsonFields := JVal.obj.inj h
  have hn := congrArg (fun l => l.filter (fun p => p.1 == "children")) hf
  simp only [HwCompRecord.jsonFields_children, fieldSeq] at hn
  have inj : Function.Injective JVal.str := fun a b e => JVal.str.inj e
  by_cases h1 : r1.Children.length = 0 <;> by_cases h2 : r2.Children.length = 0 <;>
    simp [h1, h2] at hn
  · rw [List.length_eq_zero] at h1 h2
    rw [h1, h2]
  · exact List.map_injective_iff.mpr inj hn

/-! ## The children of a reachable component are reachable -/

mutual
theorem mem_reachable_children : ∀ (c x y : Component),
    x ∈ c.reachable → y ∈ x.Children → y ∈ c.reachable
  | .mk a cs, x, y, hx, hy => by
    simp only [Component.reachable, List.mem_cons] at hx ⊢
    rcases hx with hx | hx
    · right
      rw [hx] at hy
      exact mem_reachableFrom_of_mem hy
    · right
      exact mem_reachableFrom_children cs x y hx hy
theorem mem_reachableFrom_children : ∀ (cs : List Component) (x y : Component),
    x ∈ reachableFrom cs → y ∈ x.Children → y ∈ reachableFrom cs
  | [], x, y, hx, _ => by simp [reachableFrom] at hx
  | c :: rest, x, y, hx, hy => by
    simp only [reachableFrom, List.mem_append] at hx ⊢
    rcases hx with hx | hx
    · left
      exact mem_reachable_children c x y hx hy
    · right
      exact mem_reachableFrom_children rest x y hx hy
end

theorem named_of_not_mem (l : List Component)
    (hnames : "" ∉ l.map (fun c => c.attrs.Name))
    (hcarry : none ∉ l.map (fun c => c.attrs.Uuid)) :
    ∀ x ∈ l, x.attrs.Name ≠ "" ∧ x.attrs.Uuid ≠ none := by
  intro x hx
  constructor
  · intro e
    apply hnames
    rw [← e]
    exact List.mem_map_of_mem (fun c => c.attrs.Name) hx
  · intro e
    apply hcarry
    rw [← e]
    exact List.mem_map_of_mem (fun c => c.attrs.Uuid) hx

theorem uuid_ne_of_not_mem (l : List Component)
    (huuids : "" ∉ l.map (fun c => c.attrs.Uuid.getD "")) :
    ∀ x ∈ l, x.attrs.Uuid.getD "" ≠ "" := by
  intro x hx e
  have hmem : x.attrs.Uuid.getD "" ∈ l.map (fun c => c.attrs.Uuid.getD "") :=
    List.mem_map_of_mem (fun c => c.attrs.Uuid.getD "") hx
  have key : ∀ v : String, v ∈ l.map (fun c => c.attrs.Uuid.getD "") → v ≠ "" := by
    intro v hv ev
    subst ev
    exact huuids hv
  exact key _ hmem e

/-! ## Lemmas on the rows of the component repository -/

namespace hwcomponents

theorem DbPathUuidToRecord_inj (d : String) {a b : String} :
    DbPathUuidToRecord d a = DbPathUuidToRecord d b ↔ a = b := by
  simp [DbPathUuidToRecord, DbPrefix, String.ext_iff]

theorem DbPathUuidToRecord_ne_index (d u : String) :
    DbPathUuidToRecord d u ≠ DbPathNameToUuid d := by
  simp [DbPathUuidToRecord, DbPathNameToUuid, DbPrefix, String.ext_iff]

theorem DbPathUuidToRecord_ne_name (d u n : String) :
    DbPathUuidToRecord d u ≠ device.DbPathNameToRecord n := by
  simp [DbPathUuidToRecord, DbPrefix, device.DbPathNameToRecord, String.ext_iff]

/-- The row of a key after `DBAddByUuid`. -/
theorem row_DBAddByUuid (s : State) (r : HwCompRecord) (d key : String)
    (hkv : s.kvClient.isSome = true) (hr : r.Uuid ≠ "") (hd : d ≠ "") :
    (DBAddByUuid s r d).1.row key
      = if key = DbPathUuidToRecord d r.Uuid then some (.json r.jsonMarshal) else s.row key := by
  have hcond : ¬ (r.Uuid = "" ∨ d = "") := by
    intro h
    rcases h with h | h
    · exact hr h
    · exact hd h
  cases hrows : s.kvClient with
  | none => rw [hrows] at hkv; simp at hkv
  | some rows =>
    simp only [DBAddByUuid, hcond, if_false, compCache.store,
      db.Put_some s rows _ _ hrows (DbPathUuidToRecord_ne_empty d r.Uuid), State.row, hrows]
    by_cases hk : key = DbPathUuidToRecord d r.Uuid
    · subst hk
      simp [GoMap.load_store_self]
    · simp only [hk, if_false]
      exact GoMap.load_store_ne rows _ hk

theorem row_DBAddByUuid_refused (s : State) (r : HwCompRecord) (d : String)
    (h : r.Uuid = "" ∨ d = "") : (DBAddByUuid s r d).1 = s := by
  simp [DBAddByUuid, h]

/-- The row of a key after one component was saved. -/
theorem row_saveOne (d : String) (hd : d ≠ "") (q : State × GoMap String)
    (hkv : q.1.kvClient.isSome = true) (x : Component) (key : String) :
    (saveOne d q x).1.row key
      = if (recordOf x).Uuid ≠ "" ∧ key = DbPathUuidToRecord d (recordOf x).Uuid
        then some (.json (recordOf x).jsonMarshal) else q.1.row key := by
  show (DBAddByUuid q.1 (recordOf x) d).1.row key = _
  by_cases hx : (recordOf x).Uuid = ""
  · rw [row_DBAddByUuid_refused _ _ _ (Or.inl hx)]
    simp [hx]
  · rw [row_DBAddByUuid _ _ _ _ hkv hx hd]
    simp [hx]

/-- A row of a component after the components of a list were saved: the row it
was, or the document of the record of a component of the list with that uuid. -/
theorem foldl_saveOne_row (d : String) (hd : d ≠ "") (l : List Component)
    (p : State × GoMap String) (hkv : p.1.kvClient.isSome = true) (u : String) :
    (l.foldl (saveOne d) p).1.row (DbPathUuidToRecord d u) = p.1.row (DbPathUuidToRecord d u)
    ∨ ∃ c ∈ l, c.attrs.Uuid.getD "" = u
        ∧ (l.foldl (saveOne d) p).1.row (DbPathUuidToRecord d u)
            = some (.json (recordOf c).jsonMarshal) := by
  induction l using List.reverseRecOn with
  | nil => exact Or.inl rfl
  | append_singleton init x ih =>
    have hkv2 : (init.foldl (saveOne d) p).1.kvClient.isSome = true := by
      rw [foldl_saveOne_kvClient]; exact hkv
    have hrow2 := row_saveOne d hd (init.foldl (saveOne d) p) hkv2 x (DbPathUuidToRecord d u)
    rw [List.foldl_append, List.foldl_cons, List.foldl_nil]
    by_cases hk : (recordOf x).Uuid ≠ ""
        ∧ DbPathUuidToRecord d u = DbPathUuidToRecord d (recordOf x).Uuid
    · rw [if_pos hk] at hrow2
      have hux : u = (recordOf x).Uuid := (DbPathUuidToRecord_inj d).mp hk.2
      exact Or.inr ⟨x, by simp, hux.symm, hrow2⟩
    · rw [if_neg hk] at hrow2
      rcases ih with h | ⟨c, hc, hcu, hrow⟩
      · exact Or.inl (hrow2.trans h)
      · exact Or.inr ⟨c, List.mem_append_left _ hc, hcu, hrow2.trans hrow⟩

/-- The row of a component of the list, its uuid being non-empty, holds the
document of the record of a component of the list with that uuid. -/
theorem foldl_saveOne_row_mem (d : String) (hd : d ≠ "") (l : List Component)
    (p : State × GoMap String) (hkv : p.1.kvClient.isSome = true) (x : Component)
    (hx : x ∈ l) (hu : x.attrs.Uuid.getD "" ≠ "") :
    ∃ c ∈ l, c.attrs.Uuid.getD "" = x.attrs.Uuid.getD ""
      ∧ (l.foldl (saveOne d) p).1.row (DbPathUuidToRecord d (x.attrs.Uuid.getD ""))
          = some (.json (recordOf c).jsonMarshal) := by
  induction l using List.reverseRecOn with
  | nil => cases hx
  | append_singleton init y ih =>
    have hkv2 : (init.foldl (saveOne d) p).1.kvClient.isSome = true := by
      rw [foldl_saveOne_kvClient]; exact hkv
    have hrow2 := row_saveOne d hd (init.foldl (saveOne d) p) hkv2 y
      (DbPathUuidToRecord d (x.attrs.Uuid.getD ""))
    rw [List.foldl_append, List.foldl_cons, List.foldl_nil]
    by_cases hy : (recordOf y).Uuid = x.attrs.Uuid.getD ""
    · have hk : (recordOf y).Uuid ≠ ""
          ∧ DbPathUuidToRecord d (x.attrs.Uuid.getD "")
            = DbPathUuidToRecord d (recordOf y).Uuid := ⟨by rw [hy]; exact hu, by rw [hy]⟩
      rw [if_pos hk] at hrow2
      exact ⟨y, by simp, hy, hrow2⟩
    · have hxi : x ∈ init := by
        rcases List.mem_append.mp hx with h | h
        · exact h
        · have : x = y := List.mem_singleton.mp h
          subst this
          exact absurd rfl hy
      obtain ⟨c, hc, hcu, hrow⟩ := ih hxi
      have hk : ¬ ((recordOf y).Uuid ≠ ""
          ∧ DbPathUuidToRecord d (x.attrs.Uuid.getD "")
            = DbPathUuidToRecord d (recordOf y).Uuid) :=
        fun e => hy ((DbPathUuidToRecord_inj d).mp e.2).symm
      rw [if_neg hk] at hrow2
      exact ⟨c, List.mem_append_left _ hc, hcu, hrow2.trans hrow⟩

/-- Saving the components of a list keeps the rows that were there. -/
theorem foldl_saveOne_row_isSome (d : String) (hd : d ≠ "") (l : List Component)
    (p : State × GoMap String) (hkv : p.1.kvClient.isSome = true) (u : String)
    (h : (p.1.row (DbPathUuidToRecord d u)).isSome = true) :
    ((l.foldl (saveOne d) p).1.row (DbPathUuidToRecord d u)).isSome = true := by
  rcases foldl_saveOne_row d hd l p hkv u with h1 | ⟨c, _, _, h1⟩
  · rw [h1]; exact h
  · rw [h1]; rfl

theorem row_DBAddNameToUuidlookup_component (s : State) (d : String) (m : GoMap String)
    (u : String) :
    (DBAddNameToUuidlookup s d m).1.row (DbPathUuidToRecord d u)
      = s.row (DbPathUuidToRecord d u) := by
  by_cases hcond : d = "" ∨ m.length = 0
  · simp only [DBAddNameToUuidlookup, hcond, if_true]
  · cases hkv : s.kvClient with
    | none => simp only [DBAddNameToUuidlookup, hcond, if_false, db.Put, hkv, State.row]
    | some rows =>
      have hd : d ≠ "" := fun e => hcond (Or.inl e)
      have hm : m.length ≠ 0 := fun e => hcond (Or.inr e)
      rw [DBAddNameToUuidlookup_some s rows d m hkv hd hm]
      simp only [State.row, hkv]
      exact GoMap.load_store_ne rows _ (DbPathUuidToRecord_ne_index d u)

theorem row_DBAddNameToUuidlookup_index (s : State) (d : String) (m : GoMap String)
    (hkv : s.kvClient.isSome = true) (hd : d ≠ "") (hm : m.length ≠ 0) :
    (DBAddNameToUuidlookup s d m).1.row (DbPathNameToUuid d)
      = some (.json (stringsToJson m)) := by
  cases hrows : s.kvClient with
  | none => rw [hrows] at hkv; simp at hkv
  | some rows =>
    rw [DBAddNameToUuidlookup_some s rows d m hrows hd hm]
    simp [State.row, GoMap.load_store_self]

end hwcomponents

namespace device

theorem row_DBAddByName_component (s : State) (rec : DeviceRecord) (d u : String) :
    (DBAddByName s rec).1.row (hwcomponents.DbPathUuidToRecord d u)
      = s.row (hwcomponents.DbPathUuidToRecord d u) := by
  by_cases hn : rec.Name = ""
  · simp [DBAddByName, hn]
  · cases hkv : s.kvClient with
    | none => simp [DBAddByName, hn, db.Put, hkv, State.row]
    | some rows =>
      rw [DBAddByName_some s rows rec hkv hn]
      simp only [State.row, hkv]
      exact GoMap.load_store_ne rows _ (hwcomponents.DbPathUuidToRecord_ne_name d u rec.Name)

/-- What `DBSaveHwInfo` does when every child of the root carries a uuid. -/
theorem DBSaveHwInfo_of_children (s : State) (devRec : DeviceRecord) (hw : Hardware)
    (hchild : none ∉ hw.Root.Children.map (fun c => c.attrs.Uuid)) :
    (DBSaveHwInfo s devRec hw).panicked = false
    ∧ (DBSaveHwInfo s devRec hw).devRec.Uuid = devRec.Uuid
    ∧ (DBSaveHwInfo s devRec hw).devRec.Children
        = hw.Root.Children.map (fun c => c.attrs.Uuid.getD "")
    ∧ (DBSaveHwInfo s devRec hw).state.kvClient.isSome = s.kvClient.isSome
    ∧ ∀ d u, (DBSaveHwInfo s devRec hw).state.row (hwcomponents.DbPathUuidToRecord d u)
        = s.row (hwcomponents.DbPathUuidToRecord d u) := by
  have hc := childUuids_some _ hchild
  simp only [DBSaveHwInfo, hc]
  exact ⟨trivial, trivial, by simp, DBAddByName_kvClient_isSome _ _,
    fun d u => row_DBAddByName_component _ _ d u⟩

end device

namespace grpc

/-- The state and the record after an inventory in which every component below
the root has a name and carries a uuid was stored. -/
theorem storeInventory_eq (s : State) (devRec : DeviceRecord) (hw : Hardware)
    (hall : ∀ x ∈ reachableFrom hw.Root.Children, x.attrs.Name ≠ "" ∧ x.attrs.Uuid ≠ none) :
    storeInventory s devRec (some hw)
      = { state := (hwcomponents.DBAddNameToUuidlookup
            ((reachableFrom hw.Root.Children).foldl (hwcomponents.saveOne devRec.Uuid)
              ((device.DBSaveHwInfo s devRec hw).state, [])).1 devRec.Uuid
            ((reachableFrom hw.Root.Children).foldl (hwcomponents.saveOne devRec.Uuid)
              ((device.DBSaveHwInfo s devRec hw).state, [])).2).1,
          devRec := (device.DBSaveHwInfo s devRec hw).devRec } := by
  have hchild : none ∉ hw.Root.Children.map (fun c => c.attrs.Uuid) := by
    intro hmem
    obtain ⟨x, hx, hxe⟩ := List.mem_map.mp hmem
    exact (hall x (mem_reachableFrom_of_mem hx)).2 hxe
  obtain ⟨hp, hu, _, _, _⟩ := device.DBSaveHwInfo_of_children s devRec hw hchild
  have hsim := hwcomponents.DBSaveHwCompsFromPhysicalInventory_eq
    (device.DBSaveHwInfo s devRec hw).devRec.Uuid hw.Root.Children
    (device.DBSaveHwInfo s devRec hw).state [] hall
  simp only [storeInventory, hp, hsim, Bool.false_eq_true, if_false]
  rw [hu]

/-- The rows of the components of a device after an inventory was stored: each
holds what it held, or the document of the record of a component of the
inventory with that uuid; and the row of a component of the inventory holds
such a document. -/
theorem storeInventory_rows (s : State) (devRec : DeviceRecord) (hw : Hardware)
    (hkv : s.kvClient.isSome = true) (hd : devRec.Uuid ≠ "")
    (hall : ∀ x ∈ reachableFrom hw.Root.Children, x.attrs.Name ≠ "" ∧ x.attrs.Uuid ≠ none) :
    (∀ u, (storeInventory s devRec (some hw)).state.row
            (hwcomponents.DbPathUuidToRecord devRec.Uuid u)
          = s.row (hwcomponents.DbPathUuidToRecord devRec.Uuid u)
        ∨ ∃ c ∈ reachableFrom hw.Root.Children, c.attrs.Uuid.getD "" = u
          ∧ (storeInventory s devRec (some hw)).state.row
              (hwcomponents.DbPathUuidToRecord devRec.Uuid u)
            = some (.json (hwcomponents.recordOf c).jsonMarshal))
    ∧ (∀ x ∈ reachableFrom hw.Root.Children, x.attrs.Uuid.getD "" ≠ "" →
        ∃ c ∈ reachableFrom hw.Root.Children,
          c.attrs.Uuid.getD "" = x.attrs.Uuid.getD ""
          ∧ (storeInventory s devRec (some hw)).state.row
              (hwcomponents.DbPathUuidToRecord devRec.Uuid (x.attrs.Uuid.getD ""))
            = some (.json (hwcomponents.recordOf c).jsonMarshal))
    ∧ (∀ c ∈ reachableFrom hw.Root.Children,
        (reachableFrom hw.Root.Children).map (fun c => c.attrs.Name) |>.Nodup →
          (storeInventory s devRec (some hw)).state.row
              (hwcomponents.DbPathNameToUuid devRec.Uuid)
            = some (.json (stringsToJson (hwcomponents.DBSaveHwCompsFromPhysicalInventory
                (device.DBSaveHwInfo s devRec hw).state devRec.Uuid [] hw.Root.Children).2.1))
          ∧ (hwcomponents.DBSaveHwCompsFromPhysicalInventory
                (device.DBSaveHwInfo s devRec hw).state devRec.Uuid [] hw.Root.Children).2.1.load
              c.attrs.Name = some (c.attrs.Uuid.getD ""))
    ∧ (storeInventory s devRec (some hw)).devRec.Children
        = hw.Root.Children.map (fun c => c.attrs.Uuid.getD "") := by
  have hchild : none ∉ hw.Root.Children.map (fun c => c.attrs.Uuid) := by
    intro hmem
    obtain ⟨x, hx, hxe⟩ := List.mem_map.mp hmem
    exact (hall x (mem_reachableFrom_of_mem hx)).2 hxe
  obtain ⟨_, _, hch, hkv1, hrows1⟩ := device.DBSaveHwInfo_of_children s devRec hw hchild
  have hkv2 : (device.DBSaveHwInfo s devRec hw).state.kvClient.isSome = true := by
    rw [hkv1]; exact hkv
  rw [storeInventory_eq s devRec hw hall]
  refine ⟨?_, ?_, ?_, hch⟩
  · intro u
    show (hwcomponents.DBAddNameToUuidlookup _ _ _).1.row _ = _ ∨ _
    rcases hwcomponents.foldl_saveOne_row devRec.Uuid hd (reachableFrom hw.Root.Children)
      ((device.DBSaveHwInfo s devRec hw).state, []) hkv2 u with h | ⟨c, hc, hcu, h⟩
    · left
      rw [hwcomponents.row_DBAddNameToUuidlookup_component, h, hrows1]
    · right
      refine ⟨c, hc, hcu, ?_⟩
      show (hwcomponents.DBAddNameToUuidlookup _ _ _).1.row _ = _
      rw [hwcomponents.row_DBAddNameToUuidlookup_component, h]
  · intro x hx hxu
    obtain ⟨c, hc, hcu, h⟩ := hwcomponents.foldl_saveOne_row_mem devRec.Uuid hd
      (reachableFrom hw.Root.Children) ((device.DBSaveHwInfo s devRec hw).state, []) hkv2 x hx hxu
    refine ⟨c, hc, hcu, ?_⟩
    show (hwcomponents.DBAddNameToUuidlookup _ _ _).1.row _ = _
    rw [hwcomponents.row_DBAddNameToUuidlookup_component, h]
  · intro c hc hnd
    rw [hwcomponents.DBSaveHwCompsFromPhysicalInventory_eq devRec.Uuid hw.Root.Children
      (device.DBSaveHwInfo s devRec hw).state [] hall]
    refine ⟨?_, hwcomponents.foldl_saveOne_load devRec.Uuid (reachableFrom hw.Root.Children)
      ((device.DBSaveHwInfo s devRec hw).state, []) hnd c hc⟩
    have hkv3 := hwcomponents.foldl_saveOne_kvClient devRec.Uuid (reachableFrom hw.Root.Children)
      ((device.DBSaveHwInfo s devRec hw).state, [])
    exact hwcomponents.row_DBAddNameToUuidlookup_index _ _ _ (by rw [hkv3]; exact hkv2) hd
      (hwcomponents.foldl_saveOne_length devRec.Uuid _ _ (List.ne_nil_of_mem hc))

end grpc

/-! ## Lemmas on the listing of the rows under `DevRec/DevName/` -/

namespace device

/-- On a store where a key that contains the text of the prefix starts with it,
the rows that the KV client lists are the rows under the prefix. -/
theorem filter_contains_eq_under (rows : GoMap KVValue)
    (hlayout : ∀ p ∈ rows, stringsContains p.1 (DbPathNameToRecord "") = true →
      specUnderDevName p.1 = true) :
    rows.filter (fun p => stringsContains p.1 (DbPathNameToRecord "")) = specDevNameRows rows := by
  unfold specDevNameRows
  apply List.filter_congr
  intro p hp
  cases hc : stringsContains p.1 (DbPathNameToRecord "") with
  | true => exact (hlayout p hp hc).symm
  | false =>
    cases hu : specUnderDevName p.1 with
    | false => rfl
    | true =>
      have hcon : stringsContains p.1 (DbPathNameToRecord "") = true :=
        containsChars_of_start _ _ (List.isPrefixOf_iff_prefix.mp hu)
      rw [hc] at hcon
      cases hcon

theorem DBGetAll_none (s : State) (rows : GoMap KVValue) (hkv : s.kvClient = some rows)
    (hlen : (rows.filter
      (fun p => stringsContains p.1 (DbPathNameToRecord ""))).length = 0) :
    DBGetAll s = ([], some "key didn't find") := by
  simp only [DBGetAll, db.ReadAll, hkv, mockKVClient.List, hlen, ne_eq, not_true_eq_false,
    if_false]

end device

/-! # The claims -/

/-! ## C1 -/

/-- Claim C1, as stated, fails in two ways. For a non-empty new name, a stream
that delivers an OK frame with the uuid `u-1` and then an OK frame with the uuid
`u-2` leaves the row of the name with the uuid `u-2`, not `u-1`. For a stream of
one OK frame, a request with the empty name (it passes the validation) leaves no
row of the name. -/
theorem C1_counterexample :
    ¬ (∀ (s : State) (req : ModifiableComponent) (env : nbi.StartEnv) (u : String)
        (f : StartManagingDeviceResponse),
        s.kvClient.isSome = true → (device.DBGetByName s req.Name).2.1 = none →
        (nbi.validateUri env.net req.Uri).1 = true → env.dial = none →
        env.stream.openErr = none → f ∈ env.stream.frames →
        (∀ g ∈ env.stream.frames, g.Status = .OK_STATUS ∧ g.DeviceUuid ≠ none) →
        f.DeviceUuid = some u → u ≠ "" → req.Name ≠ "" →
        (nbi.StartManagingDevice s req env).connMade = true
        ∧ (nbi.StartManagingDevice s req env).state.row (device.DbPathNameToRecord req.Name)
            = some (.json (DeviceRecord.jsonMarshal
                { Uuid := u, Name := req.Name, Class := req.Class,
                  ParentRelPos := req.ParentRelPos, Alias := req.Alias, AssetId := req.AssetId,
                  Uri := req.Uri, State := some { AdminState := req.AdminState } }))
        ∧ (nbi.StartManagingDevice s req env).state.row (device.DbPathUuidToName u)
            = some (.text req.Name))
    ∧ ¬ (∀ (s : State) (req : ModifiableComponent) (env : nbi.StartEnv) (u : String)
        (f : StartManagingDeviceResponse),
        s.kvClient.isSome = true → (device.DBGetByName s req.Name).2.1 = none →
        (nbi.validateUri env.net req.Uri).1 = true → env.dial = none →
        env.stream.openErr = none → env.stream.frames = [f] →
        f.Status = .OK_STATUS → f.DeviceUuid = some u → u ≠ "" →
        (nbi.StartManagingDevice s req env).connMade = true
        ∧ (nbi.StartManagingDevice s req env).state.row (device.DbPathNameToRecord req.Name)
            = some (.json (DeviceRecord.jsonMarshal
                { Uuid := u, Name := req.Name, Class := req.Class,
                  ParentRelPos := req.ParentRelPos, Alias := req.Alias, AssetId := req.AssetId,
                  Uri := req.Uri, State := some { AdminState := req.AdminState } }))
        ∧ (nbi.StartManagingDevice s req env).state.row (device.DbPathUuidToName u)
            = some (.text req.Name)) := by
  constructor
  · intro h
    have h1 := (h { kvClient := some [] } { Name := "olt-1", Uri := "10.0.0.1:50051" }
      { net := { ParseIP := fun ip => ip == "10.0.0.1", LookupIP := fun _ => false },
        stream := { frames := [{ Status := .OK_STATUS, DeviceUuid := some "u-1" },
                               { Status := .OK_STATUS, DeviceUuid := some "u-2" }] } }
      "u-1" { Status := .OK_STATUS, DeviceUuid := some "u-1" }
      (by decide) (by decide) (by decide) rfl rfl (List.Mem.head _)
      (by decide) rfl (by decide) (by decide)).2.1
    have h2 : (nbi.StartManagingDevice { kvClient := some [] }
        { Name := "olt-1", Uri := "10.0.0.1:50051" }
        { net := { ParseIP := fun ip => ip == "10.0.0.1", LookupIP := fun _ => false },
          stream := { frames := [{ Status := .OK_STATUS, DeviceUuid := some "u-1" },
                                 { Status := .OK_STATUS, DeviceUuid := some "u-2" }] } }).state.row
          (device.DbPathNameToRecord "olt-1")
        = some (.json (DeviceRecord.jsonMarshal
            { Uuid := "u-2", Name := "olt-1", Uri := "10.0.0.1:50051", State := some {} })) := by
      rfl
    rw [h2] at h1
    simp only [Option.some.injEq, KVValue.json.injEq] at h1
    have h3 : (DeviceRecord.jsonUnmarshal (.json (DeviceRecord.jsonMarshal
          { Uuid := "u-2", Name := "olt-1", Uri := "10.0.0.1:50051",
            State := some {} }))).toOption
        = (DeviceRecord.jsonUnmarshal (.json (DeviceRecord.jsonMarshal
          { Uuid := "u-1", Name := "olt-1", Uri := "10.0.0.1:50051",
            State := some {} }))).toOption :=
      congrArg (fun j => (DeviceRecord.jsonUnmarshal (.json j)).toOption) h1
    revert h3
    decide
  · intro h
    have h1 := (h { kvClient := some [] } { Name := "", Uri := "10.0.0.1:50051" }
      { net := { ParseIP := fun ip => ip == "10.0.0.1", LookupIP := fun _ => false },
        stream := { frames := [{ Status := .OK_STATUS, DeviceUuid := some "u-1" }] } }
      "u-1" { Status := .OK_STATUS, DeviceUuid := some "u-1" }
      (by decide) (by decide) (by decide) rfl rfl rfl rfl rfl (by decide)).2.1
    have h2 : (nbi.StartManagingDevice { kvClient := some [] }
        { Name := "", Uri := "10.0.0.1:50051" }
        { net := { ParseIP := fun ip => ip == "10.0.0.1", LookupIP := fun _ => false },
          stream := { frames := [{ Status := .OK_STATUS, DeviceUuid := some "u-1" }] } }).state.row
          (device.DbPathNameToRecord "") = none := by
      rfl
    rw [h2] at h1
    cases h1

/-- Claim C1, amended: a `StartManagingDevice` request with a valid uri and a
new, non-empty name `n`, for which an adapter is acquired, with the KV client
initialised, and whose southbound stream is consumed up to a last OK frame that
carries the non-empty uuid `u` (no ERROR frame and no OK frame without uuid
before it, no OK frame after it): the adapter reports `connMade = true`, the
handler does not panic, and afterwards the KV row `DevRec/DevName/n` holds the
document of the record of the request with name `n`, uuid `u` and the requested
uri, and the row `DevRec/DevUuid/u` holds `n`. -/
theorem C1_start_persists (s : State) (req : ModifiableComponent) (env : nbi.StartEnv)
    (u : String) (pre post : List StartManagingDeviceResponse) (f : StartManagingDeviceResponse)
    (hkv : s.kvClient.isSome = true) (hname : req.Name ≠ "")
    (hnew : (device.DBGetByName s req.Name).2.1 = none)
    (huri : (nbi.validateUri env.net req.Uri).1 = true)
    (hconn : s.nameToAdapter.load req.Name ≠ none ∨ env.dial = none)
    (hopen : env.stream.openErr = none)
    (hframes : env.stream.frames = pre ++ f :: post)
    (hpre : ∀ g ∈ pre, g.Status ≠ .ERROR_STATUS ∧ (g.Status = .OK_STATUS → g.DeviceUuid ≠ none))
    (hf : f.Status = .OK_STATUS ∧ f.DeviceUuid = some u) (hu : u ≠ "")
    (hpost : ∀ g ∈ post, g.Status ≠ .OK_STATUS) :
    (nbi.StartManagingDevice s req env).connMade = true
    ∧ (nbi.StartManagingDevice s req env).panicked = false
    ∧ (nbi.StartManagingDevice s req env).state.row (device.DbPathNameToRecord req.Name)
        = some (.json (DeviceRecord.jsonMarshal
            { Uuid := u, Name := req.Name, Class := req.Class,
              ParentRelPos := req.ParentRelPos, Alias := req.Alias, AssetId := req.AssetId,
              Uri := req.Uri, State := some { AdminState := req.AdminState } }))
    ∧ (nbi.StartManagingDevice s req env).state.row (device.DbPathUuidToName u)
        = some (.text req.Name) := by
  obtain ⟨hs, _⟩ := device.DBGetByName_none s req.Name hnew
  rcases hv : nbi.validateUri env.net req.Uri with ⟨b, e⟩
  rw [hv] at huri
  simp only at huri
  subst huri
  rcases hg : device.DBGetByName s req.Name with ⟨s1, rec, err⟩
  rw [hg] at hs hnew
  simp only at hs hnew
  subst hs; subst hnew
  have hval : nbi.validateStartManagingDeviceReq env.net s1 req
      = (s1, { Status := .ERROR_STATUS, DeviceUuid := some "" }, true) := by
    simp only [nbi.validateStartManagingDeviceReq, hv, hg]
  -- the adapter is acquired on a state whose KV client is the one of `s1`
  have hget : ∃ s2 adapter e2,
      nbi.getConnection s1
        { Name := req.Name, Class := req.Class, ParentRelPos := req.ParentRelPos,
          Alias := req.Alias, AssetId := req.AssetId, Uri := req.Uri,
          State := some { AdminState := req.AdminState } } env.dial = (s2, some adapter, e2)
      ∧ s2.kvClient = s1.kvClient := by
    cases hl : s1.nameToAdapter.load req.Name with
    | some val => exact ⟨s1, val, none, by simp [nbi.getConnection, hl], rfl⟩
    | none =>
      cases hconn with
      | inl h => exact absurd hl h
      | inr h =>
        exact ⟨{ s1 with
                  nameToAdapter :=
                    s1.nameToAdapter.store req.Name (Client.mk s1.created req.Uri),
                  created := s1.created + 1, dialled := s1.created :: s1.dialled },
          Client.mk s1.created req.Uri, none,
          by simp only [nbi.getConnection, hl, h], rfl⟩
  obtain ⟨s2, adapter, e2, hget, hkv2⟩ := hget
  have hkv3 : (device.DBAddByName s2
      { Name := req.Name, Class := req.Class, ParentRelPos := req.ParentRelPos,
        Alias := req.Alias, AssetId := req.AssetId, Uri := req.Uri,
        State := some { AdminState := req.AdminState } }).1.kvClient.isSome = true := by
    rw [device.DBAddByName_kvClient_isSome, hkv2]; exact hkv
  obtain ⟨h1, h2, h3, h4⟩ := grpc.StartManagingDevice_last_ok _
    { Name := req.Name, Class := req.Class, ParentRelPos := req.ParentRelPos,
      Alias := req.Alias, AssetId := req.AssetId, Uri := req.Uri,
      State := some { AdminState := req.AdminState } } env.stream u pre post f hkv3 hname hopen
    hframes hpre hf hu hpost
  simp only [nbi.StartManagingDevice, hval, device.NewDeviceRecord, hget, h1, h2, if_false,
    not_true_eq_false, Bool.false_eq_true]
  exact ⟨trivial, trivial, h3, h4⟩

/-- Witness of C1: the first scenario, `olt-1` at `10.0.0.1:50051`, the device
answering with one OK frame that carries `u-1`. -/
theorem C1_start_persists_witness :
    (nbi.StartManagingDevice { kvClient := some [] } { Name := "olt-1", Uri := "10.0.0.1:50051" }
        { net := { ParseIP := fun ip => ip == "10.0.0.1", LookupIP := fun _ => false },
          stream := { frames := [{ Status := .OK_STATUS, DeviceUuid := some "u-1" }] } }).state.row
        (device.DbPathUuidToName "u-1") = some (.text "olt-1") :=
  (C1_start_persists { kvClient := some [] } { Name := "olt-1", Uri := "10.0.0.1:50051" }
    { net := { ParseIP := fun ip => ip == "10.0.0.1", LookupIP := fun _ => false },
      stream := { frames := [{ Status := .OK_STATUS, DeviceUuid := some "u-1" }] } }
    "u-1" [] [] { Status := .OK_STATUS, DeviceUuid := some "u-1" }
    (by decide) (by decide) (by decide) (by decide) (Or.inr rfl) rfl rfl
    (by simp) ⟨rfl, rfl⟩ (by decide) (by simp)).2.2.2

/-! ## C2 -/

/-- Claim C2, as stated, fails: a record whose per-entity level map is allocated
but empty is stored without error, and once the cache entry is cleared
`DBGetByName` returns a record that differs from it (the map comes back `nil`). -/
theorem C2_counterexample :
    ¬ (∀ (s : State) (r : DeviceRecord), r.Name ≠ "" → r.wellFormed = true →
        (device.DBAddByName s r).2 = none →
        (device.DBGetByName (device.DBAddByName s r).1 r.Name).2 = (some r, none)
        ∧ (device.DBGetByName
            (device.ClearCacheEntry (device.DBAddByName s r).1 r.Name "") r.Name).2
              = (some r, none)) := by
  intro h
  have h1 := (h { kvClient := some [] }
    { Name := "olt-1", Logging := { LoggableEntities := some [] } }
    (by decide) (by decide) (by decide)).2
  revert h1
  decide

/-- Claim C2, amended: after `DBAddByName(r)` succeeds for a record with a
non-empty name, `DBGetByName(r.Name)` returns `r` without error from the name
cache; once the cache entry is cleared it returns without error the record
decoded from the KV row, which is `r` except that an allocated but empty
per-entity level map is read back as `nil`; so it is `r` whenever that map is
`nil` or non-empty. -/
theorem C2_get_after_add (s : State) (r : DeviceRecord) (hname : r.Name ≠ "")
    (hwf : r.wellFormed = true) (hadd : (device.DBAddByName s r).2 = none) :
    (device.DBGetByName (device.DBAddByName s r).1 r.Name).2 = (some r, none)
    ∧ (device.DBGetByName
        (device.ClearCacheEntry (device.DBAddByName s r).1 r.Name "") r.Name).2
          = (some r.readBack, none)
    ∧ (r.Logging.LoggableEntities ≠ some [] → r.readBack = r) := by
  cases hkv : s.kvClient with
  | none => simp [device.DBAddByName, hname, db.Put, hkv] at hadd
  | some rows =>
    have hput := db.Put_some s rows (device.DbPathNameToRecord r.Name) (.json r.jsonMarshal) hkv
      (device.DbPathNameToRecord_ne_empty _)
    refine ⟨?_, ?_, ?_⟩
    · simp [device.DBAddByName, device.DBGetByName, hname, hput, GoMap.load_store_self]
    · simp [device.DBAddByName, device.DBGetByName, device.ClearCacheEntry, hname, hput,
        GoMap.load_delete_self, db.Read, mockKVClient.Get, GoMap.load_store_self,
        DeviceRecord.jsonUnmarshal_jsonMarshal r hwf]
    · intro hle
      simp [DeviceRecord.readBack, hle]

/-- Witness of C2: the record of the test `mockModifiableComp("1")`. -/
theorem C2_get_after_add_witness :
    (device.DBGetByName (device.DBAddByName { kvClient := some [] }
        { Name := "olt-name-1", Uri := "127.0.0.1" }).1 "olt-name-1").2
      = (some { Name := "olt-name-1", Uri := "127.0.0.1" }, none)
    ∧ (device.DBGetByName
        (device.ClearCacheEntry (device.DBAddByName { kvClient := some [] }
          { Name := "olt-name-1", Uri := "127.0.0.1" }).1 "olt-name-1" "") "olt-name-1").2
          = (some (DeviceRecord.readBack { Name := "olt-name-1", Uri := "127.0.0.1" }), none)
    ∧ ((({ Name := "olt-name-1", Uri := "127.0.0.1" } : DeviceRecord)).Logging.LoggableEntities
          ≠ some [] →
        DeviceRecord.readBack { Name := "olt-name-1", Uri := "127.0.0.1" }
          = { Name := "olt-name-1", Uri := "127.0.0.1" }) :=
  C2_get_after_add { kvClient := some [] } { Name := "olt-name-1", Uri := "127.0.0.1" }
    (by decide) (by decide) (by decide)

/-! ## C3 -/

/-- Claim C3, as stated, fails: after the successful sequence that persists the
pair (`olt-1`, `u-1`) and then the pair (`olt-2`, `u-1`), (two names for the
device that reports `u-1`), `DBGetByName("olt-1")` and `DBGetByUuid("u-1")`
return different records. -/
theorem C3_counterexample :
    ¬ (∀ (s : State) (ops : List device.Write) (r : DeviceRecord),
        (device.runWrites s ops).isSome = true → device.Write.addUuidLookup r ∈ ops →
        ((device.runWrites s ops).getD s).row (device.DbPathUuidToName r.Uuid)
            = some (.text r.Name)
        ∧ (device.DBGetByName ((device.runWrites s ops).getD s) r.Name).2
            = (device.DBGetByUuid ((device.runWrites s ops).getD s) r.Uuid).2) := by
  intro h
  have h1 := (h { kvClient := some [] }
    [.addByName { Name := "olt-1", Uuid := "u-1" }, .addUuidLookup { Name := "olt-1", Uuid := "u-1" },
     .addByName { Name := "olt-2", Uuid := "u-1" }, .addUuidLookup { Name := "olt-2", Uuid := "u-1" }]
    { Name := "olt-1", Uuid := "u-1" } (by decide)
    (List.Mem.tail _ (List.Mem.head _))).2
  revert h1
  decide

/-- Claim C3, amended: after a successful sequence of `DBAddByName` and
`DBAddUuidLookup` calls, for every uuid and the name of the last lookup
persisted for it, the lookup row of the uuid exists and holds that name,
`DBGetByUuid(uuid)` returns what `DBGetByName(name)` returns, and this is,
without error, the record of the last `DBAddByName` call for the name when there
was one. -/
theorem C3_latest_lookup (s : State) (ops : List device.Write) (uuid name : String)
    (hrun : (device.runWrites s ops).isSome = true)
    (hlast : device.lastLookup uuid ops = some name) :
    ((device.runWrites s ops).getD s).row (device.DbPathUuidToName uuid) = some (.text name)
    ∧ (device.DBGetByUuid ((device.runWrites s ops).getD s) uuid).2
        = (device.DBGetByName ((device.runWrites s ops).getD s) name).2
    ∧ (match device.lastByName name ops with
        | some rec =>
          (device.DBGetByName ((device.runWrites s ops).getD s) name).2 = (some rec, none)
        | none => True) := by
  cases hs : device.runWrites s ops with
  | none => rw [hs] at hrun; simp at hrun
  | some s' =>
    simp only [Option.getD_some]
    obtain ⟨hu, hrow, hc⟩ := device.runWrites_lookup s s' ops uuid name hs hlast
    refine ⟨hrow, ?_, ?_⟩
    · simp only [device.DBGetByUuid, hu, if_false, hc]
      exact device.DBGetByName_uuidToName s' _ name
    · cases hrec : device.lastByName name ops with
      | none => trivial
      | some rec =>
        obtain ⟨hn, hl⟩ := device.runWrites_byName s s' ops name rec hs hrec
        simp [device.DBGetByName, hn, hl]

/-- Witness of C3: the sequence of the test `Test_PositiveTcaseDBAddUuidLookup`. -/
theorem C3_latest_lookup_witness :
    ((device.runWrites { kvClient := some [] }
        [.addByName { Name := "olt-name-1" },
         .addUuidLookup { Name := "olt-name-1", Uuid := "olt-uuid-1" },
         .addByName { Name := "olt-name-1", Uuid := "olt-uuid-1" }]).getD
          { kvClient := some [] }).row (device.DbPathUuidToName "olt-uuid-1")
        = some (.text "olt-name-1")
    ∧ (device.DBGetByUuid ((device.runWrites { kvClient := some [] }
        [.addByName { Name := "olt-name-1" },
         .addUuidLookup { Name := "olt-name-1", Uuid := "olt-uuid-1" },
         .addByName { Name := "olt-name-1", Uuid := "olt-uuid-1" }]).getD
          { kvClient := some [] }) "olt-uuid-1").2
        = (device.DBGetByName ((device.runWrites { kvClient := some [] }
        [.addByName { Name := "olt-name-1" },
         .addUuidLookup { Name := "olt-name-1", Uuid := "olt-uuid-1" },
         .addByName { Name := "olt-name-1", Uuid := "olt-uuid-1" }]).getD
          { kvClient := some [] }) "olt-name-1").2
    ∧ (match device.lastByName "olt-name-1"
        [.addByName { Name := "olt-name-1" },
         .addUuidLookup { Name := "olt-name-1", Uuid := "olt-uuid-1" },
         .addByName { Name := "olt-name-1", Uuid := "olt-uuid-1" }] with
        | some rec =>
          (device.DBGetByName ((device.runWrites { kvClient := some [] }
            [.addByName { Name := "olt-name-1" },
             .addUuidLookup { Name := "olt-name-1", Uuid := "olt-uuid-1" },
             .addByName { Name := "olt-name-1", Uuid := "olt-uuid-1" }]).getD
              { kvClient := some [] }) "olt-name-1").2 = (some rec, none)
        | none => True) :=
  C3_latest_lookup { kvClient := some [] }
    [.addByName { Name := "olt-name-1" },
     .addUuidLookup { Name := "olt-name-1", Uuid := "olt-uuid-1" },
     .addByName { Name := "olt-name-1", Uuid := "olt-uuid-1" }] "olt-uuid-1" "olt-name-1"
    (by decide) (by decide)

/-! ## C4 -/

/-- Claim C4: after `DBDelRecord(r)` has returned without error, `DBGetByName`
of the name of `r` and `DBGetByUuid` of its uuid each return a `nil` record with
a non-`nil` error, and for whichever of the name and the uuid is not empty the
KV row and the cache entry are gone, also when the other one is empty. -/
theorem C4_delete_then_get (s : State) (r : DeviceRecord)
    (hdel : (device.DBDelRecord s r).2 = none) :
    (device.DBGetByName (device.DBDelRecord s r).1 r.Name).2.1 = none
    ∧ (device.DBGetByName (device.DBDelRecord s r).1 r.Name).2.2 ≠ none
    ∧ (device.DBGetByUuid (device.DBDelRecord s r).1 r.Uuid).2.1 = none
    ∧ (device.DBGetByUuid (device.DBDelRecord s r).1 r.Uuid).2.2 ≠ none
    ∧ (r.Name ≠ "" →
        (device.DBDelRecord s r).1.row (device.DbPathNameToRecord r.Name) = none
        ∧ (device.DBDelRecord s r).1.nameToRec.load r.Name = none)
    ∧ (r.Uuid ≠ "" →
        (device.DBDelRecord s r).1.row (device.DbPathUuidToName r.Uuid) = none
        ∧ (device.DBDelRecord s r).1.uuidToName.load r.Uuid = none) := by
  by_cases hn : r.Name = "" <;> by_cases hu : r.Uuid = ""
  · simp [device.DBDelRecord, device.DBGetByName, device.DBGetByUuid, hn, hu]
  · cases hkv : s.kvClient with
    | none => simp [device.DBDelRecord, hn, hu, db.Del, hkv] at hdel
    | some rows =>
      have hd := db.Del_some s rows (device.DbPathUuidToName r.Uuid) hkv
        (device.DbPathUuidToName_ne_empty _)
      simp [device.DBDelRecord, device.DBGetByName, device.DBGetByUuid, hn, hu, hd,
        GoMap.load_delete_self, db.Read, mockKVClient.Get, State.row]
  · cases hkv : s.kvClient with
    | none => simp [device.DBDelRecord, hn, hu, db.Del, hkv] at hdel
    | some rows =>
      have hd := db.Del_some s rows (device.DbPathNameToRecord r.Name) hkv
        (device.DbPathNameToRecord_ne_empty _)
      simp [device.DBDelRecord, device.DBGetByName, device.DBGetByUuid, hn, hu, hd,
        GoMap.load_delete_self, db.Read, mockKVClient.Get, State.row]
  · cases hkv : s.kvClient with
    | none => simp [device.DBDelRecord, hn, hu, db.Del, hkv] at hdel
    | some rows =>
      have hd := db.Del_some s rows (device.DbPathNameToRecord r.Name) hkv
        (device.DbPathNameToRecord_ne_empty _)
      have hd2 := db.Del_some
        { s with kvClient := some (rows.delete (device.DbPathNameToRecord r.Name)),
                 nameToRec := s.nameToRec.delete r.Name }
        (rows.delete (device.DbPathNameToRecord r.Name)) (device.DbPathUuidToName r.Uuid) rfl
        (device.DbPathUuidToName_ne_empty _)
      simp [device.DBDelRecord, device.DBGetByName, device.DBGetByUuid, hn, hu, hd, hd2,
        GoMap.load_delete_self, db.Read, mockKVClient.Get, State.row,
        GoMap.load_delete_ne _ (device.DbPathNameToRecord_ne_uuid r.Name r.Uuid)]

/-- Witness of C4: the store of the test `Test_PositiveTcaseDBDelRecord`, its
record with a uuid lookup added. -/
theorem C4_delete_then_get_witness :
    (device.DBGetByName (device.DBDelRecord
        ((device.runWrites { kvClient := some [] }
          [.addByName { Name := "olt-name-1", Uuid := "olt-uuid-1" },
           .addUuidLookup { Name := "olt-name-1", Uuid := "olt-uuid-1" }]).getD {})
        { Name := "olt-name-1", Uuid := "olt-uuid-1" }).1 "olt-name-1").2.1 = none
    ∧ (device.DBGetByName (device.DBDelRecord
        ((device.runWrites { kvClient := some [] }
          [.addByName { Name := "olt-name-1", Uuid := "olt-uuid-1" },
           .addUuidLookup { Name := "olt-name-1", Uuid := "olt-uuid-1" }]).getD {})
        { Name := "olt-name-1", Uuid := "olt-uuid-1" }).1 "olt-name-1").2.2 ≠ none
    ∧ (device.DBGetByUuid (device.DBDelRecord
        ((device.runWrites { kvClient := some [] }
          [.addByName { Name := "olt-name-1", Uuid := "olt-uuid-1" },
           .addUuidLookup { Name := "olt-name-1", Uuid := "olt-uuid-1" }]).getD {})
        { Name := "olt-name-1", Uuid := "olt-uuid-1" }).1 "olt-uuid-1").2.1 = none
    ∧ (device.DBGetByUuid (device.DBDelRecord
        ((device.runWrites { kvClient := some [] }
          [.addByName { Name := "olt-name-1", Uuid := "olt-uuid-1" },
           .addUuidLookup { Name := "olt-name-1", Uuid := "olt-uuid-1" }]).getD {})
        { Name := "olt-name-1", Uuid := "olt-uuid-1" }).1 "olt-uuid-1").2.2 ≠ none
    ∧ ("olt-name-1" ≠ "" →
        (device.DBDelRecord
          ((device.runWrites { kvClient := some [] }
            [.addByName { Name := "olt-name-1", Uuid := "olt-uuid-1" },
             .addUuidLookup { Name := "olt-name-1", Uuid := "olt-uuid-1" }]).getD {})
          { Name := "olt-name-1", Uuid := "olt-uuid-1" }).1.row
            (device.DbPathNameToRecord "olt-name-1") = none
        ∧ (device.DBDelRecord
          ((device.runWrites { kvClient := some [] }
            [.addByName { Name := "olt-name-1", Uuid := "olt-uuid-1" },
             .addUuidLookup { Name := "olt-name-1", Uuid := "olt-uuid-1" }]).getD {})
          { Name := "olt-name-1", Uuid := "olt-uuid-1" }).1.nameToRec.load "olt-name-1" = none)
    ∧ ("olt-uuid-1" ≠ "" →
        (device.DBDelRecord
          ((device.runWrites { kvClient := some [] }
            [.addByName { Name := "olt-name-1", Uuid := "olt-uuid-1" },
             .addUuidLookup { Name := "olt-name-1", Uuid := "olt-uuid-1" }]).getD {})
          { Name := "olt-name-1", Uuid := "olt-uuid-1" }).1.row
            (device.DbPathUuidToName "olt-uuid-1") = none
        ∧ (device.DBDelRecord
          ((device.runWrites { kvClient := some [] }
            [.addByName { Name := "olt-name-1", Uuid := "olt-uuid-1" },
             .addUuidLookup { Name := "olt-name-1", Uuid := "olt-uuid-1" }]).getD {})
          { Name := "olt-name-1", Uuid := "olt-uuid-1" }).1.uuidToName.load "olt-uuid-1"
            = none) :=
  C4_delete_then_get
    ((device.runWrites { kvClient := some [] }
      [.addByName { Name := "olt-name-1", Uuid := "olt-uuid-1" },
       .addUuidLookup { Name := "olt-name-1", Uuid := "olt-uuid-1" }]).getD {})
    { Name := "olt-name-1", Uuid := "olt-uuid-1" } (by decide)

/-! ## C5 -/

/-- Claim C5: let `d` be the record that `DBGetByName` returns for its own name
(a managed device), with the KV client initialised, and, in case `d` has no uuid
yet, no row keyed by the empty uuid in the store. After
`StopManagingDevice(d.Name)`, whatever the dial and the southbound call did, the
KV store has no row under `HwCompRec/{d.Uuid}/`, no row `DevRec/DevName/{d.Name}`
and no row `DevRec/DevUuid/{d.Uuid}`, the connection map has no entry for
`d.Name`, and `Disconnect` was called once, on the adapter that was acquired,
and not at all when none was. -/
theorem C5_stop_cleans_up (s : State) (d : DeviceRecord) (env : nbi.StopEnv)
    (hkv : s.kvClient.isSome = true)
    (hd : (device.DBGetByName s d.Name).2.1 = some d)
    (huuid : d.Uuid = "" → s.row (device.DbPathUuidToName "") = none
      ∧ ∀ key, (hwcomponents.DbPrefix "" ++ "/").data <+: key.data → s.row key = none) :
    (∀ key, (hwcomponents.DbPrefix d.Uuid ++ "/").data <+: key.data →
        (nbi.StopManagingDevice s { Name := d.Name } env).state.row key = none)
    ∧ (nbi.StopManagingDevice s { Name := d.Name } env).state.row
        (device.DbPathNameToRecord d.Name) = none
    ∧ (nbi.StopManagingDevice s { Name := d.Name } env).state.row
        (device.DbPathUuidToName d.Uuid) = none
    ∧ (nbi.StopManagingDevice s { Name := d.Name } env).state.nameToAdapter.load d.Name = none
    ∧ (nbi.StopManagingDevice s { Name := d.Name } env).state.disconnected
        = (match (nbi.getConnection (device.DBGetByName s d.Name).1 d env.dial).2.1 with
          | some adapter => adapter.id :: s.disconnected
          | none => s.disconnected)
    ∧ (nbi.StopManagingDevice s { Name := d.Name } env).panicked = false := by
  obtain ⟨hn, _, _, hkv1, _, _, _, _, _, hdisc⟩ := device.DBGetByName_some s d.Name d hd
  rcases hg : device.DBGetByName s d.Name with ⟨s1, rec, err⟩
  rw [hg] at hd hkv1 hdisc
  simp only at hd hkv1 hdisc
  subst hd
  -- the state `t` after the adapter block
  have ht : ∃ t : State, ∃ resp err',
      (match nbi.getConnection s1 d env.dial with
        | (s2, some adapter, _) =>
          (nbi.delConn (grpc.Disconnect s2 adapter) d.Name, env.reply.1, env.reply.2)
        | (s2, none, err) => (s2, some {}, err)) = (t, resp, err')
      ∧ t.kvClient = s1.kvClient ∧ t.nameToAdapter.load d.Name = none
      ∧ t.disconnected = (match (nbi.getConnection s1 d env.dial).2.1 with
          | some adapter => adapter.id :: s1.disconnected
          | none => s1.disconnected) := by
    cases hl : s1.nameToAdapter.load d.Name with
    | some val =>
      refine ⟨nbi.delConn (grpc.Disconnect s1 val) d.Name, env.reply.1, env.reply.2, ?_, ?_, ?_, ?_⟩
      · simp only [nbi.getConnection, hl]
      · simp [nbi.delConn, hn, grpc.Disconnect]
      · simp [nbi.delConn, hn, grpc.Disconnect, GoMap.load_delete_self]
      · simp [nbi.delConn, hn, grpc.Disconnect, nbi.getConnection, hl]
    | none =>
      cases hdial : env.dial with
      | some e =>
        refine ⟨{ s1 with created := s1.created + 1, dialled := s1.created :: s1.dialled },
          some {}, some e, ?_, rfl, hl, ?_⟩
        · simp only [nbi.getConnection, hl, hdial]
        · simp [nbi.getConnection, hl, hdial]
      | none =>
        refine ⟨nbi.delConn (grpc.Disconnect
            { s1 with nameToAdapter := s1.nameToAdapter.store d.Name (Client.mk s1.created d.Uri),
                      created := s1.created + 1, dialled := s1.created :: s1.dialled }
            (Client.mk s1.created d.Uri)) d.Name, env.reply.1, env.reply.2, ?_, ?_, ?_, ?_⟩
        · simp only [nbi.getConnection, hl, hdial]
        · simp [nbi.delConn, hn, grpc.Disconnect]
        · simp [nbi.delConn, hn, grpc.Disconnect, GoMap.load_delete_self]
        · simp [nbi.delConn, hn, grpc.Disconnect, nbi.getConnection, hl, hdial]
  obtain ⟨t, resp, err', hr, htkv, htad, htdis⟩ := ht
  have hout : nbi.StopManagingDevice s { Name := d.Name } env
      = { state := (device.DBDelRecord (hwcomponents.DBDelAllHwComponents t d.Uuid).1 d).1,
          resp := resp, err := err' } := by
    simp only [nbi.StopManagingDevice, hg, hr]
  have htsome : t.kvClient.isSome = true := by rw [htkv, hkv1]; exact hkv
  have hrow : ∀ key, s.row key = none → t.row key = none := by
    intro key h
    simpa [State.row, htkv, hkv1] using h
  obtain ⟨hf1, hf2, hf3⟩ := hwcomponents.DBDelAllHwComponents_fields t d.Uuid
  obtain ⟨hr1, hr2, hr3, hr4⟩ := device.DBDelRecord_rows
    (hwcomponents.DBDelAllHwComponents t d.Uuid).1 d (hf1.trans htsome) hn
  rw [hout]
  refine ⟨?_, hr1, ?_, ?_, ?_, rfl⟩
  · intro key hpre
    apply device.DBDelRecord_row_of_none
    by_cases hu : d.Uuid = ""
    · apply hwcomponents.DBDelAllHwComponents_row_of_none
      rw [hu] at hpre
      exact hrow key ((huuid hu).2 key hpre)
    · exact hwcomponents.DBDelAllHwComponents_row_under t d.Uuid key hu hpre
  · by_cases hu : d.Uuid = ""
    · apply device.DBDelRecord_row_of_none
      apply hwcomponents.DBDelAllHwComponents_row_of_none
      rw [hu]
      exact hrow _ (huuid hu).1
    · exact hr2 hu
  · simp only [hr3, hf2]; exact htad
  · simp only [hr4, hf3, htdis, hdisc]

/-- Witness of C5: the store after the first scenario (the record `olt-1` with
uuid `u-1`, its lookup, one component row and a connected adapter), then
`StopManagingDevice("olt-1")`. -/
theorem C5_stop_cleans_up_witness :
    (nbi.StopManagingDevice
        { kvClient := some
            [(hwcomponents.DbPathUuidToRecord "u-1" "c-1", .json (.obj [("name", .str "c1")]))],
          nameToAdapter := [("olt-1", { id := 0, uri := "10.0.0.1:50051" })], created := 1,
          nameToRec := [("olt-1", { Name := "olt-1", Uuid := "u-1", Uri := "10.0.0.1:50051" })] }
        { Name := "olt-1" } {}).state.row (device.DbPathNameToRecord "olt-1") = none :=
  (C5_stop_cleans_up
    { kvClient := some
        [(hwcomponents.DbPathUuidToRecord "u-1" "c-1", .json (.obj [("name", .str "c1")]))],
      nameToAdapter := [("olt-1", { id := 0, uri := "10.0.0.1:50051" })], created := 1,
      nameToRec := [("olt-1", { Name := "olt-1", Uuid := "u-1", Uri := "10.0.0.1:50051" })] }
    { Name := "olt-1", Uuid := "u-1", Uri := "10.0.0.1:50051" } {}
    (by decide) (by decide) (by intro h; exact absurd h (by decide))).2.1

/-! ## C6 -/

/-- Claim C6: when `DBGetByName` finds no device record for the name of the
request (the empty name included), `StopManagingDevice` returns a response with
status ERROR and reason UNKNOWN_DEVICE, and the whole state (KV store, device
and component caches, connection map, adapters made, dialled and disconnected)
is what it was. -/
theorem C6_stop_unknown_device (s : State) (name : String) (env : nbi.StopEnv)
    (h : (device.DBGetByName s name).2.1 = none) :
    (nbi.StopManagingDevice s { Name := name } env).resp.map (fun r => (r.Status, r.Reason))
        = some (Status.ERROR_STATUS, StopReason.UNKNOWN_DEVICE)
    ∧ (nbi.StopManagingDevice s { Name := name } env).state = s
    ∧ (nbi.StopManagingDevice s { Name := name } env).panicked = false := by
  obtain ⟨hs, he⟩ := device.DBGetByName_none s name h
  rcases hg : device.DBGetByName s name with ⟨s1, rec, err⟩
  rw [hg] at hs he h
  simp only at hs he h
  subst hs; subst h
  cases err with
  | none => exact absurd rfl he
  | some e => simp [nbi.StopManagingDevice, hg, nbi.errRespStopManagingDevice]

/-- Witness of C6: the empty repository and the name `olt-1`. -/
theorem C6_stop_unknown_device_witness :
    (nbi.StopManagingDevice { kvClient := some [] } { Name := "olt-1" } {}).resp.map
        (fun r => (r.Status, r.Reason))
        = some (Status.ERROR_STATUS, StopReason.UNKNOWN_DEVICE)
    ∧ (nbi.StopManagingDevice { kvClient := some [] } { Name := "olt-1" } {}).state
        = { kvClient := some [] }
    ∧ (nbi.StopManagingDevice { kvClient := some [] } { Name := "olt-1" } {}).panicked = false :=
  C6_stop_unknown_device { kvClient := some [] } "olt-1" {} (by decide)

/-! ## C7 -/

/-- Claim C7, the code at the failing input: for a new name, a valid uri and a
dial that succeeds, a southbound stream that ends without any frame makes the
adapter return `connMade = false` with a `nil` error; the handler undoes the
record, disconnects and removes the adapter from the map, then panics in
`errRespStartManagingDevice` on `err.Error()`: no frame is sent. -/
theorem C7_stream_without_frame_panics :
    (nbi.StartManagingDevice { kvClient := some [] } { Name := "olt-1", Uri := "10.0.0.1:50051" }
        { net := { ParseIP := fun ip => ip == "10.0.0.1", LookupIP := fun _ => false },
          stream := { frames := [], last := .eof } }).panicked = true
    ∧ (nbi.StartManagingDevice { kvClient := some [] }
        { Name := "olt-1", Uri := "10.0.0.1:50051" }
        { net := { ParseIP := fun ip => ip == "10.0.0.1", LookupIP := fun _ => false },
          stream := { frames := [], last := .eof } }).sent = []
    ∧ (nbi.StartManagingDevice { kvClient := some [] }
        { Name := "olt-1", Uri := "10.0.0.1:50051" }
        { net := { ParseIP := fun ip => ip == "10.0.0.1", LookupIP := fun _ => false },
          stream := { frames := [], last := .eof } }).err = none := by
  decide

/-! ## C8 -/

/-- Claim C8: a `StartManagingDevice` request with a valid uri whose name is the
name of an existing device record `r` is answered with the single frame
`ERROR`, `DEVICE_ALREADY_MANAGED` and the detail that quotes the uuid and the
uri of `r`; the KV store and the connection map are what they were, no adapter
is dialled, and `DBGetByName` still returns `r`. -/
theorem C8_duplicate_name (s : State) (req : ModifiableComponent) (env : nbi.StartEnv)
    (r : DeviceRecord) (huri : (nbi.validateUri env.net req.Uri).1 = true)
    (hrec : (device.DBGetByName s req.Name).2.1 = some r) :
    (nbi.StartManagingDevice s req env).sent
        = [{ Status := .ERROR_STATUS, Reason := .DEVICE_ALREADY_MANAGED, DeviceUuid := some "",
             ReasonDetail := "device already exists and managed with uuid " ++ r.Uuid
               ++ " and uri " ++ r.Uri }]
    ∧ (nbi.StartManagingDevice s req env).state.kvClient = s.kvClient
    ∧ (nbi.StartManagingDevice s req env).state.nameToAdapter = s.nameToAdapter
    ∧ (nbi.StartManagingDevice s req env).state.dialled = s.dialled
    ∧ (device.DBGetByName (nbi.StartManagingDevice s req env).state req.Name).2 = (some r, none)
    ∧ (nbi.StartManagingDevice s req env).err ≠ none
    ∧ (nbi.StartManagingDevice s req env).panicked = false := by
  obtain ⟨hn, _, hload, hkv, _, _, had, _, hdial, _⟩ :=
    device.DBGetByName_some s req.Name r hrec
  rcases hv : nbi.validateUri env.net req.Uri with ⟨b, e⟩
  rw [hv] at huri
  simp only at huri
  subst huri
  rcases hg : device.DBGetByName s req.Name with ⟨s1, rec, err⟩
  rw [hg] at hrec hload hkv had hdial
  simp only at hrec hload hkv had hdial
  subst hrec
  have key : nbi.StartManagingDevice s req env
      = { state := s1,
          sent := [{ Status := .ERROR_STATUS, Reason := .DEVICE_ALREADY_MANAGED,
                     DeviceUuid := some "",
                     ReasonDetail := "device already exists and managed with uuid " ++ r.Uuid
                       ++ " and uri " ++ r.Uri }],
          err := some "failed at validateStartManagingDeviceReq" } := by
    simp only [nbi.StartManagingDevice, nbi.validateStartManagingDeviceReq, hv, hg]
  rw [key]
  refine ⟨rfl, hkv, had, hdial, ?_, by simp, rfl⟩
  simp [device.DBGetByName, hn, hload]

/-- Witness of C8: the second request of the scenario, on the store that the
first one leaves. -/
theorem C8_duplicate_name_witness :
    (nbi.StartManagingDevice
        ((device.runWrites { kvClient := some [] }
          [.addByName { Name := "olt-1", Uuid := "u-1", Uri := "10.0.0.1:50051" },
           .addUuidLookup { Name := "olt-1", Uuid := "u-1", Uri := "10.0.0.1:50051" }]).getD {})
        { Name := "olt-1", Uri := "10.0.0.2:50051" }
        { net := { ParseIP := fun ip => ip == "10.0.0.2", LookupIP := fun _ => false } }).sent
      = [{ Status := .ERROR_STATUS, Reason := .DEVICE_ALREADY_MANAGED, DeviceUuid := some "",
           ReasonDetail := "device already exists and managed with uuid u-1 and uri 10.0.0.1:50051" }] :=
  (C8_duplicate_name
    ((device.runWrites { kvClient := some [] }
      [.addByName { Name := "olt-1", Uuid := "u-1", Uri := "10.0.0.1:50051" },
       .addUuidLookup { Name := "olt-1", Uuid := "u-1", Uri := "10.0.0.1:50051" }]).getD {})
    { Name := "olt-1", Uri := "10.0.0.2:50051" }
    { net := { ParseIP := fun ip => ip == "10.0.0.2", LookupIP := fun _ => false } }
    { Name := "olt-1", Uuid := "u-1", Uri := "10.0.0.1:50051" } (by decide) (by decide)).1

/-! ## C9 -/

/-- Claim C9, as stated, fails: for the uri `notanip:port` of the claim, with a
host part that is no IP address and does not resolve, the detail of the
response is the one of the host check, which comes first, not the one of the
port. -/
theorem C9_counterexample :
    ¬ (∀ (net : Net) (s : State) (req : ModifiableComponent) (host port : String),
        req.Uri = host ++ ":" ++ port → ':' ∉ host.data → ':' ∉ port.data →
        nbi.Atoi port = none →
        (nbi.StartManagingDevice s req { net := net }).sent
          = [{ Status := .ERROR_STATUS, Reason := .INVALID_PARAMS, DeviceUuid := some "",
               ReasonDetail := "Port number " ++ port ++ " needs to be an integer" }]) := by
  intro h
  have h1 := h { ParseIP := fun _ => false, LookupIP := fun _ => false } { kvClient := some [] }
    { Name := "olt-1", Uri := "notanip:port" } "notanip" "port"
    (by decide) (by decide) (by decide) (by decide)
  revert h1
  decide

/-- Claim C9, amended: a `StartManagingDevice` request whose uri is `host:port`,
with a host part that is a parseable IP address or a resolvable host name and a
port part that is not an integer, is answered with the single frame `ERROR`,
`INVALID_PARAMS`, `Port number <port> needs to be an integer`, and the state
(the KV store with it) is what it was. -/
theorem C9_port_not_integer (s : State) (req : ModifiableComponent) (env : nbi.StartEnv)
    (host port : String) (huri : req.Uri = host ++ ":" ++ port)
    (hh : ':' ∉ host.data) (hp : ':' ∉ port.data)
    (hhost : env.net.ParseIP host = true ∨ env.net.LookupIP host = true)
    (hport : nbi.Atoi port = none) :
    (nbi.StartManagingDevice s req env).sent
        = [{ Status := .ERROR_STATUS, Reason := .INVALID_PARAMS, DeviceUuid := some "",
             ReasonDetail := "Port number " ++ port ++ " needs to be an integer" }]
    ∧ (nbi.StartManagingDevice s req env).state = s
    ∧ (nbi.StartManagingDevice s req env).panicked = false := by
  have hdata : req.Uri.data = host.data ++ ':' :: port.data := by
    rw [huri]; simp [String.data_append]
  have hc : stringsContains req.Uri ":" = true := by
    unfold stringsContains
    rw [hdata]
    exact nbi.containsChars_colon _ _
  have hsplit : nbi.splitColon req.Uri.data = [host.data, port.data] := by
    rw [hdata, nbi.splitColon_append _ _ hh, nbi.splitColon_no_colon _ hp]
  have hhost' : ¬ (env.net.ParseIP host = false ∧ env.net.LookupIP host = false) := by
    intro h
    cases hhost with
    | inl h1 => rw [h.1] at h1; cases h1
    | inr h2 => rw [h.2] at h2; cases h2
  have hv : nbi.validateUri env.net req.Uri
      = (false, some ("Port number " ++ port ++ " needs to be an integer")) := by
    simp only [nbi.validateUri, hc, hsplit, not_true_eq_false, if_false, hhost', hport, if_true]
  simp [nbi.StartManagingDevice, nbi.validateStartManagingDeviceReq, hv]

/-- Witness of C9: the uri `notanip:port` on a network that resolves `notanip`. -/
theorem C9_port_not_integer_witness :
    (nbi.StartManagingDevice { kvClient := some [] } { Name := "olt-1", Uri := "notanip:port" }
        { net := { ParseIP := fun _ => false, LookupIP := fun h => h == "notanip" } }).sent
      = [{ Status := .ERROR_STATUS, Reason := .INVALID_PARAMS, DeviceUuid := some "",
           ReasonDetail := "Port number " ++ "port" ++ " needs to be an integer" }] :=
  (C9_port_not_integer { kvClient := some [] } { Name := "olt-1", Uri := "notanip:port" }
    { net := { ParseIP := fun _ => false, LookupIP := fun h => h == "notanip" } }
    "notanip" "port" (by decide) (by decide) (by decide) (by decide) (by decide)).1

/-! ## C10 -/

/-- Claim C10, the code at the failing input: the uri `127.0.0.1:80:junk` is not
of the form `host:port` with an integer port (no cut of it at a colon gives an
integer port), and `validateUri` accepts it with a `nil` error: it checks the
first two of the parts that the colons separate and ignores the rest. -/
theorem C10_accepts_trailing_part :
    nbi.validateUri { ParseIP := fun ip => ip == "127.0.0.1", LookupIP := fun _ => false }
      "127.0.0.1:80:junk" = (true, none)
    ∧ nbi.specValidUri { ParseIP := fun ip => ip == "127.0.0.1", LookupIP := fun _ => false }
      "127.0.0.1:80:junk" = false := by
  decide

/-! ## C11 -/

/-- Claim C11, as stated, fails at three guards of the code and where two
components share a uuid or a name. A component whose name is empty is skipped
with all that is below it: after the ingest for the device `u-1`,
`DBGetRecByUuid` finds neither `c-1` (no name) nor its child `c-11`. With an
empty device uuid nothing is stored and the component `c-1` is not found. A
component that carries no uuid is not stored, and `DBGetRecByUuid` with its
(empty) uuid returns an error. Of two components with the uuid `c-1` the later
one is the record found, so the record found for `cage-1` is named `cage-2`;
of two components named `cage-1` the later one is in the name index, which
maps `cage-1` to `c-2` and not to `c-1`. -/
theorem C11_counterexample :
    ((hwcomponents.DBGetRecByUuid
        (hwcomponents.specIngest { kvClient := some [] } "u-1" []
          [.mk { Name := "", Uuid := some "c-1" }
            [.mk { Name := "port-1", Uuid := some "c-11" } []]]).1 "u-1" "c-1").2
        = (none, some "key didn't find")
      ∧ (hwcomponents.DBGetRecByUuid
        (hwcomponents.specIngest { kvClient := some [] } "u-1" []
          [.mk { Name := "", Uuid := some "c-1" }
            [.mk { Name := "port-1", Uuid := some "c-11" } []]]).1 "u-1" "c-11").2
        = (none, some "key didn't find"))
    ∧ (hwcomponents.DBGetRecByUuid
        (hwcomponents.specIngest { kvClient := some [] } "" []
          [.mk { Name := "cage-1", Uuid := some "c-1" } []]).1 "" "c-1").2
        = (none, some "uuid field is empty")
    ∧ (hwcomponents.DBGetRecByUuid
        (hwcomponents.specIngest { kvClient := some [] } "u-1" []
          [.mk { Name := "cage-1", Uuid := none } []]).1 "u-1" "").2
        = (none, some "uuid field is empty")
    ∧ ((hwcomponents.DBGetRecByUuid
        (hwcomponents.specIngest { kvClient := some [] } "u-1" []
          [.mk { Name := "cage-1", Uuid := some "c-1" } [],
           .mk { Name := "cage-2", Uuid := some "c-1" } []]).1 "u-1" "c-1").2.1.map
          (fun r => r.Name)) = some "cage-2"
    ∧ (hwcomponents.specIngest { kvClient := some [] } "u-1" []
          [.mk { Name := "cage-1", Uuid := some "c-1" } [],
           .mk { Name := "cage-1", Uuid := some "c-2" } []]).2.1.load "cage-1" = some "c-2" := by
  refine ⟨⟨by decide, by decide⟩, by decide, by decide, by decide, by decide⟩

/-- Claim C11, amended: for a non-empty device uuid `d`, the KV client being
initialised, and an inventory in which every component reachable from the root
has a non-empty name and carries a non-empty uuid, the names and the uuids
being pairwise distinct: after
`DBSaveHwCompsFromPhysicalInventory(d, acc, root.children)` (which does not
panic) and `DBAddNameToUuidlookup(d, acc)`, for every such component `C`,
`DBGetRecByUuid(d, C.uuid)` returns without error the record of `C`, which has
the name and the uuid of `C` and, as children, the uuids of the direct children
of `C` in order; the row of the name index of `d` holds the document of `acc`,
and `acc` maps the name of `C` to its uuid. -/
theorem C11_ingest_then_get (s : State) (d : String) (acc : GoMap String)
    (children : List Component) (C : Component)
    (hkv : s.kvClient.isSome = true) (hd : d ≠ "")
    (hnames : "" ∉ (reachableFrom children).map (fun c => c.attrs.Name))
    (hcarry : none ∉ (reachableFrom children).map (fun c => c.attrs.Uuid))
    (huuids : "" ∉ (reachableFrom children).map (fun c => c.attrs.Uuid.getD ""))
    (hdistinctU : ((reachableFrom children).map (fun c => c.attrs.Uuid.getD "")).Nodup)
    (hdistinctN : ((reachableFrom children).map (fun c => c.attrs.Name)).Nodup)
    (hC : C ∈ reachableFrom children) :
    (hwcomponents.specIngest s d acc children).2.2 = false
    ∧ (hwcomponents.DBGetRecByUuid (hwcomponents.specIngest s d acc children).1 d
        (C.attrs.Uuid.getD "")).2 = (some (hwcomponents.recordOf C), none)
    ∧ (hwcomponents.recordOf C).Name = C.attrs.Name
    ∧ (hwcomponents.recordOf C).Uuid = C.attrs.Uuid.getD ""
    ∧ (hwcomponents.recordOf C).Children = C.Children.map (fun x => x.attrs.Uuid.getD "")
    ∧ (hwcomponents.specIngest s d acc children).1.row (hwcomponents.DbPathNameToUuid d)
        = some (.json (stringsToJson (hwcomponents.specIngest s d acc children).2.1))
    ∧ (hwcomponents.specIngest s d acc children).2.1.load C.attrs.Name
        = some (C.attrs.Uuid.getD "") := by
  have hall : ∀ x ∈ reachableFrom children, x.attrs.Name ≠ "" ∧ x.attrs.Uuid ≠ none := by
    intro x hx
    constructor
    · intro e
      apply hnames
      rw [← e]
      exact List.mem_map_of_mem (fun c => c.attrs.Name) hx
    · intro e
      apply hcarry
      rw [← e]
      exact List.mem_map_of_mem (fun c => c.attrs.Uuid) hx
  have hne : ∀ x ∈ reachableFrom children, x.attrs.Uuid.getD "" ≠ "" := by
    intro x hx e
    have hmem : x.attrs.Uuid.getD "" ∈
        (reachableFrom children).map (fun c => c.attrs.Uuid.getD "") :=
      List.mem_map_of_mem (fun c => c.attrs.Uuid.getD "") hx
    have key : ∀ v : String,
        v ∈ (reachableFrom children).map (fun c => c.attrs.Uuid.getD "") → v ≠ "" := by
      intro v hv ev
      subst ev
      exact huuids hv
    exact key _ hmem e
  have hsim := hwcomponents.DBSaveHwCompsFromPhysicalInventory_eq d children s acc hall
  have hlist : reachableFrom children ≠ [] := List.ne_nil_of_mem hC
  have hlen := hwcomponents.foldl_saveOne_length d (reachableFrom children) (s, acc) hlist
  have hsome := hwcomponents.foldl_saveOne_kvClient d (reachableFrom children) (s, acc)
  have hget := hwcomponents.foldl_saveOne_get d hd (reachableFrom children) (s, acc) hne
    hdistinctU C hC
  have hload := hwcomponents.foldl_saveOne_load d (reachableFrom children) (s, acc)
    hdistinctN C hC
  obtain ⟨rows, hrows⟩ : ∃ rows,
      ((reachableFrom children).foldl (hwcomponents.saveOne d) (s, acc)).1.kvClient
        = some rows := by
    cases hq : ((reachableFrom children).foldl (hwcomponents.saveOne d) (s, acc)).1.kvClient with
    | none => rw [hq] at hsome; rw [← hsome] at hkv; simp at hkv
    | some rows => exact ⟨rows, rfl⟩
  have hput := hwcomponents.DBAddNameToUuidlookup_some _ rows d _ hrows hd hlen
  have hing : hwcomponents.specIngest s d acc children
      = ({ ((reachableFrom children).foldl (hwcomponents.saveOne d) (s, acc)).1 with
            kvClient := some (rows.store (hwcomponents.DbPathNameToUuid d)
              (.json (stringsToJson
                ((reachableFrom children).foldl (hwcomponents.saveOne d) (s, acc)).2))) },
          ((reachableFrom children).foldl (hwcomponents.saveOne d) (s, acc)).2, false) := by
    simp only [hwcomponents.specIngest, hsim, hput]
  rw [hing]
  refine ⟨rfl, ?_, rfl, rfl, rfl, ?_, hload⟩
  · rw [hwcomponents.DBGetRecByUuid_cached _ d _ (hwcomponents.recordOf C) hd (hne C hC)]
    simpa [compCache.get] using hget
  · simp [State.row, GoMap.load_store_self]

/-- Witness of C11: the inventory of the device `u-1` with the children `c-1`
and `c-2` of the root and the child `c-11` of `c-1`; the component is `c-11`. -/
theorem C11_ingest_then_get_witness :
    (hwcomponents.DBGetRecByUuid
        (hwcomponents.specIngest { kvClient := some [] } "u-1" []
          [.mk { Name := "cage-1", Uuid := some "c-1" }
            [.mk { Name := "port-1", Uuid := some "c-11" } []],
           .mk { Name := "cage-2", Uuid := some "c-2" } []]).1 "u-1"
        ((Component.mk { Name := "port-1", Uuid := some "c-11" } []).attrs.Uuid.getD "")).2
      = (some (hwcomponents.recordOf (.mk { Name := "port-1", Uuid := some "c-11" } [])), none)
    ∧ (hwcomponents.specIngest { kvClient := some [] } "u-1" []
          [.mk { Name := "cage-1", Uuid := some "c-1" }
            [.mk { Name := "port-1", Uuid := some "c-11" } []],
           .mk { Name := "cage-2", Uuid := some "c-2" } []]).2.1.load
        (Component.mk { Name := "port-1", Uuid := some "c-11" } []).attrs.Name
      = some ((Component.mk { Name := "port-1", Uuid := some "c-11" } []).attrs.Uuid.getD "") :=
  have h := C11_ingest_then_get { kvClient := some [] } "u-1" []
    [.mk { Name := "cage-1", Uuid := some "c-1" }
      [.mk { Name := "port-1", Uuid := some "c-11" } []],
     .mk { Name := "cage-2", Uuid := some "c-2" } []]
    (.mk { Name := "port-1", Uuid := some "c-11" } [])
    rfl (by decide) (by decide) (by decide) (by decide) (by decide) (by decide)
    (by simp [reachableFrom, Component.reachable])
  ⟨h.2.1, h.2.2.2.2.2.2⟩

/-! ## C12 -/

/-- Claim C12 fails in the code: `DBGetRecByName` returns no record for any
state, device uuid and name, since its last line returns `nil` and
`name not found` also after the name was resolved. On the store that holds the
component `c-1` of the device `u-1` and the name index `cage-1 -> c-1`,
`DBGetRecByUuid("u-1", "c-1")` returns the record and
`DBGetRecByName("u-1", "cage-1")` returns `name not found`. -/
theorem C12_get_by_name_returns_nothing :
    (∀ (s : State) (d n : String), (hwcomponents.DBGetRecByName s d n).2.1 = none)
    ∧ (hwcomponents.DBGetRecByUuid
        (hwcomponents.DBAddNameToUuidlookup
          (hwcomponents.DBAddByUuid { kvClient := some [] }
            { Name := "cage-1", Uuid := "c-1" } "u-1").1 "u-1" [("cage-1", "c-1")]).1
        "u-1" "c-1").2 = (some { Name := "cage-1", Uuid := "c-1" }, none)
    ∧ (hwcomponents.DBGetRecByName
        (hwcomponents.DBAddNameToUuidlookup
          (hwcomponents.DBAddByUuid { kvClient := some [] }
            { Name := "cage-1", Uuid := "c-1" } "u-1").1 "u-1" [("cage-1", "c-1")]).1
        "u-1" "cage-1").2 = (none, some "name not found") := by
  refine ⟨?_, by decide, by decide⟩
  intro s d n
  unfold hwcomponents.DBGetRecByName
  split
  · rfl
  · split
    · rfl
    · split
      · rfl
      · rfl
      · split <;> rfl

/-! ## C13 -/

/-- Claim C13 fails in the code: the key that `DBDelAllHwComponents` deletes
under is `DbPrefix` filled with the uuid, which has no `/` at its end, so with
the device `u-1` the rows of the device `u-10` go as well. On a store that
holds the component `c-1` and the name index of the device `u-10`,
`DBDelAllHwComponents("u-1")` returns no error and removes both rows; once the
cache is empty (a restart) the component of `u-10` is not retrievable. -/
theorem C13_delete_reaches_longer_uuid :
    (hwcomponents.DBAddNameToUuidlookup
        (hwcomponents.DBAddByUuid { kvClient := some [] }
          { Name := "cage-1", Uuid := "c-1" } "u-10").1 "u-10" [("cage-1", "c-1")]).1.row
      (hwcomponents.DbPathUuidToRecord "u-10" "c-1")
        = some (.json (HwCompRecord.jsonMarshal { Name := "cage-1", Uuid := "c-1" }))
    ∧ (hwcomponents.DBDelAllHwComponents
        (hwcomponents.DBAddNameToUuidlookup
          (hwcomponents.DBAddByUuid { kvClient := some [] }
            { Name := "cage-1", Uuid := "c-1" } "u-10").1 "u-10" [("cage-1", "c-1")]).1
        "u-1").2 = none
    ∧ (hwcomponents.DBDelAllHwComponents
        (hwcomponents.DBAddNameToUuidlookup
          (hwcomponents.DBAddByUuid { kvClient := some [] }
            { Name := "cage-1", Uuid := "c-1" } "u-10").1 "u-10" [("cage-1", "c-1")]).1
        "u-1").1.kvClient = some []
    ∧ (hwcomponents.DBGetRecByUuid
        { (hwcomponents.DBDelAllHwComponents
            (hwcomponents.DBAddNameToUuidlookup
              (hwcomponents.DBAddByUuid { kvClient := some [] }
                { Name := "cage-1", Uuid := "c-1" } "u-10").1 "u-10" [("cage-1", "c-1")]).1
            "u-1").1 with uuidToRec := [] }
        "u-10" "c-1").2 = (none, some "key didn't find") := by
  refine ⟨rfl, by decide, rfl, by decide⟩

/-! ## C14 -/

/-- Claim C14, as stated, fails: for a record with an empty name `DBSaveHwInfo`
returns the error `missing name` of `DBAddByName`; nothing is written, and
`DBGetByName` of that name returns an error and no record. -/
theorem C14_counterexample :
    (device.DBSaveHwInfo { kvClient := some [] } { Uuid := "u-1" }
        { Root := .mk { ModelName := "model-1" } [] }).err = some "missing name"
    ∧ (device.DBSaveHwInfo { kvClient := some [] } { Uuid := "u-1" }
        { Root := .mk { ModelName := "model-1" } [] }).state.kvClient = some []
    ∧ (device.DBGetByName
        (device.DBSaveHwInfo { kvClient := some [] } { Uuid := "u-1" }
          { Root := .mk { ModelName := "model-1" } [] }).state
        ({ Uuid := "u-1" } : DeviceRecord).Name).2 = (none, some "name field is empty") := by
  refine ⟨by decide, rfl, by decide⟩

/-- Claim C14, amended: for a record `r` with a non-empty name and a snapshot
whose root has direct children that all carry a uuid, `DBSaveHwInfo(r, hw)`
leaves the name and the uuid of `r`, copies the attributes of the root into
`r`, sets the children of `r` to the uuids of the direct children of the root
in order and `LastBooted`, `LastChange` from `hw`, and stores `r`:
`DBGetByName(r.Name)` returns the updated record and, the KV client being
initialised, no error is returned and the row of `r` holds its document. -/
theorem C14_save_hw_info (s : State) (r : DeviceRecord) (hw : Hardware)
    (hname : r.Name ≠ "")
    (huuid : none ∉ hw.Root.Children.map (fun c => c.attrs.Uuid)) :
    (device.DBSaveHwInfo s r hw).panicked = false
    ∧ (device.DBSaveHwInfo s r hw).devRec.Name = r.Name
    ∧ (device.DBSaveHwInfo s r hw).devRec.Uuid = r.Uuid
    ∧ ((device.DBSaveHwInfo s r hw).devRec.ModelName = hw.Root.attrs.ModelName
      ∧ (device.DBSaveHwInfo s r hw).devRec.MfgName = hw.Root.attrs.MfgName
      ∧ (device.DBSaveHwInfo s r hw).devRec.SerialNum = hw.Root.attrs.SerialNum
      ∧ (device.DBSaveHwInfo s r hw).devRec.HardwareRev = hw.Root.attrs.HardwareRev
      ∧ (device.DBSaveHwInfo s r hw).devRec.FirmwareRev = hw.Root.attrs.FirmwareRev
      ∧ (device.DBSaveHwInfo s r hw).devRec.SoftwareRev = hw.Root.attrs.SoftwareRev
      ∧ (device.DBSaveHwInfo s r hw).devRec.Class = hw.Root.attrs.Class
      ∧ (device.DBSaveHwInfo s r hw).devRec.ParentRelPos = hw.Root.attrs.ParentRelPos
      ∧ (device.DBSaveHwInfo s r hw).devRec.Alias = hw.Root.attrs.Alias
      ∧ (device.DBSaveHwInfo s r hw).devRec.AssetId = hw.Root.attrs.AssetId
      ∧ (device.DBSaveHwInfo s r hw).devRec.MfgDate = hw.Root.attrs.MfgDate
      ∧ (device.DBSaveHwInfo s r hw).devRec.State = hw.Root.attrs.State)
    ∧ (device.DBSaveHwInfo s r hw).devRec.Children
        = hw.Root.Children.map (fun c => c.attrs.Uuid.getD "")
    ∧ (device.DBSaveHwInfo s r hw).devRec.LastBooted = hw.LastBooted
    ∧ (device.DBSaveHwInfo s r hw).devRec.LastChange = hw.LastChange
    ∧ (device.DBGetByName (device.DBSaveHwInfo s r hw).state r.Name).2
        = (some (device.DBSaveHwInfo s r hw).devRec, none)
    ∧ (s.kvClient.isSome = true →
        (device.DBSaveHwInfo s r hw).err = none
        ∧ (device.DBSaveHwInfo s r hw).state.row (device.DbPathNameToRecord r.Name)
            = some (.json (device.DBSaveHwInfo s r hw).devRec.jsonMarshal)) := by
  have hc := childUuids_some hw.Root.Children huuid
  obtain ⟨r3, hr3, hr3n, key⟩ : ∃ r3 : DeviceRecord,
      r3 = { device.copyRoot
                { r with LastBooted := hw.LastBooted, LastChange := hw.LastChange }
                hw.Root.attrs with
              Children := [] ++ hw.Root.Children.map (fun c => c.attrs.Uuid.getD ""),
              Name := r.Name, Uuid := r.Uuid }
      ∧ r3.Name = r.Name
      ∧ device.DBSaveHwInfo s r hw
          = { state := (device.DBAddByName s r3).1, devRec := r3,
              err := (device.DBAddByName s r3).2 } :=
    ⟨_, rfl, rfl, by simp only [device.DBSaveHwInfo, hc]⟩
  have hn3 : r3.Name ≠ "" := by rw [hr3n]; exact hname
  rw [key]
  refine ⟨rfl, hr3n, by rw [hr3], ⟨by rw [hr3]; rfl, by rw [hr3]; rfl, by rw [hr3]; rfl,
    by rw [hr3]; rfl, by rw [hr3]; rfl, by rw [hr3]; rfl, by rw [hr3]; rfl, by rw [hr3]; rfl,
    by rw [hr3]; rfl, by rw [hr3]; rfl, by rw [hr3]; rfl, by rw [hr3]; rfl⟩,
    by rw [hr3]; simp, by rw [hr3]; rfl, by rw [hr3]; rfl, ?_, ?_⟩
  · rw [← hr3n]
    simp [device.DBGetByName, device.DBAddByName, hn3, GoMap.load_store_self]
  · intro hkv
    cases hrows : s.kvClient with
    | none => rw [hrows] at hkv; simp at hkv
    | some rows =>
      simp only []
      rw [device.DBAddByName_some s rows r3 hrows hn3, ← hr3n]
      exact ⟨rfl, by simp [State.row, GoMap.load_store_self]⟩

/-- Witness of C14: the device `olt-1` and a snapshot whose root has the model
name `model-1` and the two children `c-1`, `c-2`. -/
theorem C14_save_hw_info_witness :
    (device.DBSaveHwInfo { kvClient := some [] } { Name := "olt-1", Uuid := "u-1" }
        { Root := .mk { ModelName := "model-1" }
            [.mk { Name := "cage-1", Uuid := some "c-1" } [],
             .mk { Name := "cage-2", Uuid := some "c-2" } []] }).devRec.ModelName = "model-1"
    ∧ (device.DBSaveHwInfo { kvClient := some [] } { Name := "olt-1", Uuid := "u-1" }
        { Root := .mk { ModelName := "model-1" }
            [.mk { Name := "cage-1", Uuid := some "c-1" } [],
             .mk { Name := "cage-2", Uuid := some "c-2" } []] }).devRec.Children = ["c-1", "c-2"] :=
  have h := C14_save_hw_info { kvClient := some [] } { Name := "olt-1", Uuid := "u-1" }
    { Root := .mk { ModelName := "model-1" }
        [.mk { Name := "cage-1", Uuid := some "c-1" } [],
         .mk { Name := "cage-2", Uuid := some "c-2" } []] } (by decide) (by decide)
  ⟨h.2.2.2.1.1, h.2.2.2.2.1⟩

/-! ## C15 -/

/-- Claim C15, as stated, fails where no row is under `DevRec/DevName/`: the
listing of the KV client returns the error `key didn't find` when it finds no
row, and `DBGetAll` returns that error, not an empty list without error. This
is so on the initialised store that holds no row, and on the store that holds
only the uuid lookup row of the device `olt-1`. -/
theorem C15_counterexample :
    device.DBGetAll { kvClient := some [] } = ([], some "key didn't find")
    ∧ (device.DBAddUuidLookup { kvClient := some [] } { Name := "olt-1", Uuid := "u-1" }).1.row
        (device.DbPathUuidToName "u-1") = some (.text "olt-1")
    ∧ device.DBGetAll
        (device.DBAddUuidLookup { kvClient := some [] } { Name := "olt-1", Uuid := "u-1" }).1
      = ([], some "key didn't find") := by
  refine ⟨by decide, rfl, by decide⟩

/-- Claim C15, amended: on a store with the KV client initialised, in which the
keys that contain the text of the prefix `DevRec/DevName/` are the keys under
it, `DBGetAll` returns, when at least one row is under `DevRec/DevName/`,
without error one record for each row under it whose value unmarshals as a
device record (the rows taken in the order of the store), skipping the rows
that fail to unmarshal; when no row is under it, it returns the error
`key didn't find` and no record. After the records of a non-empty list, with
distinct non-empty names, were added to the empty store, it returns without
error what these records read back as, the last added first: a list of the
length of that list. -/
theorem C15_get_all (s : State) (rows : GoMap KVValue) (recs : List DeviceRecord)
    (hkv : s.kvClient = some rows)
    (hlayout : ∀ p ∈ rows, stringsContains p.1 (device.DbPathNameToRecord "") = true →
      device.specUnderDevName p.1 = true)
    (hrecs : recs ≠ []) (hnames : "" ∉ recs.map (fun r => r.Name))
    (hdistinct : (recs.map (fun r => r.Name)).Nodup)
    (hwf : ∀ r ∈ recs, r.wellFormed = true) :
    device.DBGetAll s
      = (if (device.specDevNameRows rows).length ≠ 0 then
          ((device.specDevNameRows rows).filterMap
            (fun p => (DeviceRecord.jsonUnmarshal p.2).toOption), none)
         else ([], some "key didn't find"))
    ∧ device.DBGetAll (recs.foldl (fun s r => (device.DBAddByName s r).1) { kvClient := some [] })
      = (recs.reverse.map DeviceRecord.readBack, none)
    ∧ (device.DBGetAll
        (recs.foldl (fun s r => (device.DBAddByName s r).1) { kvClient := some [] })).1.length
      = recs.length := by
  have hrows := device.foldl_DBAddByName_rows recs hnames hdistinct
  have hne : ((recs.reverse.map
      (fun r => (device.DbPathNameToRecord r.Name, KVValue.json r.jsonMarshal))).filter
      (fun p => stringsContains p.1 (device.DbPathNameToRecord ""))).length ≠ 0 := by
    rw [device.filter_rows]
    intro h
    apply hrecs
    simpa using h
  have h2 := device.DBGetAll_some _ _ hrows hne
  rw [device.filter_rows, device.filterMap_rows recs.reverse
    (fun r hr => hwf r (List.mem_reverse.mp hr))] at h2
  refine ⟨?_, h2, ?_⟩
  · have hf := device.filter_contains_eq_under rows hlayout
    by_cases hlen : (device.specDevNameRows rows).length ≠ 0
    · rw [if_pos hlen, device.DBGetAll_some s rows hkv (by rw [hf]; exact hlen), hf]
    · rw [if_neg hlen]
      exact device.DBGetAll_none s rows hkv (by rw [hf]; exact not_not.mp hlen)
  · rw [h2]
    simp

/-- Witness of C15: the store of the test `Test_PositiveTcaseDBGetAll` with the
uuid lookup row of the device added, and the record of the test. -/
theorem C15_get_all_witness :
    device.DBGetAll { kvClient := some ([(device.DbPathUuidToName "u-1", .text "olt-name-1"),
        (device.DbPathNameToRecord "olt-name-1",
          .json (DeviceRecord.jsonMarshal { Name := "olt-name-1", Uri := "127.0.0.1" }))]) }
      = (if (device.specDevNameRows [(device.DbPathUuidToName "u-1", .text "olt-name-1"),
            (device.DbPathNameToRecord "olt-name-1",
              .json (DeviceRecord.jsonMarshal
                { Name := "olt-name-1", Uri := "127.0.0.1" }))]).length ≠ 0 then
          ((device.specDevNameRows [(device.DbPathUuidToName "u-1", .text "olt-name-1"),
            (device.DbPathNameToRecord "olt-name-1",
              .json (DeviceRecord.jsonMarshal
                { Name := "olt-name-1", Uri := "127.0.0.1" }))]).filterMap
            (fun p => (DeviceRecord.jsonUnmarshal p.2).toOption), none)
         else ([], some "key didn't find"))
    ∧ (device.DBGetAll ([({ Name := "olt-name-1", Uri := "127.0.0.1" } : DeviceRecord)].foldl
        (fun s r => (device.DBAddByName s r).1) { kvClient := some [] })).1.length
      = [({ Name := "olt-name-1", Uri := "127.0.0.1" } : DeviceRecord)].length :=
  have h := C15_get_all
    { kvClient := some ([(device.DbPathUuidToName "u-1", .text "olt-name-1"),
        (device.DbPathNameToRecord "olt-name-1",
          .json (DeviceRecord.jsonMarshal { Name := "olt-name-1", Uri := "127.0.0.1" }))]) }
    [(device.DbPathUuidToName "u-1", .text "olt-name-1"),
      (device.DbPathNameToRecord "olt-name-1",
        .json (DeviceRecord.jsonMarshal { Name := "olt-name-1", Uri := "127.0.0.1" }))]
    [{ Name := "olt-name-1", Uri := "127.0.0.1" }]
    rfl (by decide) (by decide) (by decide) (by decide) (by decide)
  ⟨h.1, h.2.2⟩

/-! ## C16 -/

/-- Claim C16: for a record whose name is empty `DBAddByName` returns an error
and the state (KV store and caches) is what it was; for a record with a
non-empty name the name cache holds the record afterwards and, the KV client
being initialised, the call returns no error and the row
`DevRec/DevName/{name}` holds the document of the record. -/
theorem C16_add_by_name (s : State) (r : DeviceRecord) :
    (r.Name = "" → (device.DBAddByName s r).2 ≠ none ∧ (device.DBAddByName s r).1 = s)
    ∧ (r.Name ≠ "" →
        (device.DBAddByName s r).1.nameToRec.load r.Name = some r
        ∧ (s.kvClient.isSome = true →
            (device.DBAddByName s r).2 = none
            ∧ (device.DBAddByName s r).1.row (device.DbPathNameToRecord r.Name)
                = some (.json r.jsonMarshal))) := by
  constructor
  · intro hn
    simp [device.DBAddByName, hn]
  · intro hn
    constructor
    · simp [device.DBAddByName, hn, GoMap.load_store_self]
    · intro hkv
      cases hrows : s.kvClient with
      | none => rw [hrows] at hkv; simp at hkv
      | some rows =>
        rw [device.DBAddByName_some s rows r hrows hn]
        exact ⟨rfl, by simp [State.row, GoMap.load_store_self]⟩

/-- Witness of C16: a record without a name, and the record of the test
`mockModifiableComp("1")`, on the empty store. -/
theorem C16_add_by_name_witness :
    ((device.DBAddByName { kvClient := some [] } { Uri := "127.0.0.1" }).2 ≠ none
      ∧ (device.DBAddByName { kvClient := some [] } { Uri := "127.0.0.1" }).1
          = { kvClient := some [] })
    ∧ ((device.DBAddByName { kvClient := some [] }
          { Name := "olt-name-1", Uri := "127.0.0.1" }).2 = none
      ∧ (device.DBAddByName { kvClient := some [] }
          { Name := "olt-name-1", Uri := "127.0.0.1" }).1.row
            (device.DbPathNameToRecord "olt-name-1")
          = some (.json (DeviceRecord.jsonMarshal { Name := "olt-name-1", Uri := "127.0.0.1" }))) :=
  ⟨(C16_add_by_name { kvClient := some [] } { Uri := "127.0.0.1" }).1 rfl,
   ((C16_add_by_name { kvClient := some [] } { Name := "olt-name-1", Uri := "127.0.0.1" }).2
      (by decide)).2 rfl⟩

/-! ## C17 -/

/-- Claim C17 fails in the code: the handler builds the `UNKNOWN_LOG_ENTITY`
response when `isValidSetLogLevel` returns `true`, and the error it passes is
then `nil`, so every request that passes the validation ends in the panic of
`err.Error()` and is not answered; a request that fails it is not rejected for
that: with no group, on the empty repository, the answer is `UNKNOWN_DEVICE`. -/
theorem C17_validation_inverted :
    (∀ (s : State) (req : SetLogLevelRequest) (env : nbi.SetLogEnv),
      (nbi.isValidSetLogLevel req.Loglevels).1 = true →
        (nbi.SetLogLevel s req env).panicked = true ∧ (nbi.SetLogLevel s req env).resp = none)
    ∧ (nbi.isValidSetLogLevel []).1 = false
    ∧ (nbi.SetLogLevel { kvClient := some [] } { DeviceUuid := "u-x", Loglevels := [] } {}).resp
        = some { DeviceUuid := some "u-x", Status := .ERROR_STATUS, Reason := .UNKNOWN_DEVICE,
                 ReasonDetail := "key didn't find" } := by
  refine ⟨?_, by decide, by decide⟩
  intro s req env h
  have h2 : nbi.isValidSetLogLevel req.Loglevels = (true, none) := by
    unfold nbi.isValidSetLogLevel at h ⊢
    split at h
    · simp at h
    · split at h
      · simp at h
      · rename_i h1 h3
        simp only [h1, h3, if_false]
  simp [nbi.SetLogLevel, h2, nbi.errRespSetLogLevel]

/-! ## C18 -/

/-- Claim C18 fails in the code: on the empty repository the request
`SetLogLevel` for the device `u-x` with the one group `INFO`, `e1` passes
`isValidSetLogLevel`, and the handler then builds the `UNKNOWN_LOG_ENTITY`
response from a `nil` error, which panics; the device is never looked up and
no response is returned. -/
theorem C18_well_formed_request_panics :
    (nbi.isValidSetLogLevel [{ LogLevel := LogLevel_INFO, Entities := ["e1"] }]) = (true, none)
    ∧ (nbi.SetLogLevel { kvClient := some [] }
        { DeviceUuid := "u-x", Loglevels := [{ LogLevel := LogLevel_INFO, Entities := ["e1"] }] }
        {}).panicked = true
    ∧ (nbi.SetLogLevel { kvClient := some [] }
        { DeviceUuid := "u-x", Loglevels := [{ LogLevel := LogLevel_INFO, Entities := ["e1"] }] }
        {}).resp = none := by
  refine ⟨by decide, by decide, by decide⟩

/-! ## C19 -/

/-- Claim C19, as stated, fails: `SaveLoggableEntities` sets the level of the
record for a single group without entities also when the per-entity map of the
record is set. Here the record holds `e1` at `INFO` and the level `INFO`, and
the single group `DEBUG` without entities makes its level `DEBUG`. -/
theorem C19_counterexample :
    ¬ (∀ (rec : DeviceRecord) (groups : List EntitiesLogLevel),
        ¬ (rec.Logging.LoggableEntities = none ∧ specSingleGlobal groups = true) →
          (device.SaveLoggableEntities rec groups).Logging.LogLevel = rec.Logging.LogLevel) := by
  intro h
  have h1 := h { Name := "olt-1",
                 Logging := { LogLevel := LogLevel_INFO,
                              LoggableEntities := some [("e1", LogLevel_INFO)] } }
    [{ LogLevel := LogLevel_DEBUG }] (by decide)
  revert h1
  decide

/-- Claim C19, amended: `SaveLoggableEntities` changes nothing of the record but
its level and its per-entity map, which is allocated afterwards. When the list
is a single group with no entity list, whatever the map, the level of the
record becomes the level of that group and no per-entity level changes. In
every other case the level of the record is unchanged, and the level of an
entity is the level of the last group that lists it, or what it was when no
group lists it. -/
theorem C19_save_loggable_entities (rec : DeviceRecord) (groups : List EntitiesLogLevel)
    (e : String) :
    ({ device.SaveLoggableEntities rec groups with Logging := rec.Logging } = rec
      ∧ (device.SaveLoggableEntities rec groups).Logging.EndPoint = rec.Logging.EndPoint
      ∧ (device.SaveLoggableEntities rec groups).Logging.Protocol = rec.Logging.Protocol
      ∧ (device.SaveLoggableEntities rec groups).Logging.LoggableEntities ≠ none)
    ∧ (specSingleGlobal groups = true →
        (groups.map (fun g => g.LogLevel)).head?
            = some (device.SaveLoggableEntities rec groups).Logging.LogLevel
        ∧ (device.SaveLoggableEntities rec groups).levelOf e = rec.levelOf e)
    ∧ (specSingleGlobal groups = false →
        (device.SaveLoggableEntities rec groups).Logging.LogLevel = rec.Logging.LogLevel
        ∧ (device.SaveLoggableEntities rec groups).levelOf e
            = match specLastLevel e groups with
              | some level => some level
              | none => rec.levelOf e) := by
  cases hsg : specSingleGlobal groups with
  | true =>
    obtain ⟨g, hgs, hsave⟩ := device.SaveLoggableEntities_global rec groups hsg
    rw [hsave, hgs]
    refine ⟨⟨rfl, rfl, rfl, by simp⟩, fun _ => ⟨rfl, ?_⟩, fun h => by simp at h⟩
    simp [DeviceRecord.levelOf]
  | false =>
    rw [device.SaveLoggableEntities_levels rec groups hsg]
    refine ⟨⟨rfl, rfl, rfl, by simp⟩, fun h => by simp at h, fun _ => ⟨rfl, ?_⟩⟩
    simp only [DeviceRecord.levelOf, Option.getD_some]
    exact device.setLevels_load groups _ e

/-- Witness of C19: a record with no per-entity map and the one group `INFO`,
`e1`: the level of the record stays, and `e1` is at `INFO`. -/
theorem C19_save_loggable_entities_witness :
    (device.SaveLoggableEntities { Name := "olt-1" }
        [{ LogLevel := LogLevel_INFO, Entities := ["e1"] }]).Logging.LogLevel
      = ({ Name := "olt-1" } : DeviceRecord).Logging.LogLevel
    ∧ (device.SaveLoggableEntities { Name := "olt-1" }
        [{ LogLevel := LogLevel_INFO, Entities := ["e1"] }]).levelOf "e1"
      = match specLastLevel "e1" [{ LogLevel := LogLevel_INFO, Entities := ["e1"] }] with
        | some level => some level
        | none => DeviceRecord.levelOf { Name := "olt-1" } "e1" :=
  (C19_save_loggable_entities { Name := "olt-1" }
    [{ LogLevel := LogLevel_INFO, Entities := ["e1"] }] "e1").2.2 rfl

/-! ## C20 -/

/-- Claim C20: for every device record and every list of requested entities
`GetLoggableEntitiesFromDevRec` returns what the reference `specLoggableEntities`
returns: not found when a requested entity is absent, else the five groups of
the requested entities in request order; for an empty request one group with
the level of the record when no entity is known, else the five groups of the
known entities. -/
theorem C20_get_loggable_entities (rec : DeviceRecord) (entities : List String) :
    device.GetLoggableEntitiesFromDevRec rec entities = specLoggableEntities rec entities := by
  unfold device.GetLoggableEntitiesFromDevRec specLoggableEntities
  cases entities with
  | cons e t =>
    simp only [List.length_cons, gt_iff_lt, Nat.zero_lt_succ, if_true, ne_eq, reduceCtorEq,
      not_false_eq_true, device.requestedLevels_eq]
    by_cases hall : ((e :: t).all fun e =>
        ((rec.Logging.LoggableEntities.getD []).load e).isSome) = true
    · simp only [hall, if_true]
      simp [LevelLists.toGroups, specRequestedGroup]
    · simp only [hall]
      simp
  | nil =>
    cases hk : rec.Logging.LoggableEntities.getD [] with
    | nil => simp
    | cons p t =>
      simp only [List.length_nil, gt_iff_lt, Nat.lt_irrefl, if_false, List.length_cons,
        Nat.succ_ne_zero, ne_eq, not_true_eq_false, reduceCtorEq, device.foldl_add_eq]
      simp [LevelLists.toGroups, specKnownGroup]

/-! ## C21 -/

/-- Claim C21: after any sequence of `getConnection` and `delConn` calls on a
registry that starts empty, `getConnection(devRec)` returns the stored adapter
and changes nothing (`Connect` is not called) when the registry has an entry
for the name of the record; otherwise it makes one new adapter and calls
`Connect` on it, once: when `Connect` succeeds the adapter is inserted under
the name and returned, when it fails the error is returned and the registry is
what it was. The registry holds one adapter for a name, and `Connect` was
called exactly once on every adapter that it holds. -/
theorem C21_registry (s0 : State) (calls : List nbi.RegistryCall) (devRec : DeviceRecord)
    (dial : Option String)
    (hempty : s0.nameToAdapter = []) (hdialled : s0.dialled = []) :
    (∀ c, (nbi.runCalls s0 calls).nameToAdapter.load devRec.Name = some c →
        nbi.getConnection (nbi.runCalls s0 calls) devRec dial
          = (nbi.runCalls s0 calls, some c, none))
    ∧ ((nbi.runCalls s0 calls).nameToAdapter.load devRec.Name = none →
        (nbi.getConnection (nbi.runCalls s0 calls) devRec dial).1.dialled
          = (nbi.runCalls s0 calls).created :: (nbi.runCalls s0 calls).dialled
        ∧ (nbi.runCalls s0 calls).created ∉ (nbi.runCalls s0 calls).dialled
        ∧ (dial = none →
            (nbi.getConnection (nbi.runCalls s0 calls) devRec dial).2
              = (some { id := (nbi.runCalls s0 calls).created, uri := devRec.Uri }, none)
            ∧ (nbi.getConnection (nbi.runCalls s0 calls) devRec dial).1.nameToAdapter
              = (nbi.runCalls s0 calls).nameToAdapter.store devRec.Name
                  { id := (nbi.runCalls s0 calls).created, uri := devRec.Uri })
        ∧ (∀ e, dial = some e →
            (nbi.getConnection (nbi.runCalls s0 calls) devRec dial).2 = (none, some e)
            ∧ (nbi.getConnection (nbi.runCalls s0 calls) devRec dial).1.nameToAdapter
              = (nbi.runCalls s0 calls).nameToAdapter))
    ∧ (GoMap.keys (nbi.runCalls s0 calls).nameToAdapter).Nodup
    ∧ (∀ p ∈ (nbi.runCalls s0 calls).nameToAdapter,
        (nbi.runCalls s0 calls).dialled.count p.2.id = 1) := by
  have h0 : nbi.registryInv s0 := by
    refine ⟨?_, ?_, ?_, ?_⟩
    · rw [hempty]; exact List.nodup_nil
    · rw [hdialled]; exact List.nodup_nil
    · rw [hdialled]; intro id hid; cases hid
    · rw [hempty]; intro p hp; cases hp
  obtain ⟨h1, h2, h3, h4⟩ := nbi.registryInv_runCalls s0 calls h0
  have hfresh : (nbi.runCalls s0 calls).created ∉ (nbi.runCalls s0 calls).dialled :=
    fun hm => Nat.lt_irrefl _ (h3 _ hm)
  refine ⟨fun c hc => nbi.getConnection_hit _ devRec dial c hc, ?_, h1, ?_⟩
  · intro hl
    cases dial with
    | none =>
      rw [nbi.getConnection_miss_ok _ devRec hl]
      exact ⟨rfl, hfresh, fun _ => ⟨rfl, rfl⟩, fun e he => by cases he⟩
    | some e =>
      rw [nbi.getConnection_miss_failed _ devRec e hl]
      refine ⟨rfl, hfresh, fun he => (by cases he), ?_⟩
      intro e2 he2
      cases he2
      exact ⟨rfl, rfl⟩
  · intro p hp
    exact List.count_eq_one_of_mem h2 (h4 p hp)

/-- Witness of C21: `olt-1` is connected, removed, and asked for again. -/
theorem C21_registry_witness :
    (nbi.getConnection
        (nbi.runCalls {} [.get { Name := "olt-1", Uri := "10.0.0.1:50051" } none, .del "olt-1"])
        { Name := "olt-1", Uri := "10.0.0.1:50051" } none).1.dialled
      = (nbi.runCalls {}
          [.get { Name := "olt-1", Uri := "10.0.0.1:50051" } none, .del "olt-1"]).created
        :: (nbi.runCalls {}
          [.get { Name := "olt-1", Uri := "10.0.0.1:50051" } none, .del "olt-1"]).dialled :=
  ((C21_registry {} [.get { Name := "olt-1", Uri := "10.0.0.1:50051" } none, .del "olt-1"]
    { Name := "olt-1", Uri := "10.0.0.1:50051" } none rfl rfl).2.1 (by decide)).1

/-! ## C22 -/

/-- Claim C22, as stated, fails for two of the handlers. `StartManagingDevice`
answers a failed acquisition with the reason `INVALID_PARAMS`, and
`StopManagingDevice` builds no error response for it: it returns the connect
error with a response that has neither status nor reason (and deletes the
record). Here the dial fails with `connection refused`. -/
theorem C22_counterexample :
    (nbi.StartManagingDevice { kvClient := some [] } { Name := "olt-1", Uri := "10.0.0.1:50051" }
        { net := { ParseIP := fun ip => ip == "10.0.0.1", LookupIP := fun _ => false },
          dial := some "connection refused" }).sent
      = [{ Status := .ERROR_STATUS, Reason := .INVALID_PARAMS,
           ReasonDetail := "connection refused" }]
    ∧ (nbi.StopManagingDevice
        (device.DBAddByName { kvClient := some [] } { Name := "olt-1", Uuid := "u-1" }).1
        { Name := "olt-1" } { dial := some "connection refused" }).resp
      = some { Status := .UNDEFINED_STATUS, Reason := .UNDEFINED_REASON, ReasonDetail := "" }
    ∧ (nbi.StopManagingDevice
        (device.DBAddByName { kvClient := some [] } { Name := "olt-1", Uuid := "u-1" }).1
        { Name := "olt-1" } { dial := some "connection refused" }).err
      = some "connection refused" := by
  refine ⟨by decide, by decide, by decide⟩

/-- Claim C22, amended: for the handlers `GetPhysicalInventory`,
`GetHWComponentInfo`, `SetHWComponentInfo`, `SetLoggingEndpoint`,
`GetLoggingEndpoint`, `GetLoggableEntities` and `GetLogLevel`, when the record
of the device is resolved (for the two component handlers, and only for them,
the component record as well), the registry has no adapter for the device and
the connect of a new one fails, the response (the one frame sent, for a streaming handler) has the
status `ERROR`, the reason `DEVICE_UNREACHABLE` and the text of the connect
error as detail, and that error is returned. This is so for
`GetLoggableEntities` when the record has no per-entity map and for
`GetLogLevel` when the record has none or does not know a requested entity
(otherwise they answer from the record). The last part records the same answer
of `SetLogLevel`, which gets as far as the registry only with a request that
does not pass `isValidSetLogLevel`. -/
theorem C22_device_unreachable (s : State) (uuid cuuid e ep pr : String) (devRec : DeviceRecord)
    (hwRec : HwCompRecord) (changes : ModifiableComponent) (entities : List String)
    (levels : List EntitiesLogLevel) (inv : InventoryStream) (comp : CompInfoStream)
    (r1 : Option HWComponentInfoSetResponse × Option String)
    (r2 : Option SetRemoteEndpointResponse × Option String)
    (r3 : Option GetLoggingEndpointResponse × Option String)
    (r4 : Option GetLogLevelResponse × Option String)
    (r5 : Option SetLogLevelResponse × Option String)
    (hrec : (device.DBGetByUuid s uuid).2 = (some devRec, none))
    (hreg : s.nameToAdapter.load devRec.Name = none) :
    ((nbi.GetPhysicalInventory s { DeviceUuid := uuid } { dial := some e, stream := inv }).sent
        = [{ Status := .ERROR_STATUS, Reason := .DEVICE_UNREACHABLE, ReasonDetail := e }]
      ∧ (nbi.GetPhysicalInventory s { DeviceUuid := uuid }
          { dial := some e, stream := inv }).err = some e)
    ∧ ((hwcomponents.DBGetRecByUuid (device.DBGetByUuid s uuid).1 uuid cuuid).2.1
          = some hwRec →
        (nbi.GetHWComponentInfo s { DeviceUuid := uuid, ComponentUuid := cuuid }
            { dial := some e, stream := comp }).sent
          = [{ Status := .ERROR_STATUS, Reason := .DEVICE_UNREACHABLE, ReasonDetail := e }]
        ∧ (nbi.GetHWComponentInfo s { DeviceUuid := uuid, ComponentUuid := cuuid }
            { dial := some e, stream := comp }).err = some e)
    ∧ ((hwcomponents.DBGetRecByUuid (device.DBGetByUuid s uuid).1 uuid cuuid).2.1
          = some hwRec →
        (nbi.SetHWComponentInfo s
            { DeviceUuid := uuid, ComponentUuid := cuuid, Changes := changes }
            { dial := some e, reply := r1 }).resp
          = some { Status := .ERROR_STATUS, Reason := .DEVICE_UNREACHABLE, ReasonDetail := e }
        ∧ (nbi.SetHWComponentInfo s
            { DeviceUuid := uuid, ComponentUuid := cuuid, Changes := changes }
            { dial := some e, reply := r1 }).err = some e)
    ∧ ((nbi.SetLoggingEndpoint s
          { DeviceUuid := uuid, LoggingEndpoint := ep, LoggingProtocol := pr }
          { dial := some e, reply := r2 }).resp
        = some { Status := .ERROR_STATUS, Reason := .DEVICE_UNREACHABLE, ReasonDetail := e }
      ∧ (nbi.SetLoggingEndpoint s
          { DeviceUuid := uuid, LoggingEndpoint := ep, LoggingProtocol := pr }
          { dial := some e, reply := r2 }).err = some e)
    ∧ ((nbi.GetLoggingEndpoint s { Uuid := uuid } { dial := some e, reply := r3 }).resp
        = some { Status := .ERROR_STATUS, Reason := .DEVICE_UNREACHABLE, ReasonDetail := e }
      ∧ (nbi.GetLoggingEndpoint s { Uuid := uuid } { dial := some e, reply := r3 }).err = some e)
    ∧ (devRec.Logging.LoggableEntities = none →
        (nbi.GetLoggableEntities s { DeviceUuid := uuid } { dial := some e, reply := r4 }).resp
          = some { DeviceUuid := some uuid, Status := .ERROR_STATUS,
                   Reason := .DEVICE_UNREACHABLE, ReasonDetail := e }
        ∧ (nbi.GetLoggableEntities s { DeviceUuid := uuid }
            { dial := some e, reply := r4 }).err = some e)
    ∧ ((devRec.Logging.LoggableEntities = none
          ∨ (device.GetLoggableEntitiesFromDevRec devRec entities).2 = false) →
        (nbi.GetLogLevel s { DeviceUuid := uuid, Entities := entities }
            { dial := some e, reply := r4 }).resp
          = some { DeviceUuid := some uuid, Status := .ERROR_STATUS,
                   Reason := .DEVICE_UNREACHABLE, ReasonDetail := e }
        ∧ (nbi.GetLogLevel s { DeviceUuid := uuid, Entities := entities }
            { dial := some e, reply := r4 }).err = some e)
    ∧ ((nbi.isValidSetLogLevel levels).1 = false →
        (nbi.SetLogLevel s { DeviceUuid := uuid, Loglevels := levels }
            { dial := some e, reply := r5 }).resp
          = some { DeviceUuid := some uuid, Status := .ERROR_STATUS,
                   Reason := .DEVICE_UNREACHABLE, ReasonDetail := e }
        ∧ (nbi.SetLogLevel s { DeviceUuid := uuid, Loglevels := levels }
            { dial := some e, reply := r5 }).err = some e) := by
  have hget : device.DBGetByUuid s uuid = ((device.DBGetByUuid s uuid).1, some devRec, none) :=
    Prod.ext rfl hrec
  have hreg1 : (device.DBGetByUuid s uuid).1.nameToAdapter.load devRec.Name = none := by
    rw [device.DBGetByUuid_nameToAdapter]; exact hreg
  have hc1 := nbi.getConnection_miss_failed _ devRec e hreg1
  have hcget : (hwcomponents.DBGetRecByUuid (device.DBGetByUuid s uuid).1 uuid cuuid).2.1
        = some hwRec →
      ∃ cerr, hwcomponents.DBGetRecByUuid (device.DBGetByUuid s uuid).1 uuid cuuid
        = ((hwcomponents.DBGetRecByUuid (device.DBGetByUuid s uuid).1 uuid cuuid).1,
            some hwRec, cerr) :=
    fun hcomp => ⟨_, Prod.ext rfl (Prod.ext hcomp rfl)⟩
  have hreg2 : (hwcomponents.DBGetRecByUuid (device.DBGetByUuid s uuid).1 uuid
      cuuid).1.nameToAdapter.load devRec.Name = none := by
    rw [hwcomponents.DBGetRecByUuid_nameToAdapter]; exact hreg1
  have hc2 := nbi.getConnection_miss_failed _ devRec e hreg2
  refine ⟨?_, ?_, ?_, ?_, ?_, ?_, ?_, ?_⟩
  · simp only [nbi.GetPhysicalInventory]
    rw [hget]
    simp only [hc1, nbi.errRespGetPhysicatInventory, nbi.Streamed.ofErrResp, and_self]
  · intro hcomp
    obtain ⟨cerr, hcget⟩ := hcget hcomp
    simp only [nbi.GetHWComponentInfo]
    rw [hget]
    simp only []
    rw [hcget]
    simp only [hc2, nbi.errRespGetHWComponentInfo, nbi.Streamed.ofErrResp, and_self]
  · intro hcomp
    obtain ⟨cerr, hcget⟩ := hcget hcomp
    simp only [nbi.SetHWComponentInfo]
    rw [hget]
    simp only []
    rw [hcget]
    simp only [hc2, nbi.errRespSetHWComponentInfo, nbi.Unary.ofErrResp, and_self]
  · simp only [nbi.SetLoggingEndpoint]
    rw [hget]
    simp only [hc1, nbi.errRespSetLoggingEndpoint, nbi.Unary.ofErrResp, and_self]
  · simp only [nbi.GetLoggingEndpoint]
    rw [hget]
    simp only [hc1, nbi.errRespGetLoggingEndpoint, nbi.Unary.ofErrResp, and_self]
  · intro hmap
    simp only [nbi.GetLoggableEntities]
    rw [hget]
    simp only [hmap, ne_eq, not_true_eq_false, if_false, hc1, nbi.errRespGetLoggableEntities,
      nbi.errRespGetLogLevel, nbi.Unary.ofErrResp, and_self]
  · intro hmap
    have hcond : ¬ (devRec.Logging.LoggableEntities ≠ none
        ∧ (device.GetLoggableEntitiesFromDevRec devRec entities).2 = true) := by
      intro hq
      rcases hmap with hm | hm
      · exact hq.1 hm
      · rw [hm] at hq; exact Bool.noConfusion hq.2
    simp only [nbi.GetLogLevel]
    rw [hget]
    simp only [hcond, if_false, hc1, nbi.errRespGetLogLevel, nbi.Unary.ofErrResp, and_self]
  · intro hval
    have hv : nbi.isValidSetLogLevel levels = (false, (nbi.isValidSetLogLevel levels).2) := by
      rw [← hval]
    simp only [nbi.SetLogLevel]
    rw [hv, hget]
    simp only [hc1, nbi.errRespSetLogLevel, and_self]

/-- Witness of C22: the device `olt-1` with the uuid `u-1` is stored, no adapter
is registered, and the dial fails with `connection refused`. With no component
stored, `GetPhysicalInventory` sends the one frame `DEVICE_UNREACHABLE`; with
the component `c-1` stored, `GetHWComponentInfo` does. -/
theorem C22_device_unreachable_witness :
    (nbi.GetPhysicalInventory
        (device.DBAddUuidLookup
          (device.DBAddByName { kvClient := some [] } { Name := "olt-1", Uuid := "u-1" }).1
          { Name := "olt-1", Uuid := "u-1" }).1
        { DeviceUuid := "u-1" } { dial := some "connection refused", stream := {} }).sent
      = [{ Status := .ERROR_STATUS, Reason := .DEVICE_UNREACHABLE,
           ReasonDetail := "connection refused" }]
    ∧ (nbi.GetHWComponentInfo
        (hwcomponents.DBAddByUuid
          (device.DBAddUuidLookup
            (device.DBAddByName { kvClient := some [] } { Name := "olt-1", Uuid := "u-1" }).1
            { Name := "olt-1", Uuid := "u-1" }).1
          { Name := "cage-1", Uuid := "c-1" } "u-1").1
        { DeviceUuid := "u-1", ComponentUuid := "c-1" }
        { dial := some "connection refused", stream := {} }).sent
      = [{ Status := .ERROR_STATUS, Reason := .DEVICE_UNREACHABLE,
           ReasonDetail := "connection refused" }] :=
  ⟨(C22_device_unreachable
      (device.DBAddUuidLookup
        (device.DBAddByName { kvClient := some [] } { Name := "olt-1", Uuid := "u-1" }).1
        { Name := "olt-1", Uuid := "u-1" }).1
      "u-1" "c-1" "connection refused" "10.0.0.9:514" "udp" { Name := "olt-1", Uuid := "u-1" }
      { Name := "cage-1", Uuid := "c-1" } {} [] [] {} {} (none, none) (none, none) (none, none)
      (none, none) (none, none) (by decide) (by decide)).1.1,
   ((C22_device_unreachable
      (hwcomponents.DBAddByUuid
        (device.DBAddUuidLookup
          (device.DBAddByName { kvClient := some [] } { Name := "olt-1", Uuid := "u-1" }).1
          { Name := "olt-1", Uuid := "u-1" }).1
        { Name := "cage-1", Uuid := "c-1" } "u-1").1
      "u-1" "c-1" "connection refused" "10.0.0.9:514" "udp" { Name := "olt-1", Uuid := "u-1" }
      { Name := "cage-1", Uuid := "c-1" } {} [] [] {} {} (none, none) (none, none) (none, none)
      (none, none) (none, none) (by decide) (by decide)).2.1 (by decide)).1⟩

/-! ## C23 -/

/-- Claim C23 fails in the code where an OK frame lacks the message that the
adapter reads from it: the read panics, the frame is not forwarded and the call
does not return. This is so for an OK frame of `GetPhysicalInventory` without
inventory, of `GetHWComponentInfo` without component, and of
`StartManagingDevice` without device uuid. On every sequence of frames whose
forwarded OK frames carry that message (for an inventory, with a uuid on every
component), the three adapter calls forward exactly the frames up to and
including the first `ERROR` frame and return the detail of that frame, or, with
no such frame, what the end of the stream gives. -/
theorem C23_ok_frame_without_payload_panics :
    (∀ (s : State) (devRec : DeviceRecord) (frames : List StartManagingDeviceResponse)
        (last : RecvEnd),
      (specForwarded (fun f => f.Status) frames).all startFrameComplete = true →
        (grpc.StartManagingDevice s devRec { frames := frames, last := last }).sent
            = specForwarded (fun f => f.Status) frames
        ∧ (grpc.StartManagingDevice s devRec { frames := frames, last := last }).err
            = specReturned (fun f => f.Status) (fun f => f.ReasonDetail) last frames
        ∧ (grpc.StartManagingDevice s devRec { frames := frames, last := last }).panicked
            = false)
    ∧ (∀ (s : State) (devRec : DeviceRecord) (frames : List PhysicalInventoryResponse)
        (last : RecvEnd),
      (specForwarded (fun f => f.Status) frames).all inventoryFrameComplete = true →
        (grpc.GetPhysicalInventory s devRec { frames := frames, last := last }).sent
            = specForwarded (fun f => f.Status) frames
        ∧ (grpc.GetPhysicalInventory s devRec { frames := frames, last := last }).err
            = specReturned (fun f => f.Status) (fun f => f.ReasonDetail) last frames
        ∧ (grpc.GetPhysicalInventory s devRec { frames := frames, last := last }).panicked
            = false)
    ∧ (∀ (s : State) (d : String) (rec : HwCompRecord)
        (frames : List HWComponentInfoGetResponse) (last : RecvEnd),
      (specForwarded (fun f => f.Status) frames).all compInfoFrameComplete = true →
        (grpc.GetHWComponentInfo s d rec { frames := frames, last := last }).sent
            = specForwarded (fun f => f.Status) frames
        ∧ (grpc.GetHWComponentInfo s d rec { frames := frames, last := last }).err
            = specReturned (fun f => f.Status) (fun f => f.ReasonDetail) last frames
        ∧ (grpc.GetHWComponentInfo s d rec { frames := frames, last := last }).panicked
            = false)
    ∧ ((grpc.GetPhysicalInventory { kvClient := some [] } { Name := "olt-1", Uuid := "u-1" }
          { frames := [{ Status := .OK_STATUS }] }).panicked = true
      ∧ (grpc.GetPhysicalInventory { kvClient := some [] } { Name := "olt-1", Uuid := "u-1" }
          { frames := [{ Status := .OK_STATUS }] }).sent = [])
    ∧ ((grpc.GetHWComponentInfo { kvClient := some [] } "u-1" { Name := "cage-1", Uuid := "c-1" }
          { frames := [{ Status := .OK_STATUS }] }).panicked = true
      ∧ (grpc.GetHWComponentInfo { kvClient := some [] } "u-1" { Name := "cage-1", Uuid := "c-1" }
          { frames := [{ Status := .OK_STATUS }] }).sent = [])
    ∧ ((grpc.StartManagingDevice { kvClient := some [] } { Name := "olt-1" }
          { frames := [{ Status := .OK_STATUS }] }).panicked = true
      ∧ (grpc.StartManagingDevice { kvClient := some [] } { Name := "olt-1" }
          { frames := [{ Status := .OK_STATUS }] }).sent = []) := by
  refine ⟨?_, ?_, ?_, ⟨rfl, rfl⟩, ⟨rfl, rfl⟩, ⟨rfl, rfl⟩⟩
  · intro s devRec frames last h
    have := grpc.startLoop_forwards last frames s devRec [] false h
    simpa [grpc.StartManagingDevice] using this
  · intro s devRec frames last h
    have := grpc.inventoryLoop_forwards last frames s devRec [] h
    simpa [grpc.GetPhysicalInventory] using this
  · intro s d rec frames last h
    have := grpc.compInfoLoop_forwards last d frames s rec [] h
    simpa [grpc.GetHWComponentInfo] using this

/-! ## C24 -/

/-- Claim C24, as stated, fails on both sides. When the southbound stream cannot
be opened, `GetPhysicalInventory` and `GetHWComponentInfo` forward a frame too:
the frame `ERROR`, `INTERNAL_ERROR` with the text of the error. When the
transport breaks while a frame is received, the adapter method
`StartManagingDevice` forwards nothing and returns the error; the frame that
the handler then sends (no OK frame was received) has the reason
`UNDEFINED_REASON`. -/
theorem C24_counterexample :
    (grpc.GetPhysicalInventory { kvClient := some [] } { Name := "olt-1", Uuid := "u-1" }
        { openErr := some "unavailable" }).sent
      = [{ Status := .ERROR_STATUS, Reason := .INTERNAL_ERROR, ReasonDetail := "unavailable" }]
    ∧ (grpc.GetHWComponentInfo { kvClient := some [] } "u-1" { Name := "cage-1", Uuid := "c-1" }
        { openErr := some "unavailable" }).sent
      = [{ Status := .ERROR_STATUS, Reason := .INTERNAL_ERROR, ReasonDetail := "unavailable" }]
    ∧ (grpc.StartManagingDevice { kvClient := some [] } { Name := "olt-1" }
        { frames := [], last := .failed "unavailable" }).sent = []
    ∧ (grpc.StartManagingDevice { kvClient := some [] } { Name := "olt-1" }
        { frames := [], last := .failed "unavailable" }).err = some "unavailable"
    ∧ (nbi.StartManagingDevice { kvClient := some [] }
        { Name := "olt-1", Uri := "10.0.0.1:50051" }
        { net := { ParseIP := fun ip => ip == "10.0.0.1", LookupIP := fun _ => false },
          stream := { frames := [], last := .failed "unavailable" } }).sent
      = [{ Status := .ERROR_STATUS, Reason := .UNDEFINED_REASON,
           ReasonDetail := "unavailable" }] := by
  refine ⟨rfl, rfl, by decide, by decide, by decide⟩

/-- Claim C24, amended: when the southbound stream cannot be opened, each of the
three adapter calls forwards one frame `ERROR`, `INTERNAL_ERROR` with the text
of the transport error; `GetPhysicalInventory` and `GetHWComponentInfo` return
that error, `StartManagingDevice` returns the error
`RPC Failed for StartManagingDevice`. When the transport breaks while a frame
is received, after frames that were all forwarded (none with the status
`ERROR`, the OK frames with the message that the adapter reads), each of the
three calls returns the transport error and forwards no further frame. -/
theorem C24_transport_error (s : State) (devRec : DeviceRecord) (d e : String)
    (rec : HwCompRecord) (last : RecvEnd)
    (fs1 : List StartManagingDeviceResponse) (fs2 : List PhysicalInventoryResponse)
    (fs3 : List HWComponentInfoGetResponse)
    (h1 : fs1.all (fun f => startFrameComplete f && !decide (f.Status = .ERROR_STATUS)) = true)
    (h2 : fs2.all (fun f => inventoryFrameComplete f && !decide (f.Status = .ERROR_STATUS))
      = true)
    (h3 : fs3.all (fun f => compInfoFrameComplete f && !decide (f.Status = .ERROR_STATUS))
      = true) :
    ((grpc.StartManagingDevice s devRec { openErr := some e, frames := fs1, last := last }).sent
        = [{ Status := .ERROR_STATUS, Reason := .INTERNAL_ERROR, ReasonDetail := e }]
      ∧ (grpc.StartManagingDevice s devRec
          { openErr := some e, frames := fs1, last := last }).err
        = some "RPC Failed for StartManagingDevice")
    ∧ ((grpc.GetPhysicalInventory s devRec
          { openErr := some e, frames := fs2, last := last }).sent
        = [{ Status := .ERROR_STATUS, Reason := .INTERNAL_ERROR, ReasonDetail := e }]
      ∧ (grpc.GetPhysicalInventory s devRec
          { openErr := some e, frames := fs2, last := last }).err = some e)
    ∧ ((grpc.GetHWComponentInfo s d rec { openErr := some e, frames := fs3, last := last }).sent
        = [{ Status := .ERROR_STATUS, Reason := .INTERNAL_ERROR, ReasonDetail := e }]
      ∧ (grpc.GetHWComponentInfo s d rec
          { openErr := some e, frames := fs3, last := last }).err = some e)
    ∧ ((grpc.StartManagingDevice s devRec { frames := fs1, last := .failed e }).sent = fs1
      ∧ (grpc.StartManagingDevice s devRec { frames := fs1, last := .failed e }).err = some e)
    ∧ ((grpc.GetPhysicalInventory s devRec { frames := fs2, last := .failed e }).sent = fs2
      ∧ (grpc.GetPhysicalInventory s devRec { frames := fs2, last := .failed e }).err = some e)
    ∧ ((grpc.GetHWComponentInfo s d rec { frames := fs3, last := .failed e }).sent = fs3
      ∧ (grpc.GetHWComponentInfo s d rec { frames := fs3, last := .failed e }).err = some e) := by
  have split : ∀ {F : Type} (c : F → Bool) (st : F → Status) (fs : List F),
      fs.all (fun f => c f && !decide (st f = .ERROR_STATUS)) = true →
      (∀ f ∈ fs, st f ≠ .ERROR_STATUS) ∧ fs.all c = true := by
    intro F c st fs h
    have hall := List.all_eq_true.mp h
    constructor
    · intro f hf
      have := hall f hf
      simp only [Bool.and_eq_true, Bool.not_eq_true', decide_eq_false_iff_not] at this
      exact this.2
    · apply List.all_eq_true.mpr
      intro f hf
      have := hall f hf
      simp only [Bool.and_eq_true] at this
      exact this.1
  obtain ⟨n1, c1⟩ := split startFrameComplete (fun f => f.Status) fs1 h1
  obtain ⟨n2, c2⟩ := split inventoryFrameComplete (fun f => f.Status) fs2 h2
  obtain ⟨n3, c3⟩ := split compInfoFrameComplete (fun f => f.Status) fs3 h3
  have f1 := specForwarded_of_no_error (fun f : StartManagingDeviceResponse => f.Status) fs1 n1
  have f2 := specForwarded_of_no_error (fun f : PhysicalInventoryResponse => f.Status) fs2 n2
  have f3 := specForwarded_of_no_error (fun f : HWComponentInfoGetResponse => f.Status) fs3 n3
  have r1 := specReturned_of_no_error (fun f : StartManagingDeviceResponse => f.Status)
    (fun f => f.ReasonDetail) (.failed e) fs1 n1
  have r2 := specReturned_of_no_error (fun f : PhysicalInventoryResponse => f.Status)
    (fun f => f.ReasonDetail) (.failed e) fs2 n2
  have r3 := specReturned_of_no_error (fun f : HWComponentInfoGetResponse => f.Status)
    (fun f => f.ReasonDetail) (.failed e) fs3 n3
  have l1 := grpc.startLoop_forwards (.failed e) fs1 s devRec [] false (by rw [f1]; exact c1)
  have l2 := grpc.inventoryLoop_forwards (.failed e) fs2 s devRec [] (by rw [f2]; exact c2)
  have l3 := grpc.compInfoLoop_forwards (.failed e) d fs3 s rec [] (by rw [f3]; exact c3)
  rw [f1, r1] at l1
  rw [f2, r2] at l2
  rw [f3, r3] at l3
  refine ⟨⟨rfl, rfl⟩, ⟨rfl, rfl⟩, ⟨rfl, rfl⟩, ?_, ?_, ?_⟩
  · simpa [grpc.StartManagingDevice, specReturned] using ⟨l1.1, l1.2.1⟩
  · simpa [grpc.GetPhysicalInventory, specReturned] using ⟨l2.1, l2.2.1⟩
  · simpa [grpc.GetHWComponentInfo, specReturned] using ⟨l3.1, l3.2.1⟩

/-- Witness of C24: one OK frame with an inventory, then the transport breaks. -/
theorem C24_transport_error_witness :
    (grpc.GetPhysicalInventory { kvClient := some [] } { Name := "olt-1", Uuid := "u-1" }
        { frames := [{ Status := .OK_STATUS,
                       Inventory := some ({ Root := (Component.mk { ModelName := "model-1" }
                         [Component.mk { Name := "cage-1", Uuid := some "c-1" } []]) }) }],
          last := .failed "unavailable" }).err = some "unavailable" :=
  (C24_transport_error { kvClient := some [] } { Name := "olt-1", Uuid := "u-1" } "u-1"
    "unavailable" { Name := "cage-1", Uuid := "c-1" } .eof
    [{ Status := .OK_STATUS, DeviceUuid := some "u-1" }]
    [{ Status := .OK_STATUS,
       Inventory := some ({ Root := (Component.mk { ModelName := "model-1" }
         [Component.mk { Name := "cage-1", Uuid := some "c-1" } []]) }) }]
    [{ Status := .OK_STATUS, Component := some (.mk { Name := "cage-1" } []) }]
    (by decide) (by decide) (by decide)).2.2.2.2.1.2

/-! ## C25 -/

/-- Claim C25 fails in the code: once the southbound call returned no transport
error, the adapter methods `SetLoggingEndpoint` and `GetLoggingEndpoint` set
their error to `errors.New(resp.ReasonDetail)`, so on every OK response they
store the record with the new end point and protocol and return a non-nil
error (with the empty text when the response has no detail). For the device
`olt-1` and an OK response without detail, the record is stored with the end
point `10.0.0.9:514` and the protocol `udp`, and the error returned is not
`nil`. -/
theorem C25_ok_response_returns_error :
    (∀ (s : State) (devRec : DeviceRecord) (req : SetLoggingEndpointRequest)
        (resp : SetRemoteEndpointResponse), resp.Status = .OK_STATUS →
      (grpc.SetLoggingEndpoint s devRec req (some resp, none)).err = some resp.ReasonDetail
      ∧ (grpc.SetLoggingEndpoint s devRec req (some resp, none)).state
          = (device.DBAddByName s
              { devRec with Logging := { devRec.Logging with
                  EndPoint := req.LoggingEndpoint, Protocol := req.LoggingProtocol } }).1)
    ∧ (∀ (s : State) (devRec : DeviceRecord) (resp : GetLoggingEndpointResponse),
        resp.Status = .OK_STATUS →
      (grpc.GetLoggingEndpoint s devRec (some resp, none)).err = some resp.ReasonDetail
      ∧ (grpc.GetLoggingEndpoint s devRec (some resp, none)).state
          = (device.DBAddByName s
              { devRec with Logging := { devRec.Logging with
                  EndPoint := resp.LoggingEndpoint, Protocol := resp.LoggingProtocol } }).1)
    ∧ (grpc.SetLoggingEndpoint { kvClient := some [] } { Name := "olt-1", Uuid := "u-1" }
        { DeviceUuid := "u-1", LoggingEndpoint := "10.0.0.9:514", LoggingProtocol := "udp" }
        (some { Status := .OK_STATUS }, none)).err = some ""
    ∧ ((device.DBGetByName
        (grpc.SetLoggingEndpoint { kvClient := some [] } { Name := "olt-1", Uuid := "u-1" }
          { DeviceUuid := "u-1", LoggingEndpoint := "10.0.0.9:514", LoggingProtocol := "udp" }
          (some { Status := .OK_STATUS }, none)).state "olt-1").2.1.map
            (fun r => (r.Logging.EndPoint, r.Logging.Protocol))) = some ("10.0.0.9:514", "udp")
    ∧ (grpc.GetLoggingEndpoint { kvClient := some [] } { Name := "olt-1", Uuid := "u-1" }
        (some { Status := .OK_STATUS, LoggingEndpoint := "10.0.0.9:514",
                LoggingProtocol := "udp" }, none)).err = some "" := by
  refine ⟨?_, ?_, by decide, by decide, by decide⟩
  · intro s devRec req resp h
    simp [grpc.SetLoggingEndpoint, h]
  · intro s devRec resp h
    simp [grpc.GetLoggingEndpoint, h]

/-! ## C26 -/

/-- Claim C26, as stated, fails over a refresh and at an OK frame of
`GetHWComponentInfo`. The adapter builds a new map for every OK frame of
`GetPhysicalInventory` and puts it in place of the row of the name index, and
it removes no component record: after the inventory with the component `cage-1`
(uuid `c-1`) and then the inventory with the component `cage-2` (uuid `c-2`)
were stored for the device `u-1`, the record of `cage-1` is still persisted
under `c-1`, and the row of the name index holds the document of the map with
the one pair `cage-2`, `c-2`. An OK frame of `GetHWComponentInfo` writes the
record and leaves the name index as it is: after the inventory with `cage-1`,
an OK frame for the record `c-1` that reports the name `cage-x` leaves the
record named `cage-x` persisted under `c-1`, and the row of the name index
holds the map with the one pair `cage-1`, `c-1`. -/
theorem C26_counterexample :
    ((grpc.storeInventory
        (grpc.storeInventory { kvClient := some [] } { Name := "olt-1", Uuid := "u-1" }
          (some ({ Root := (Component.mk {}
            [Component.mk { Name := "cage-1", Uuid := some "c-1" } []]) }))).state
        (grpc.storeInventory { kvClient := some [] } { Name := "olt-1", Uuid := "u-1" }
          (some ({ Root := (Component.mk {}
            [Component.mk { Name := "cage-1", Uuid := some "c-1" } []]) }))).devRec
        (some ({ Root := (Component.mk {}
          [Component.mk { Name := "cage-2", Uuid := some "c-2" } []]) }))).state.row
        (hwcomponents.DbPathUuidToRecord "u-1" "c-1")
      = some (.json (HwCompRecord.jsonMarshal { Name := "cage-1", Uuid := "c-1" }))
    ∧ (grpc.storeInventory
        (grpc.storeInventory { kvClient := some [] } { Name := "olt-1", Uuid := "u-1" }
          (some ({ Root := (Component.mk {}
            [Component.mk { Name := "cage-1", Uuid := some "c-1" } []]) }))).state
        (grpc.storeInventory { kvClient := some [] } { Name := "olt-1", Uuid := "u-1" }
          (some ({ Root := (Component.mk {}
            [Component.mk { Name := "cage-1", Uuid := some "c-1" } []]) }))).devRec
        (some ({ Root := (Component.mk {}
          [Component.mk { Name := "cage-2", Uuid := some "c-2" } []]) }))).state.row
        (hwcomponents.DbPathNameToUuid "u-1")
      = some (.json (stringsToJson [("cage-2", "c-2")])))
    ∧ ((grpc.storeComponent
        (grpc.storeInventory { kvClient := some [] } { Name := "olt-1", Uuid := "u-1" }
          (some ({ Root := (Component.mk {}
            [Component.mk { Name := "cage-1", Uuid := some "c-1" } []]) }))).state
        "u-1" { Name := "cage-1", Uuid := "c-1" }
        (some (Component.mk { Name := "cage-x", Uuid := some "c-1" } []))).state.row
        (hwcomponents.DbPathUuidToRecord "u-1" "c-1")
      = some (.json (HwCompRecord.jsonMarshal
          { Name := "cage-x", Uuid := "c-1", State := none }))
    ∧ (grpc.storeComponent
        (grpc.storeInventory { kvClient := some [] } { Name := "olt-1", Uuid := "u-1" }
          (some ({ Root := (Component.mk {}
            [Component.mk { Name := "cage-1", Uuid := some "c-1" } []]) }))).state
        "u-1" { Name := "cage-1", Uuid := "c-1" }
        (some (Component.mk { Name := "cage-x", Uuid := some "c-1" } []))).state.row
        (hwcomponents.DbPathNameToUuid "u-1")
      = some (.json (stringsToJson [("cage-1", "c-1")]))) := by
  refine ⟨⟨rfl, rfl⟩, rfl, rfl⟩

/-- Claim C26, amended: for one OK frame of `GetPhysicalInventory` and a device
`D` whose uuid is not empty, the KV client being initialised, when every
component below the root of the inventory has a non-empty name and carries a
non-empty uuid, the names are pairwise distinct, and every component row that
`D` has before the frame is under the uuid of a component of the inventory (so
for the first inventory of a device, and for a refresh that reports the same
uuids): once the frame has been processed, which does not panic, for every
component record persisted under `D` with name `n` under the uuid `u`, the row
of the name index of `D` holds the document of the map that the frame built,
and that map binds `n` to `u`. -/
theorem C26_name_index_after_inventory (s : State) (devRec : DeviceRecord) (hw : Hardware)
    (u : String) (r : HwCompRecord)
    (hkv : s.kvClient.isSome = true) (hd : devRec.Uuid ≠ "")
    (hnames : "" ∉ (reachableFrom hw.Root.Children).map (fun c => c.attrs.Name))
    (hcarry : none ∉ (reachableFrom hw.Root.Children).map (fun c => c.attrs.Uuid))
    (huuids : "" ∉ (reachableFrom hw.Root.Children).map (fun c => c.attrs.Uuid.getD ""))
    (hdistinctN : ((reachableFrom hw.Root.Children).map (fun c => c.attrs.Name)).Nodup)
    (hcovered : ∀ v, (s.row (hwcomponents.DbPathUuidToRecord devRec.Uuid v)).isSome = true →
      v ∈ (reachableFrom hw.Root.Children).map (fun c => c.attrs.Uuid.getD ""))
    (hrow : (grpc.storeInventory s devRec (some hw)).state.row
        (hwcomponents.DbPathUuidToRecord devRec.Uuid u) = some (.json r.jsonMarshal)) :
    (grpc.storeInventory s devRec (some hw)).panicked = false
    ∧ (grpc.storeInventory s devRec (some hw)).state.row
          (hwcomponents.DbPathNameToUuid devRec.Uuid)
        = some (.json (stringsToJson (hwcomponents.DBSaveHwCompsFromPhysicalInventory
            (device.DBSaveHwInfo s devRec hw).state devRec.Uuid [] hw.Root.Children).2.1))
    ∧ (hwcomponents.DBSaveHwCompsFromPhysicalInventory
          (device.DBSaveHwInfo s devRec hw).state devRec.Uuid [] hw.Root.Children).2.1.load r.Name
        = some u := by
  have hall := named_of_not_mem _ hnames hcarry
  have hne := uuid_ne_of_not_mem _ huuids
  obtain ⟨hany, hmem, hindex, _⟩ := grpc.storeInventory_rows s devRec hw hkv hd hall
  have hp : (grpc.storeInventory s devRec (some hw)).panicked = false := by
    rw [grpc.storeInventory_eq s devRec hw hall]
  obtain ⟨c, hc, hcu, hrowc⟩ : ∃ c ∈ reachableFrom hw.Root.Children,
      c.attrs.Uuid.getD "" = u
      ∧ (grpc.storeInventory s devRec (some hw)).state.row
          (hwcomponents.DbPathUuidToRecord devRec.Uuid u)
        = some (.json (hwcomponents.recordOf c).jsonMarshal) := by
    rcases hany u with h | h
    · have hsome : (s.row (hwcomponents.DbPathUuidToRecord devRec.Uuid u)).isSome = true := by
        rw [← h, hrow]; rfl
      obtain ⟨x, hx, hxu⟩ := List.mem_map.mp (hcovered u hsome)
      have hxu2 : x.attrs.Uuid.getD "" = u := hxu
      obtain ⟨c, hc, hcu, hrowc⟩ := hmem x hx (hne x hx)
      rw [hxu2] at hcu hrowc
      exact ⟨c, hc, hcu, hrowc⟩
    · exact h
  have hdoc : (hwcomponents.recordOf c).jsonMarshal = r.jsonMarshal := by
    rw [hrowc] at hrow
    exact KVValue.json.inj (Option.some.inj hrow)
  have hname : c.attrs.Name = r.Name := HwCompRecord.jsonMarshal_name hdoc
  obtain ⟨h1, h2⟩ := hindex c hc hdistinctN
  rw [hname, hcu] at h2
  exact ⟨hp, h1, h2⟩

/-- Witness of C26: the first inventory of the device `u-1`, with the component
`cage-1` below the root and the component `port-1` below `cage-1`; the record
is the one of `port-1`, persisted under `c-11`. -/
theorem C26_name_index_after_inventory_witness :
    (grpc.storeInventory { kvClient := some [] } { Name := "olt-1", Uuid := "u-1" }
        (some ({ Root := (Component.mk {}
          [Component.mk { Name := "cage-1", Uuid := some "c-1" }
            [Component.mk { Name := "port-1", Uuid := some "c-11" } []]]) }))).state.row
        (hwcomponents.DbPathUuidToRecord "u-1" "c-11")
      = some (.json (HwCompRecord.jsonMarshal { Name := "port-1", Uuid := "c-11" }))
    ∧ (hwcomponents.DBSaveHwCompsFromPhysicalInventory
          (device.DBSaveHwInfo { kvClient := some [] } { Name := "olt-1", Uuid := "u-1" }
            { Root := (Component.mk {}
              [Component.mk { Name := "cage-1", Uuid := some "c-1" }
                [Component.mk { Name := "port-1", Uuid := some "c-11" } []]]) }).state
          "u-1" []
          [Component.mk { Name := "cage-1", Uuid := some "c-1" }
            [Component.mk { Name := "port-1", Uuid := some "c-11" } []]]).2.1.load "port-1"
        = some "c-11" :=
  ⟨rfl, (C26_name_index_after_inventory { kvClient := some [] }
    { Name := "olt-1", Uuid := "u-1" }
    { Root := (Component.mk {}
        [Component.mk { Name := "cage-1", Uuid := some "c-1" }
          [Component.mk { Name := "port-1", Uuid := some "c-11" } []]]) }
    "c-11" { Name := "port-1", Uuid := "c-11" }
    rfl (by decide) (by decide) (by decide) (by decide) (by decide)
    (fun v h => by simp [State.row, GoMap.load] at h) rfl).2.2⟩

/-! ## C27 -/

/-- Claim C27, as stated, fails at two guards of the code. `DBSaveHwInfo` lists
the uuid of every child of the root in the device record, and the record of a
component lists the uuid of every child of the component, while
`DBSaveHwCompsFromPhysicalInventory` skips a component with an empty name and
`DBAddByUuid` refuses a record with an empty uuid. After the inventory with the
children `cage-1` (uuid `c-1`) and a nameless component (uuid `c-2`) of the
root, and a nameless component (uuid `c-11`) below `cage-1`, was stored for the
device `u-1`: the device record lists `c-1` and `c-2` and no row is under
`c-2`; the record persisted under `c-1` lists `c-11` and no row is under
`c-11`. After the inventory with the one component `cage-1` whose uuid is the
empty string, the device record lists the empty uuid and no row is under
it. -/
theorem C27_counterexample :
    ((grpc.storeInventory { kvClient := some [] } { Name := "olt-1", Uuid := "u-1" }
        (some ({ Root := (Component.mk {}
          [Component.mk { Name := "cage-1", Uuid := some "c-1" }
            [Component.mk { Name := "", Uuid := some "c-11" } []],
           Component.mk { Name := "", Uuid := some "c-2" } []]) }))).devRec.Children
        = ["c-1", "c-2"]
      ∧ (grpc.storeInventory { kvClient := some [] } { Name := "olt-1", Uuid := "u-1" }
        (some ({ Root := (Component.mk {}
          [Component.mk { Name := "cage-1", Uuid := some "c-1" }
            [Component.mk { Name := "", Uuid := some "c-11" } []],
           Component.mk { Name := "", Uuid := some "c-2" } []]) }))).state.row
          (hwcomponents.DbPathUuidToRecord "u-1" "c-2") = none
      ∧ (grpc.storeInventory { kvClient := some [] } { Name := "olt-1", Uuid := "u-1" }
        (some ({ Root := (Component.mk {}
          [Component.mk { Name := "cage-1", Uuid := some "c-1" }
            [Component.mk { Name := "", Uuid := some "c-11" } []],
           Component.mk { Name := "", Uuid := some "c-2" } []]) }))).state.row
          (hwcomponents.DbPathUuidToRecord "u-1" "c-1")
        = some (.json (HwCompRecord.jsonMarshal
            { Name := "cage-1", Uuid := "c-1", Children := ["c-11"] }))
      ∧ (grpc.storeInventory { kvClient := some [] } { Name := "olt-1", Uuid := "u-1" }
        (some ({ Root := (Component.mk {}
          [Component.mk { Name := "cage-1", Uuid := some "c-1" }
            [Component.mk { Name := "", Uuid := some "c-11" } []],
           Component.mk { Name := "", Uuid := some "c-2" } []]) }))).state.row
          (hwcomponents.DbPathUuidToRecord "u-1" "c-11") = none)
    ∧ ((grpc.storeInventory { kvClient := some [] } { Name := "olt-1", Uuid := "u-1" }
        (some ({ Root := (Component.mk {}
          [Component.mk { Name := "cage-1", Uuid := some "" } []]) }))).devRec.Children = [""]
      ∧ (grpc.storeInventory { kvClient := some [] } { Name := "olt-1", Uuid := "u-1" }
        (some ({ Root := (Component.mk {}
          [Component.mk { Name := "cage-1", Uuid := some "" } []]) }))).state.row
          (hwcomponents.DbPathUuidToRecord "u-1" "") = none) := by
  refine ⟨⟨rfl, rfl, rfl, rfl⟩, rfl, rfl⟩

/-- Claim C27, amended: for an inventory reported in an OK frame of
`GetPhysicalInventory` in which every component below the root has a non-empty
name and carries a non-empty uuid, for a device whose uuid is not empty, the KV
client being initialised, and the children of the component records persisted
for the device before the frame referring to persisted component records: once
the frame has been processed, which does not panic, every uuid listed in the
children of the device record and in the children of any component record
persisted for the device refers to a component record persisted under the same
device uuid. -/
theorem C27_children_refer_to_persisted (s : State) (devRec : DeviceRecord) (hw : Hardware)
    (hkv : s.kvClient.isSome = true) (hd : devRec.Uuid ≠ "")
    (hnames : "" ∉ (reachableFrom hw.Root.Children).map (fun c => c.attrs.Name))
    (hcarry : none ∉ (reachableFrom hw.Root.Children).map (fun c => c.attrs.Uuid))
    (huuids : "" ∉ (reachableFrom hw.Root.Children).map (fun c => c.attrs.Uuid.getD ""))
    (hprior : ∀ (u : String) (r : HwCompRecord),
      s.row (hwcomponents.DbPathUuidToRecord devRec.Uuid u) = some (.json r.jsonMarshal) →
      ∀ c ∈ r.Children, (s.row (hwcomponents.DbPathUuidToRecord devRec.Uuid c)).isSome = true) :
    (grpc.storeInventory s devRec (some hw)).panicked = false
    ∧ (∀ c ∈ (grpc.storeInventory s devRec (some hw)).devRec.Children,
        ((grpc.storeInventory s devRec (some hw)).state.row
          (hwcomponents.DbPathUuidToRecord devRec.Uuid c)).isSome = true)
    ∧ (∀ (u : String) (r : HwCompRecord),
        (grpc.storeInventory s devRec (some hw)).state.row
          (hwcomponents.DbPathUuidToRecord devRec.Uuid u) = some (.json r.jsonMarshal) →
        ∀ c ∈ r.Children, ((grpc.storeInventory s devRec (some hw)).state.row
          (hwcomponents.DbPathUuidToRecord devRec.Uuid c)).isSome = true) := by
  have hall := named_of_not_mem _ hnames hcarry
  have hne := uuid_ne_of_not_mem _ huuids
  obtain ⟨hany, hmem, _, hchildren⟩ := grpc.storeInventory_rows s devRec hw hkv hd hall
  have hp : (grpc.storeInventory s devRec (some hw)).panicked = false := by
    rw [grpc.storeInventory_eq s devRec hw hall]
  have hcomp : ∀ y ∈ reachableFrom hw.Root.Children,
      ((grpc.storeInventory s devRec (some hw)).state.row
        (hwcomponents.DbPathUuidToRecord devRec.Uuid (y.attrs.Uuid.getD ""))).isSome = true := by
    intro y hy
    obtain ⟨c, _, _, hrowc⟩ := hmem y hy (hne y hy)
    rw [hrowc]; rfl
  have hmono : ∀ v, (s.row (hwcomponents.DbPathUuidToRecord devRec.Uuid v)).isSome = true →
      ((grpc.storeInventory s devRec (some hw)).state.row
        (hwcomponents.DbPathUuidToRecord devRec.Uuid v)).isSome = true := by
    intro v hv
    rcases hany v with h | ⟨c, _, _, h⟩
    · rw [h]; exact hv
    · rw [h]; rfl
  refine ⟨hp, ?_, ?_⟩
  · intro c hc
    rw [hchildren] at hc
    obtain ⟨y, hy, hyc⟩ := List.mem_map.mp hc
    have hyc2 : y.attrs.Uuid.getD "" = c := hyc
    rw [← hyc2]
    exact hcomp y (mem_reachableFrom_of_mem hy)
  · intro u r hrow c hc
    rcases hany u with h | ⟨x, hx, _, h⟩
    · rw [h] at hrow
      exact hmono c (hprior u r hrow c hc)
    · rw [h] at hrow
      have hdoc : (hwcomponents.recordOf x).jsonMarshal = r.jsonMarshal :=
        KVValue.json.inj (Option.some.inj hrow)
      have hch : (hwcomponents.recordOf x).Children = r.Children :=
        HwCompRecord.jsonMarshal_children hdoc
      rw [← hch] at hc
      obtain ⟨y, hy, hyc⟩ := List.mem_map.mp hc
      have hyc2 : y.attrs.Uuid.getD "" = c := hyc
      rw [← hyc2]
      exact hcomp y (mem_reachableFrom_children _ x y hx hy)

/-- Witness of C27: the first inventory of the device `u-1`, with the component
`cage-1` below the root and the component `port-1` below `cage-1`: the child
`c-1` of the device record and the child `c-11` of the record of `cage-1` are
persisted. -/
theorem C27_children_refer_to_persisted_witness :
    ((grpc.storeInventory { kvClient := some [] } { Name := "olt-1", Uuid := "u-1" }
        (some ({ Root := (Component.mk {}
          [Component.mk { Name := "cage-1", Uuid := some "c-1" }
            [Component.mk { Name := "port-1", Uuid := some "c-11" } []]]) }))).state.row
        (hwcomponents.DbPathUuidToRecord "u-1" "c-1")).isSome = true
    ∧ ((grpc.storeInventory { kvClient := some [] } { Name := "olt-1", Uuid := "u-1" }
        (some ({ Root := (Component.mk {}
          [Component.mk { Name := "cage-1", Uuid := some "c-1" }
            [Component.mk { Name := "port-1", Uuid := some "c-11" } []]]) }))).state.row
        (hwcomponents.DbPathUuidToRecord "u-1" "c-11")).isSome = true :=
  have h := C27_children_refer_to_persisted { kvClient := some [] }
    { Name := "olt-1", Uuid := "u-1" }
    { Root := (Component.mk {}
        [Component.mk { Name := "cage-1", Uuid := some "c-1" }
          [Component.mk { Name := "port-1", Uuid := some "c-11" } []]]) }
    rfl (by decide) (by decide) (by decide) (by decide)
    (fun u r hrow => by simp [State.row, GoMap.load] at hrow)
  ⟨h.2.1 "c-1" (by decide),
   h.2.2 "c-1" { Name := "cage-1", Uuid := "c-1", Children := ["c-11"] } rfl "c-11"
     (by decide)⟩

/-! ## C28 -/

/-- Claim C28, as stated, fails where the KV write fails: `DBAddByName` and
`DBAddUuidLookup` store into the cache whatever `db.Put` returned. With the KV
client not initialised both calls return an error, and afterwards the name
cache holds the record of `olt-1` and the uuid cache the name of `u-1`, while
there is no row for either. -/
theorem C28_counterexample :
    (device.DBAddByName {} { Name := "olt-1", Uuid := "u-1" }).2 = some "kvstore not initialised"
    ∧ (device.DBAddByName {} { Name := "olt-1", Uuid := "u-1" }).1.nameToRec.load "olt-1"
        = some { Name := "olt-1", Uuid := "u-1" }
    ∧ (device.DBAddByName {} { Name := "olt-1", Uuid := "u-1" }).1.row
        (device.DbPathNameToRecord "olt-1") = none
    ∧ (device.DBAddUuidLookup {} { Name := "olt-1", Uuid := "u-1" }).2
        = some "kvstore not initialised"
    ∧ (device.DBAddUuidLookup {} { Name := "olt-1", Uuid := "u-1" }).1.uuidToName.load "u-1"
        = some "olt-1"
    ∧ (device.DBAddUuidLookup {} { Name := "olt-1", Uuid := "u-1" }).1.row
        (device.DbPathUuidToName "u-1") = none := by
  refine ⟨by decide, by decide, rfl, by decide, by decide, rfl⟩

/-- Claim C28, amended: from a state with the KV client initialised and empty
caches, after any sequence of `DBAddByName`, `DBAddUuidLookup`, `DBGetByName`,
`DBGetByUuid` and `DBDelRecord` calls (none of whose KV writes or deletes then
fails), every entry of the name cache has a row `DevRec/DevName/{name}` that
holds the document of the cached record or decodes to it, and every entry of
the uuid cache has a row `DevRec/DevUuid/{uuid}` whose value is the cached
name; so no cache entry exists for a key that has no row. -/
theorem C28_cache_agrees_with_rows (s0 : State) (calls : List device.RepoCall)
    (name uuid n : String) (rec : DeviceRecord)
    (hkv : s0.kvClient.isSome = true) (hnames : s0.nameToRec = [])
    (huuids : s0.uuidToName = []) :
    ((device.runRepoCalls s0 calls).nameToRec.load name = some rec →
      ∃ v, (device.runRepoCalls s0 calls).row (device.DbPathNameToRecord name) = some v
        ∧ (v = .json rec.jsonMarshal ∨ DeviceRecord.jsonUnmarshal v = .ok rec))
    ∧ ((device.runRepoCalls s0 calls).uuidToName.load uuid = some n →
      ∃ v, (device.runRepoCalls s0 calls).row (device.DbPathUuidToName uuid) = some v
        ∧ v.toText = n)
    ∧ ((device.runRepoCalls s0 calls).row (device.DbPathNameToRecord name) = none →
        (device.runRepoCalls s0 calls).nameToRec.load name = none)
    ∧ ((device.runRepoCalls s0 calls).row (device.DbPathUuidToName uuid) = none →
        (device.runRepoCalls s0 calls).uuidToName.load uuid = none) := by
  have h0 : device.cacheInv s0 := by
    refine ⟨hkv, ?_, ?_⟩
    · intro a r hl; rw [hnames] at hl; cases hl
    · intro a r hl; rw [huuids] at hl; cases hl
  obtain ⟨_, h2, h3⟩ := device.cacheInv_runRepoCalls s0 calls h0
  refine ⟨h2 name rec, h3 uuid n, ?_, ?_⟩
  · intro hrow
    cases hl : (device.runRepoCalls s0 calls).nameToRec.load name with
    | none => rfl
    | some r =>
      obtain ⟨v, hv, _⟩ := h2 name r hl
      rw [hrow] at hv; cases hv
  · intro hrow
    cases hl : (device.runRepoCalls s0 calls).uuidToName.load uuid with
    | none => rfl
    | some r =>
      obtain ⟨v, hv, _⟩ := h3 uuid r hl
      rw [hrow] at hv; cases hv

/-- Witness of C28: `olt-1` is added with its lookup, read through its uuid,
and deleted; no entry of the name cache is left for it. -/
theorem C28_cache_agrees_with_rows_witness :
    (device.runRepoCalls { kvClient := some [] }
        [.addByName { Name := "olt-1", Uuid := "u-1" },
         .addUuidLookup { Name := "olt-1", Uuid := "u-1" }, .getByUuid "u-1",
         .delRecord { Name := "olt-1", Uuid := "u-1" }]).nameToRec.load "olt-1" = none :=
  (C28_cache_agrees_with_rows { kvClient := some [] }
    [.addByName { Name := "olt-1", Uuid := "u-1" },
     .addUuidLookup { Name := "olt-1", Uuid := "u-1" }, .getByUuid "u-1",
     .delRecord { Name := "olt-1", Uuid := "u-1" }] "olt-1" "u-1" "olt-1"
    { Name := "olt-1", Uuid := "u-1" } rfl rfl rfl).2.2.1 rfl

/-! ## C29 -/

/-- Claim C29 fails in the code: `validateStartManagingDeviceReq` checks the uri
and looks for a record of the name, and `DBGetByName` of the empty name returns
no record, so every request with an empty name and a valid uri passes the
validation. On the empty store, with a dial that succeeds and a stream of one
OK frame with the uuid `u-1`, the handler dials an adapter, keeps it in the
connection map under the empty name and forwards the OK frame; it sends no
`INVALID_PARAMS` frame and returns no error. No KV row is written:
`DBAddByName` and `DBAddUuidLookup` refuse the empty name. -/
theorem C29_empty_name_is_accepted :
    (∀ (s : State) (req : ModifiableComponent) (net : Net),
      req.Name = "" → (nbi.validateUri net req.Uri).1 = true →
        (nbi.validateStartManagingDeviceReq net s req).2.2 = true)
    ∧ (nbi.StartManagingDevice { kvClient := some [] } { Name := "", Uri := "10.0.0.1:50051" }
        { net := { ParseIP := fun ip => ip == "10.0.0.1", LookupIP := fun _ => false },
          stream := { frames := [{ Status := .OK_STATUS, DeviceUuid := some "u-1" }] } }).sent
        = [{ Status := .OK_STATUS, DeviceUuid := some "u-1" }]
    ∧ (nbi.StartManagingDevice { kvClient := some [] } { Name := "", Uri := "10.0.0.1:50051" }
        { net := { ParseIP := fun ip => ip == "10.0.0.1", LookupIP := fun _ => false },
          stream := { frames := [{ Status := .OK_STATUS, DeviceUuid := some "u-1" }] } }).err
        = none
    ∧ (nbi.StartManagingDevice { kvClient := some [] } { Name := "", Uri := "10.0.0.1:50051" }
        { net := { ParseIP := fun ip => ip == "10.0.0.1", LookupIP := fun _ => false },
          stream := { frames := [{ Status := .OK_STATUS, DeviceUuid := some "u-1" }] }
        }).state.dialled = [0]
    ∧ (nbi.StartManagingDevice { kvClient := some [] } { Name := "", Uri := "10.0.0.1:50051" }
        { net := { ParseIP := fun ip => ip == "10.0.0.1", LookupIP := fun _ => false },
          stream := { frames := [{ Status := .OK_STATUS, DeviceUuid := some "u-1" }] }
        }).state.nameToAdapter = [("", { id := 0, uri := "10.0.0.1:50051" })]
    ∧ (nbi.StartManagingDevice { kvClient := some [] } { Name := "", Uri := "10.0.0.1:50051" }
        { net := { ParseIP := fun ip => ip == "10.0.0.1", LookupIP := fun _ => false },
          stream := { frames := [{ Status := .OK_STATUS, DeviceUuid := some "u-1" }] }
        }).state.kvClient = some [] := by
  refine ⟨?_, by decide, by decide, by decide, by decide, rfl⟩
  intro s req net hn hv
  have hv2 : nbi.validateUri net req.Uri = (true, (nbi.validateUri net req.Uri).2) := by
    rw [← hv]
  rw [nbi.validateStartManagingDeviceReq, hv2, hn]
  simp [device.DBGetByName]

/-! ## C30 -/

/-- Claim C30: for every state and argument, `DBGetByName` and `DBGetByUuid`
return a record and no error, or no record and an error. An empty argument, a
name with no cache entry and no row, a uuid with no cache entry and no lookup
row, and a uuid whose lookup (cached, or read from its row) names a device `n`
that has no cache entry and no row, all give no record and an error; so the
error responses that the handlers build from such a result do not panic. -/
theorem C30_never_nil_nil (s : State) (key n : String) :
    (((device.DBGetByName s key).2.1 ≠ none ∧ (device.DBGetByName s key).2.2 = none)
      ∨ ((device.DBGetByName s key).2.1 = none ∧ (device.DBGetByName s key).2.2 ≠ none))
    ∧ (((device.DBGetByUuid s key).2.1 ≠ none ∧ (device.DBGetByUuid s key).2.2 = none)
      ∨ ((device.DBGetByUuid s key).2.1 = none ∧ (device.DBGetByUuid s key).2.2 ≠ none))
    ∧ ((device.DBGetByName s "").2.1 = none ∧ (device.DBGetByName s "").2.2 ≠ none
      ∧ (device.DBGetByUuid s "").2.1 = none ∧ (device.DBGetByUuid s "").2.2 ≠ none)
    ∧ (s.nameToRec.load key = none → s.row (device.DbPathNameToRecord key) = none →
        (device.DBGetByName s key).2.1 = none ∧ (device.DBGetByName s key).2.2 ≠ none)
    ∧ (s.uuidToName.load key = none → s.row (device.DbPathUuidToName key) = none →
        (device.DBGetByUuid s key).2.1 = none ∧ (device.DBGetByUuid s key).2.2 ≠ none)
    ∧ ((s.uuidToName.load key = some n
          ∨ (s.uuidToName.load key = none
              ∧ s.row (device.DbPathUuidToName key) = some (.text n))) →
        s.nameToRec.load n = none → s.row (device.DbPathNameToRecord n) = none →
        (device.DBGetByUuid s key).2.1 = none ∧ (device.DBGetByUuid s key).2.2 ≠ none)
    ∧ ((device.DBGetByName s key).2.1 = none →
        (nbi.errRespStopManagingDevice .UNKNOWN_DEVICE (device.DBGetByName s key).2.2).isSome
          = true)
    ∧ ((device.DBGetByUuid s key).2.1 = none →
        (nbi.errRespGetPhysicatInventory .UNKNOWN_DEVICE (device.DBGetByUuid s key).2.2).isSome
          = true) := by
  refine ⟨device.DBGetByName_result s key, device.DBGetByUuid_result s key, ?_,
    device.DBGetByName_absent s key, ?_, ?_, ?_, ?_⟩
  · simp [device.DBGetByName, device.DBGetByUuid]
  · intro hc hrow
    by_cases hu : key = ""
    · simp [device.DBGetByUuid, hu]
    · simp only [device.DBGetByUuid, hu, if_false, hc]
      cases hkv : s.kvClient with
      | none => simp [db.Read_none s _ hkv]
      | some rows =>
        have hl : rows.load (device.DbPathUuidToName key) = none := by
          simpa [State.row, hkv] using hrow
        simp [db.Read_some s rows _ hkv, hl]
  · intro hlook hc hrow
    by_cases hu : key = ""
    · simp [device.DBGetByUuid, hu]
    · simp only [device.DBGetByUuid, hu, if_false]
      rcases hlook with hcache | ⟨hcache, hr⟩
      · rw [hcache]
        exact device.DBGetByName_absent _ n hc hrow
      · rw [hcache]
        cases hkv : s.kvClient with
        | none => simp [State.row, hkv] at hr
        | some rows =>
          have hl : rows.load (device.DbPathUuidToName key) = some (.text n) := by
            simpa [State.row, hkv] using hr
          simp only [db.Read_some s rows _ hkv, hl, KVValue.toText]
          exact device.DBGetByName_absent _ n hc (by simpa [State.row, hkv] using hrow)
  · intro h
    rcases device.DBGetByName_result s key with h1 | h1
    · exact absurd h h1.1
    · cases he : (device.DBGetByName s key).2.2 with
      | none => exact absurd he h1.2
      | some e => rfl
  · intro h
    rcases device.DBGetByUuid_result s key with h1 | h1
    · exact absurd h h1.1
    · cases he : (device.DBGetByUuid s key).2.2 with
      | none => exact absurd he h1.2
      | some e => rfl

/-- Witness of C30: on the store where the lookup row of `u-1` names `olt-1`
and `olt-1` has no row, `DBGetByUuid("u-1")` gives no record and an error. -/
theorem C30_never_nil_nil_witness :
    (device.DBGetByUuid { kvClient := some ([(device.DbPathUuidToName "u-1", .text "olt-1")]) }
        "u-1").2.1 = none
    ∧ (device.DBGetByUuid { kvClient := some ([(device.DbPathUuidToName "u-1", .text "olt-1")]) }
        "u-1").2.2 ≠ none :=
  (C30_never_nil_nil { kvClient := some ([(device.DbPathUuidToName "u-1", .text "olt-1")]) }
    "u-1" "olt-1").2.2.2.2.2.1 (Or.inr ⟨rfl, rfl⟩) rfl rfl

end OpenDevMgr
